import Mathlib

/-!
Verification of the `sqlgen` randomized SQL generator (file `sqlgen/start.go`).

The Go source under `src/sqlgen/start.go` contains the production library
(`start`, `createTable`, `flashBackTable`, ...) and the interaction-test
driver (`runInteractTest`, `ValidateErrs`).  The grammar-combinator
framework (`Fn`, `Or`, `Repeat`, ...), the catalog model (`State`, `Table`,
`Column`, `Index`) and the random primitives live in other files of the
repository that are not available; those parts are modelled from the
specification and are marked `Modelled from the spec:` in their doc
comments.  Every production below is a direct transcription of the Go
function of the same name.

Randomness is modelled by an explicit stream of draws (`R`): each
`rand.Intn n` consumes one element of the stream and reduces it mod `n`.
`rand.Intn 0` panics in Go; panics and failed assertions are modelled by
`Option.none`, so evaluation is a function
`GState → R → Option (result × GState × R)`.
-/

/-- Decimal digits of a natural number (most significant first), with fuel. -/
def decDigits (fuel : Nat) (n : Nat) : List Char :=
  match fuel with
  | 0 => []
  | fuel + 1 =>
    if n < 10 then [Nat.digitChar n]
    else decDigits fuel (n / 10) ++ [Nat.digitChar (n % 10)]

/-- Decimal representation of a natural number, used to render identifiers
such as `t0`, `c1`, `i2` and integer literals. -/
def decRepr (n : Nat) : String := ⟨decDigits (n + 1) n⟩

theorem decDigits_ne_nil (fuel n : Nat) : decDigits (fuel + 1) n ≠ [] := by
  unfold decDigits
  split <;> simp

theorem digitChar_isDigit (n : Nat) (h : n < 10) : (Nat.digitChar n).isDigit = true := by
  interval_cases n <;> decide

theorem decDigits_digits (fuel n : Nat) :
    ∀ c ∈ decDigits fuel n, c.isDigit = true := by
  induction fuel generalizing n with
  | zero => intro c hc; simp [decDigits] at hc
  | succ fuel ih =>
    intro c hc
    unfold decDigits at hc
    split at hc
    · simp at hc
      subst hc
      exact digitChar_isDigit n (by omega)
    · simp at hc
      rcases hc with hc | hc
      · exact ih _ c hc
      · subst hc
        exact digitChar_isDigit _ (Nat.mod_lt _ (by omega))

/-- Prefix test on character lists. -/
def listPre : List Char → List Char → Bool
  | [], _ => true
  | _ :: _, [] => false
  | a :: as, b :: bs => a == b && listPre as bs

/-- Substring test on character lists (Go `strings.Contains`). -/
def listContains : List Char → List Char → Bool
  | l, p =>
    listPre p l ||
      match l with
      | [] => false
      | _ :: ls => listContains ls p

/-- Go `strings.Contains s pat`. -/
def strContains (s pat : String) : Bool := listContains s.data pat.data

/-- ASCII lower-casing of one character (Go `strings.ToLower` on ASCII SQL). -/
def asciiLowerChar (c : Char) : Char :=
  if 65 ≤ c.toNat ∧ c.toNat ≤ 90 then Char.ofNat (c.toNat + 32) else c

/-- ASCII lower-casing of a string. -/
def asciiLower (s : String) : String := ⟨s.data.map asciiLowerChar⟩

/-- Modelled from the spec: column type families
(integer-family, string-family, date/time, float, decimal, blob, enum/set).
The concrete `ColumnType` enumeration is not under `src/`. -/
inductive ColTp where
  | intF
  | stringF
  | datetimeF
  | floatF
  | decimalF
  | blobF
  | enumF
deriving DecidableEq, Repr

/-- Modelled from the spec: a catalog column (`Column` is not under `src/`):
unique name `c<id>`, a type tag, nullability. -/
structure Column where
  id : Nat
  tp : ColTp
  nullable : Bool
deriving DecidableEq, Repr

/-- Column name `c<id>`. -/
def Column.name (c : Column) : String := "c" ++ decRepr c.id

/-- Modelled from the spec: index kinds: primary, unique, non-unique. -/
inductive IndexTp where
  | primary
  | uniqueK
  | nonUnique
deriving DecidableEq, Repr

/-- Modelled from the spec: a catalog index (`Index` is not under `src/`):
unique name `i<id>`, a kind, an ordered column list. -/
structure Index where
  id : Nat
  tp : IndexTp
  columns : List Column
deriving DecidableEq, Repr

/-- Index name `i<id>`. -/
def Index.name (i : Index) : String := "i" ++ decRepr i.id

/-- Modelled from the spec: `Index.IsUnique`; a primary index is unique. -/
def Index.isUniqueIdx (i : Index) : Bool := i.tp == .primary || i.tp == .uniqueK

/-- Modelled from the spec: a catalog table (`Table` is not under `src/`):
unique name `t<id>`, ordered columns, indices, partition column list,
sample-row buffer `values`, `colForPrefixIndex` scratch and the ids of the
child tables produced by `create table ... like ...`. -/
structure Table where
  id : Nat
  columns : List Column
  indices : List Index
  partitionColumns : List Column
  childTables : List Nat
  values : List (List String)
  colForPrefixIndex : List Column
deriving DecidableEq, Repr

/-- Table name `t<id>`. -/
def Table.name (t : Table) : String := "t" ++ decRepr t.id

/-- Modelled from the spec: a prepared statement (`Prepare` is not under
`src/`): name `p<id>` and the captured parameter columns. -/
structure Prepare where
  id : Nat
  columns : List Column
deriving DecidableEq, Repr

/-- Prepared-statement name `p<id>`. -/
def Prepare.pname (p : Prepare) : String := "p" ++ decRepr p.id

/-- Modelled from the spec: the weight profile (`ControlOption.Weight`);
only the fields read by `start.go` are kept, with the source field names. -/
structure Weights where
  SetRowFormat : Nat
  SetClustered : Nat
  AdminCheck : Nat
  CreateTable : Nat
  CreateTable_WithoutLike : Nat
  CreateTable_MaxColumnCnt : Nat
  CreateTable_IndexMoreCol : Nat
  CreateTable_WithClusterHint : Bool
  CreateTable_Partition_Type : String
  Query : Nat
  Query_DML : Nat
  Query_DDL : Nat
  Query_Split : Nat
  Query_Analyze : Nat
  Query_Prepare : Nat
  Query_Select : Nat
  Query_DML_DEL : Nat
  Query_DML_INSERT : Nat
  Query_DML_INSERT_ON_DUP : Nat
  Query_DML_UPDATE : Nat
  Query_DML_DEL_COMMON : Nat
  Query_DML_DEL_INDEX : Nat
  Query_DML_DEL_INDEX_COMMON : Nat
  Query_DML_Can_Be_Replace : Bool
  Query_HasOrderby : Nat
  Query_HasLimit : Nat
  Query_Union : Nat
  Query_Window : Nat
  Query_INDEX_MERGE : Bool
deriving DecidableEq, Repr

/-- Modelled from the spec: the control surface (`ControlOption`); only the
fields read by `start.go` are kept, with the source field names. -/
structure ControlOption where
  Weight : Weights
  MaxTableNum : Nat
  InitTableCount : Nat
  InitColCount : Nat
  InitRowCount : Nat
  EnableTestTiFlash : Bool
  EnableColumnTypeChange : Bool
  EnableSelectOutFileAndLoadData : Bool
  CanReadGCSavePoint : Bool
  StrictTransTable : Bool
  EnableAggPushDown : Bool
  AggType : String
deriving DecidableEq, Repr

/-- Modelled from the spec: the generator `State`.  Tables are addressed by
their position in `tables` (Go productions hold `*Table` pointers; the list
is append-only, so positions are stable).  The scope store is flattened to
one field per scope key used by `start.go`: frames are pushed and popped
within a single `Generate` call, so the transient keys are simply reset at
the top of each call; `ScopeKeyLastOutFileTable` is written with
`StoreInRoot` and survives across calls.  The per-kind global id allocators
(`ScopeKeyTableUniqID`, ...) are the `*Cnt` counters. -/
structure GState where
  ctrl : ControlOption
  tables : List Table
  prepareStmts : List Prepare
  todoSQL : List String
  initialized : Bool
  enabledClustered : Bool
  tableIdCnt : Nat
  colIdCnt : Nat
  idxIdCnt : Nat
  prepIdCnt : Nat
  tmpFileIdCnt : Nat
  lastOutFileTable : Option Nat
  scopeCurrentTable : Option Nat
  scopeCurrentMultiTable : Option (Nat × Nat)
  scopeCurrentPrepare : Option Nat
  scopeCurrentPartitionCol : Option Column
  scopeLastDropTable : Option Nat
deriving DecidableEq, Repr

/-- Modelled from the spec: the realized stream of pseudo-random draws of
the process-global `math/rand` source.  Each draw pops the head (0 when the
stream is exhausted). -/
structure R where
  vals : List Nat
deriving DecidableEq, Repr

/-- Pop one draw from the stream. -/
def R.next (r : R) : Nat × R :=
  match r.vals with
  | [] => (0, ⟨[]⟩)
  | v :: vs => (v, ⟨vs⟩)

/-- Evaluation monad for productions: state plus draw stream, with `none`
for a Go panic or a failed assertion. -/
def Gen (α : Type) : Type := GState → R → Option (α × GState × R)

instance : Monad Gen where
  pure a := fun s r => some (a, s, r)
  bind m f := fun s r =>
    match m s r with
    | none => none
    | some (a, s', r') => f a s' r'

theorem Gen.pure_def {α} (a : α) (s : GState) (r : R) :
    (pure a : Gen α) s r = some (a, s, r) := rfl

theorem Gen.bind_def {α β} (m : Gen α) (f : α → Gen β) (s : GState) (r : R) :
    (m >>= f) s r =
      match m s r with
      | none => none
      | some (a, s', r') => f a s' r' := rfl

theorem Gen.bind_eq_some {α β} {m : Gen α} {f : α → Gen β} {s : GState} {r : R}
    {x : β × GState × R} :
    (m >>= f) s r = some x ↔
      ∃ a s' r', m s r = some (a, s', r') ∧ f a s' r' = some x := by
  rw [Gen.bind_def]
  cases h : m s r with
  | none => simp
  | some y =>
    obtain ⟨a, s', r'⟩ := y
    simp
    constructor
    · intro hx
      exact ⟨a, s', r', ⟨rfl, rfl, rfl⟩, hx⟩
    · rintro ⟨a', s'', r'', ⟨rfl, rfl, rfl⟩, hx⟩
      exact hx

/-- Read the state. -/
def getS : Gen GState := fun s r => some (s, s, r)

/-- Replace the state. -/
def setS (s' : GState) : Gen Unit := fun _ r => some ((), s', r)

/-- Modify the state. -/
def modifyS (f : GState → GState) : Gen Unit := fun s r => some ((), f s, r)

/-- Go panic / fatal condition. -/
def failP {α} : Gen α := fun _ _ => none

/-- Modelled from the spec: `Assert` (grammar invariant violation is fatal). -/
def assertP (b : Bool) : Gen Unit := if b then pure () else failP

/-- Modelled from the spec: `rand.Intn n`: uniform in `[0, n)`; panics when
`n = 0`.  Consumes one draw from the stream. -/
def randIntn (n : Nat) : Gen Nat := fun s r =>
  if n = 0 then none
  else
    let (v, r') := r.next
    some (v % n, s, r')

/-- Modelled from the spec: `RandomBool`. -/
def randomBool : Gen Bool := do
  let v ← randIntn 2
  pure (v == 0)

/-- Modelled from the spec: `RandomNum lo hi`: a decimal string uniform in
`[lo, hi]`. -/
def randomNum (lo hi : Nat) : Gen String := do
  let v ← randIntn (hi + 1 - lo)
  pure (decRepr (lo + v))

/-!  Grammar combinators (modelled from the spec, the combinator framework
is not under `src/`).  A production evaluates to a list of tokens; `And`
concatenates the children's tokens, `Str s` is the single token `s`,
`Empty` contributes no token.  The final SQL string joins tokens with a
single space. -/

/-- Join emitted tokens with single spaces (the wire-level string format). -/
def render (ts : List String) : String := String.intercalate " " ts

/-- Pick the child of a weighted `Or` containing position `v` of the
cumulative weight line; zero-weight children are skipped. -/
def pickW {α : Type} (v : Nat) : List (Nat × α) → Option α
  | [] => none
  | (w, c) :: rest => if v < w then some c else pickW (v - w) rest

/-- Modelled from the spec: weighted `Or`: one child sampled with
probability proportional to its weight; zero-weight children excluded; when
every weight is zero the node emits empty.  `If cond child` inside an `Or`
is a child whose weight is zero when `cond` fails. -/
def orEval (cs : List (Nat × Gen (List String))) : Gen (List String) :=
  let total := (cs.map Prod.fst).sum
  if total = 0 then pure []
  else do
    let v ← randIntn total
    match pickW v cs with
    | none => failP
    | some c => c

/-- Modelled from the spec: `Opt child` is `Or(Empty, child)` with equal
weight. -/
def optE (c : Gen (List String)) : Gen (List String) := orEval [(1, pure []), (1, c)]

/-- Modelled from the spec: `OptIf cond child` is `Opt child` when `cond`
holds and `Empty` otherwise. -/
def optIf (cond : Bool) (c : Gen (List String)) : Gen (List String) :=
  if cond then optE c else pure []

/-- Tail of a `Repeat`: `n` further copies of the body, each preceded by one
evaluation of the separator node. -/
def repTail (body sep : Gen (List String)) : Nat → Gen (List String)
  | 0 => pure []
  | n + 1 => do
    let sp ← sep
    let t ← body
    let rest ← repTail body sep n
    pure (sp ++ t ++ rest)

/-- Modelled from the spec: `Repeat body n sep`: evaluate the body exactly
`n` times, interleaving the separator. -/
def repK (body sep : Gen (List String)) (n : Nat) : Gen (List String) :=
  match n with
  | 0 => pure []
  | n + 1 => do
    let t ← body
    let rest ← repTail body sep n
    pure (t ++ rest)

/-- Modelled from the spec: `RepeatRange lo hi body sep`: like `Repeat` with
the count sampled uniformly in `[lo, hi]` (`rand.Intn (hi-lo+1)`, which
panics when `hi < lo`). -/
def repRange (lo hi : Nat) (body sep : Gen (List String)) :
    Gen (List String) := do
  let n ← randIntn (hi + 1 - lo)
  repK body sep (lo + n)

/-!  State and catalog operations (modelled from the spec; the `State`,
`Table`, `Column`, `Index` and `Prepare` methods are not under `src/`). -/

/-- Update position `i` of a list in place. -/
def listUpd {α : Type} : List α → Nat → (α → α) → List α
  | [], _, _ => []
  | a :: as, 0, f => f a :: as
  | a :: as, i + 1, f => a :: listUpd as i f

theorem listUpd_length {α : Type} (l : List α) (i : Nat) (f : α → α) :
    (listUpd l i f).length = l.length := by
  induction l generalizing i with
  | nil => rfl
  | cons a as ih =>
    cases i with
    | zero => rfl
    | succ i => simpa [listUpd] using ih i

/-- Modelled from the spec: `AllocGlobalID ScopeKeyTableUniqID`. -/
def allocTableID : Gen Nat := fun s r =>
  some (s.tableIdCnt, { s with tableIdCnt := s.tableIdCnt + 1 }, r)

/-- Modelled from the spec: `AllocGlobalID ScopeKeyColumnUniqID`. -/
def allocColID : Gen Nat := fun s r =>
  some (s.colIdCnt, { s with colIdCnt := s.colIdCnt + 1 }, r)

/-- Modelled from the spec: `AllocGlobalID ScopeKeyIndexUniqID`. -/
def allocIdxID : Gen Nat := fun s r =>
  some (s.idxIdCnt, { s with idxIdCnt := s.idxIdCnt + 1 }, r)

/-- Modelled from the spec: `AllocGlobalID ScopeKeyPrepareID`. -/
def allocPrepareID : Gen Nat := fun s r =>
  some (s.prepIdCnt, { s with prepIdCnt := s.prepIdCnt + 1 }, r)

/-- Modelled from the spec: `AllocGlobalID ScopeKeyTmpFileID`. -/
def allocTmpFileID : Gen Nat := fun s r =>
  some (s.tmpFileIdCnt, { s with tmpFileIdCnt := s.tmpFileIdCnt + 1 }, r)

/-- Modelled from the spec: `State.PopOneTodoSQL`: pop the head of the
deferred-SQL FIFO, if any. -/
def popOneTodoSQL : Gen (Option String) := fun s r =>
  match s.todoSQL with
  | [] => some (none, s, r)
  | q :: qs => some (some q, { s with todoSQL := qs }, r)

/-- Modelled from the spec: `State.InjectTodoSQL`: append one SQL string to
the deferred-SQL FIFO. -/
def injectTodoSQL (sql : String) : Gen Unit :=
  modifyS fun s => { s with todoSQL := s.todoSQL ++ [sql] }

/-- Modelled from the spec: `State.AppendTable`. -/
def appendTable (t : Table) : Gen Unit :=
  modifyS fun s => { s with tables := s.tables ++ [t] }

/-- Read the table at position `i` (a Go `*Table` dereference). -/
def readTable (i : Nat) : Gen Table := fun s r =>
  match s.tables.get? i with
  | none => none
  | some t => some (t, s, r)

/-- Mutate the table at position `i` in place (a write through `*Table`). -/
def updTable (i : Nat) (f : Table → Table) : Gen Unit :=
  modifyS fun s => { s with tables := listUpd s.tables i f }

/-- Modelled from the spec: `State.GetRandTable`: a uniformly random table
(panics on an empty catalog); returns its position. -/
def getRandTableIdx : Gen Nat := do
  let s ← getS
  randIntn s.tables.length

/-- Modelled from the spec: `Store ScopeKeyCurrentTable`. -/
def storeCurrentTable (i : Nat) : Gen Unit :=
  modifyS fun s => { s with scopeCurrentTable := some i }

/-- Modelled from the spec: `Store ScopeKeyCurrentMultiTable`. -/
def storeCurrentMultiTable (i j : Nat) : Gen Unit :=
  modifyS fun s => { s with scopeCurrentMultiTable := some (i, j) }

/-- Modelled from the spec: `Store ScopeKeyCurrentPrepare`. -/
def storeCurrentPrepare (pid : Nat) : Gen Unit :=
  modifyS fun s => { s with scopeCurrentPrepare := some pid }

/-- Modelled from the spec: `StoreInParent ScopeKeyCurrentPartitionColumn`
(the parent frame is the enclosing `createTable` evaluation). -/
def storePartitionCol (c : Column) : Gen Unit :=
  modifyS fun s => { s with scopeCurrentPartitionCol := some c }

/-- Modelled from the spec: `Store ScopeKeyLastDropTable`. -/
def storeLastDropTable (i : Nat) : Gen Unit :=
  modifyS fun s => { s with scopeLastDropTable := some i }

/-- Modelled from the spec: `StoreInRoot ScopeKeyLastOutFileTable` (the root
frame survives across `Generate` calls). -/
def storeLastOutFileTable (i : Nat) : Gen Unit :=
  modifyS fun s => { s with lastOutFileTable := some i }

/-- Modelled from the spec: the column type drawn by `GenNewColumn`. -/
def colTpOfDraw (v : Nat) : ColTp :=
  match v % 7 with
  | 0 => .intF
  | 1 => .stringF
  | 2 => .datetimeF
  | 3 => .floatF
  | 4 => .decimalF
  | 5 => .blobF
  | _ => .enumF

/-- Modelled from the spec: `GenNewColumn`: a fresh id and a freshly drawn
type and nullability. -/
def genNewColumn : Gen Column := do
  let id ← allocColID
  let v ← randIntn 7
  let nb ← randomBool
  pure ⟨id, colTpOfDraw v, nb⟩

/-- Modelled from the spec: `GenNewTable`: an empty table with a fresh id. -/
def genNewTable (id : Nat) : Table := ⟨id, [], [], [], [], [], []⟩

/-- Modelled from the spec: literal rendering for a column's typed domain:
integers are decimal numerals, strings and dates single-quoted, binary as
`x&#x27;...&#x27;`, decimals as `a.b`. -/
def ColTp.renderVal (tp : ColTp) (v : Nat) : String :=
  match tp with
  | .intF => decRepr v
  | .stringF => "\x27" ++ decRepr v ++ "\x27"
  | .datetimeF => "\x272020-01-01 00:00:0" ++ decRepr (v % 10) ++ "\x27"
  | .floatF => decRepr (v % 1000) ++ "." ++ decRepr (v % 100)
  | .decimalF => decRepr (v % 1000) ++ "." ++ decRepr (v % 100)
  | .blobF => "x\x27" ++ decRepr v ++ "\x27"
  | .enumF => "\x27e" ++ decRepr (v % 3) ++ "\x27"

/-- Modelled from the spec: `Column.RandomValue`: a literal of the column's
type, `null` possible when nullable. -/
def Column.randomValue (c : Column) : Gen String := do
  let v ← randIntn 1000000007
  if c.nullable && v % 11 == 0 then pure "null" else pure (c.tp.renderVal v)

/-- Modelled from the spec: `Table.GenRandValues cols`: one literal per
column obeying its type. -/
def genRandValues (cols : List Column) : Gen (List String) :=
  match cols with
  | [] => pure []
  | c :: cs => do
    let v ← c.randomValue
    let vs ← genRandValues cs
    pure (v :: vs)

/-- Modelled from the spec: `Column.RandomValuesAsc n`: `n` ascending
literals of the column's type. -/
def Column.randomValuesAsc (c : Column) (n : Nat) : Gen (List String) := do
  let v ← randIntn 1000
  pure ((List.range n).map fun i => c.tp.renderVal (v + i))

/-- Modelled from the spec: `Table.AppendColumn`. -/
def Table.appendColumn (t : Table) (c : Column) : Table :=
  { t with columns := t.columns ++ [c] }

/-- Modelled from the spec: `Table.AppendIndex` (the unique-index partition
injection is done by the caller in `idxDef`, as in the source). -/
def Table.appendIndex (t : Table) (i : Index) : Table :=
  { t with indices := t.indices ++ [i] }

/-- Modelled from the spec: `Table.AppendPartitionColumn`. -/
def Table.appendPartitionColumn (t : Table) (c : Column) : Table :=
  { t with partitionColumns := t.partitionColumns ++ [c] }

/-- Modelled from the spec: `Table.AppendRow`. -/
def Table.appendRow (t : Table) (row : List String) : Table :=
  { t with values := t.values ++ [row] }

/-- Modelled from the spec: `Index.AppendColumnIfNotExists` (used to force
partition columns into unique indices). -/
def Index.appendColumnIfNotExists (i : Index) (c : Column) : Index :=
  if c ∈ i.columns then i else { i with columns := i.columns ++ [c] }

/-- Modelled from the spec: `Table.GetRandColumn` (panics on a column-less
table). -/
def Table.getRandColumn (t : Table) : Gen Column := do
  let v ← randIntn t.columns.length
  match t.columns.get? v with
  | some c => pure c
  | none => failP

/-- Modelled from the spec: a random (possibly empty) subset of a column
list, kept in order. -/
def getRandSubset (cols : List Column) : Gen (List Column) :=
  match cols with
  | [] => pure []
  | c :: cs => do
    let keep ← randomBool
    let rest ← getRandSubset cs
    pure (if keep then c :: rest else rest)

/-- Modelled from the spec: `Table.GetRandColumns`. -/
def Table.getRandColumns (t : Table) : Gen (List Column) := getRandSubset t.columns

/-- Modelled from the spec: `Table.GetRandColumnsNonEmpty`. -/
def Table.getRandColumnsNonEmpty (t : Table) : Gen (List Column) := do
  let cs ← t.getRandColumns
  if cs.isEmpty then do
    let c ← t.getRandColumn
    pure [c]
  else pure cs

/-- Modelled from the spec: `Table.GetRandColumnsIncludedDefaultValue`
(treated as a random column subset; default-value bookkeeping is not
modelled). -/
def Table.getRandColumnsIncludedDefaultValue (t : Table) : Gen (List Column) :=
  t.getRandColumns

/-- Modelled from the spec: `Table.GetRandColumnForPartition`: nil when no
integer-typed non-partitioned column exists, otherwise a random eligible
column. -/
def Table.getRandColumnForPartition (t : Table) : Gen (Option Column) := do
  let eligible := t.columns.filter fun c =>
    c.tp == ColTp.intF && !(t.partitionColumns.contains c)
  if eligible.length = 0 then pure none
  else do
    let v ← randIntn eligible.length
    pure (eligible.get? v)

/-- Modelled from the spec: `Table.GetRandUniqueIndexForPointGet`: nil when
the table has no unique index. -/
def Table.getRandUniqueIndexForPointGet (t : Table) : Gen (Option Index) := do
  let us := t.indices.filter (·.isUniqueIdx)
  if us.length = 0 then pure none
  else do
    let v ← randIntn us.length
    pure (us.get? v)

/-- Modelled from the spec: `Table.GetRandomIndex` (panics on an index-less
table). -/
def Table.getRandomIndex (t : Table) : Gen Index := do
  let v ← randIntn t.indices.length
  match t.indices.get? v with
  | some i => pure i
  | none => failP

/-- Modelled from the spec: `Table.GetPrimaryKeyIndex`. -/
def Table.getPrimaryKeyIndex (t : Table) : Option Index :=
  t.indices.find? (·.tp == IndexTp.primary)

/-- Modelled from the spec: `Table.GetRandIndexPrefixColumn`: the leading
columns of a random index (empty when the table has no index). -/
def Table.getRandIndexPrefixColumn (t : Table) : Gen (List Column) := do
  if t.indices.length = 0 then pure []
  else do
    let v ← randIntn t.indices.length
    match t.indices.get? v with
    | none => pure []
    | some idx => do
      let k ← randIntn (idx.columns.length + 1)
      pure (idx.columns.take k)

/-- Modelled from the spec: `Table.GetRandIndexFirstColumnWithWeight`: a
random column, weighted between any column and the first column of a random
index. -/
def Table.getRandIndexFirstColumnWithWeight (t : Table) (w1 w2 : Nat) : Gen Column := do
  let v ← randIntn (w1 + w2)
  if v < w1 || t.indices.length = 0 then t.getRandColumn
  else do
    let i ← t.getRandomIndex
    match i.columns.head? with
    | some c => pure c
    | none => t.getRandColumn

/-- Modelled from the spec: `Table.GetRandColumnsPreferIndex`: a random
column, preferring columns that appear in some index. -/
def Table.getRandColumnsPreferIndex (t : Table) : Gen Column := do
  let idxCols := t.indices.foldr (fun i acc => i.columns ++ acc) []
  if idxCols.length = 0 then t.getRandColumn
  else do
    let v ← randIntn idxCols.length
    match idxCols.get? v with
    | some c => pure c
    | none => t.getRandColumn

/-- Modelled from the spec: `Table.GetRandColumnsSimple`: a uniformly random
column. -/
def Table.getRandColumnsSimple (t : Table) : Gen Column := t.getRandColumn

/-- Modelled from the spec: `Table.GetRandRow cols`: the projection of a
random sampled row onto `cols`. -/
def Table.getRandRow (t : Table) (cols : List Column) : Gen (List String) := do
  let v ← randIntn t.values.length
  match t.values.get? v with
  | none => failP
  | some row => pure (cols.map fun c => (row.get? (t.columns.indexOf c)).getD "null")

/-- Modelled from the spec: `Table.GetRandRowVal col`. -/
def Table.getRandRowVal (t : Table) (c : Column) : Gen String := do
  let v ← randIntn t.values.length
  match t.values.get? v with
  | none => failP
  | some row => pure ((row.get? (t.columns.indexOf c)).getD "null")

/-- Modelled from the spec: a column is droppable unless it is the last
column of the table or the sole column of the primary key. -/
def Table.isDroppable (t : Table) (c : Column) : Bool :=
  t.columns.length > 1 &&
    !(t.indices.any fun i => i.tp == IndexTp.primary && i.columns == [c])

/-- Modelled from the spec: `Table.HasDroppableColumn`. -/
def Table.hasDroppableColumn (t : Table) : Bool := t.columns.any t.isDroppable

/-- Modelled from the spec: `Table.GetRandDroppableColumn`. -/
def Table.getRandDroppableColumn (t : Table) : Gen Column := do
  let ds := t.columns.filter t.isDroppable
  let v ← randIntn ds.length
  match ds.get? v with
  | some c => pure c
  | none => failP

/-- Modelled from the spec: `Table.RemoveColumn` (the production guards
droppability first). -/
def Table.removeColumn (t : Table) (c : Column) : Table :=
  { t with
    columns := t.columns.filter (· ≠ c)
    indices := t.indices.map fun i => { i with columns := i.columns.filter (· ≠ c) } }

/-- Modelled from the spec: `Table.ReplaceColumn old new`: preserves the
position and propagates the new column into indices referencing the old. -/
def Table.replaceColumn (t : Table) (oldc newc : Column) : Table :=
  { t with
    columns := t.columns.map fun c => if c = oldc then newc else c
    indices := t.indices.map fun i =>
      { i with columns := i.columns.map fun c => if c = oldc then newc else c } }

/-- Modelled from the spec: `Table.RemoveIndex`. -/
def Table.removeIndex (t : Table) (i : Index) : Table :=
  { t with indices := t.indices.filter (· ≠ i) }

/-- Modelled from the spec: the index kind drawn by `GenNewIndex` (never a
second primary index). -/
def genNewIndexTp (hasPrimary : Bool) (v : Nat) : IndexTp :=
  if hasPrimary then (if v % 2 == 0 then .uniqueK else .nonUnique)
  else
    match v % 4 with
    | 0 => .primary
    | 1 => .uniqueK
    | _ => .nonUnique

/-- Modelled from the spec: `GenNewIndex`: a fresh id, a drawn kind and a
random non-empty, duplicate-free column list from the table (panics on a
column-less table, as indexing an empty slice would). -/
def Table.genNewIndex (t : Table) (id : Nat) : Gen Index := do
  let v ← randIntn 4
  let n ← randIntn t.columns.length
  let rot ← randIntn t.columns.length
  let hasPrim := t.indices.any (·.tp == IndexTp.primary)
  let cols := (t.columns.drop rot ++ t.columns.take rot).take (n + 1)
  pure ⟨id, genNewIndexTp hasPrim v, cols⟩

/-- Modelled from the spec: `GenNewPrepare`. -/
def genNewPrepare (id : Nat) : Prepare := ⟨id, []⟩

/-- Modelled from the spec: `State.AppendPrepare`. -/
def appendPrepare (p : Prepare) : Gen Unit :=
  modifyS fun s => { s with prepareStmts := s.prepareStmts ++ [p] }

/-- Modelled from the spec: `State.GetRandPrepare`: a random prepared
statement's position. -/
def getRandPrepareIdx : Gen Nat := do
  let s ← getS
  randIntn s.prepareStmts.length

/-- Read the prepared statement at position `i`. -/
def readPrepare (i : Nat) : Gen Prepare := fun s r =>
  match s.prepareStmts.get? i with
  | none => none
  | some p => some (p, s, r)

/-- Modelled from the spec: `State.RemovePrepare`. -/
def removePrepareAt (i : Nat) : Gen Unit :=
  modifyS fun s => { s with prepareStmts := s.prepareStmts.eraseIdx i }

/-- Modelled from the spec: `Prepare.AppendColumns` through the scope's
`*Prepare` pointer: the prepared statement with id `pid` records extra
parameter columns. -/
def prepareAppendColumns (pid : Nat) (cs : List Column) : Gen Unit :=
  modifyS fun s =>
    { s with
      prepareStmts := s.prepareStmts.map fun p =>
        if p.id = pid then { p with columns := p.columns ++ cs } else p }

/-- Modelled from the spec: `Prepare.GenAssignments`: one
`set @u<k> = <literal>` per captured parameter column. -/
def genAssignmentsAux (k : Nat) (cs : List Column) : Gen (List String) :=
  match cs with
  | [] => pure []
  | c :: rest => do
    let v ← c.randomValue
    let restA ← genAssignmentsAux (k + 1) rest
    pure (("set @u" ++ decRepr k ++ " = " ++ v) :: restA)

/-- Modelled from the spec: `Prepare.GenAssignments` over the prepared
statement's captured columns. -/
def Prepare.genAssignments (p : Prepare) : Gen (List String) :=
  genAssignmentsAux 1 p.columns

/-- Modelled from the spec: `Prepare.UserVars`: `@u1, @u2, ...`. -/
def Prepare.userVars (p : Prepare) : List String :=
  (List.range p.columns.length).map fun i => "@u" ++ decRepr (i + 1)

/-- Comma-join without spaces. -/
def commaJoin : List String → String
  | [] => ""
  | [x] => x
  | x :: xs => x ++ ("," ++ commaJoin xs)

/-- Modelled from the spec: `PrintColumnType`. -/
def printColumnType (c : Column) : String :=
  match c.tp with
  | .intF => "int"
  | .stringF => "varchar(40)"
  | .datetimeF => "datetime"
  | .floatF => "float"
  | .decimalF => "decimal(12,4)"
  | .blobF => "blob"
  | .enumF => "enum(\x27e0\x27,\x27e1\x27,\x27e2\x27)"

/-- Modelled from the spec: `PrintIndexType`: `primary`, `unique` or
nothing. -/
def printIndexType (i : Index) : String :=
  match i.tp with
  | .primary => "primary"
  | .uniqueK => "unique"
  | .nonUnique => ""

/-- Modelled from the spec: `PrintIndexColumnNames`. -/
def printIndexColumnNames (i : Index) : String :=
  commaJoin (i.columns.map (·.name))

/-- Modelled from the spec: `PrintColumnNamesWithoutPar cols dflt`. -/
def printColumnNamesWithoutPar (cols : List Column) (dflt : String) : String :=
  if cols.isEmpty then dflt else commaJoin (cols.map (·.name))

/-- Modelled from the spec: `PrintColumnNamesWithPar cols dflt`. -/
def printColumnNamesWithPar (cols : List Column) (dflt : String) : String :=
  "(" ++ printColumnNamesWithoutPar cols dflt ++ ")"

/-- Modelled from the spec: `PrintRandValues`. -/
def printRandValues (vs : List String) : String := commaJoin vs

/-- Modelled from the spec: `PrintFullQualifiedColName`. -/
def printFullQualifiedColName (t : Table) (cols : List Column) : String :=
  if cols.isEmpty then t.name ++ ".*"
  else commaJoin (cols.map fun c => t.name ++ "." ++ c.name)

/-- Modelled from the spec: `PrintRangePartitionDefs`: ascending
`partition p<k> values less than (v)` items. -/
def printRangePartitionDefs (vals : List String) : String :=
  commaJoin <| (vals.zip (List.range vals.length)).map fun p =>
    "partition p" ++ decRepr p.2 ++ " values less than (" ++ p.1 ++ ")"

/-- Modelled from the spec: `PrintListPartitionDefs`: grouped
`partition p<k> values in (...)` items. -/
def printListPartitionDefs (groups : List (List String)) : String :=
  commaJoin <| (groups.zip (List.range groups.length)).map fun p =>
    "partition p" ++ decRepr p.2 ++ " values in (" ++ commaJoin p.1 ++ ")"

/-- Modelled from the spec: `RandomGroups`: split the values into `n`
consecutive non-empty bins (as even as possible). -/
def randomGroups (vals : List String) (n : Nat) : List (List String) :=
  match n with
  | 0 => []
  | n + 1 =>
    if vals.length ≤ 1 then [vals]
    else
      let k := max 1 (vals.length / (n + 1))
      vals.take k :: randomGroups (vals.drop k) n

/-- Modelled from the spec: `Table.GenMultipleRowsAscForHandleCols n`:
`n` ascending rows over the handle columns. -/
def Table.genMultipleRowsAscForHandleCols (t : Table) (n : Nat) : Gen (List (List String)) := do
  let v ← randIntn 1000
  pure ((List.range n).map fun i => t.columns.map fun c => c.tp.renderVal (v + i))

/-- Modelled from the spec: `Table.GenMultipleRowsAscForIndexCols n idx`:
`n` ascending rows over the index columns. -/
def Table.genMultipleRowsAscForIndexCols (t : Table) (n : Nat) (idx : Index) :
    Gen (List (List String)) := do
  let v ← randIntn 1000
  pure ((List.range n).map fun i => idx.columns.map fun c => c.tp.renderVal (v + i))

/-- Modelled from the spec: `PrintSplitByItems`. -/
def printSplitByItems (rows : List (List String)) : String :=
  commaJoin (rows.map fun row => "(" ++ commaJoin row ++ ")")

/-- Modelled from the spec: `PrintRandomAggFunc`: a random aggregate over a
drawn column, aliased `aggCol`. -/
def printRandomAggFunc (cols : List Column) : Gen String := do
  let v ← randIntn 5
  let fn := match v with
    | 0 => "count"
    | 1 => "sum"
    | 2 => "avg"
    | 3 => "max"
    | _ => "min"
  let cn := match cols.head? with
    | some c => c.name
    | none => "*"
  pure (fn ++ "(" ++ cn ++ ") aggCol")

/-- Modelled from the spec: `PrintRandomWindowFunc`. -/
def printRandomWindowFunc (t : Table) : Gen String := do
  let v ← randIntn 3
  pure (match v with
    | 0 => "row_number()"
    | 1 => "rank()"
    | _ => "dense_rank()")

/-- Modelled from the spec: `PrintRandomWindow`. -/
def printRandomWindow (t : Table) : Gen String := do
  let c ← t.getRandColumn
  pure ("(order by " ++ c.name ++ ")")

/-- Modelled from the spec: `PrintRandomAssignments`: `c = v` items. -/
def printRandomAssignments (cols : List Column) : Gen String := do
  let vs ← genRandValues cols
  pure <| commaJoin <| (cols.zip vs).map fun p => p.1.name ++ " = " ++ p.2

/-- Modelled from the spec: `PrintPredicateDNF cols pts`: a disjunction of
per-point conjunctions `(c1 = v1 and c2 = v2) or ...`. -/
def printPredicateDNF (cols : List Column) (pts : List (List String)) : String :=
  "(" ++ (String.intercalate ") or (" <| pts.map fun vs =>
    String.intercalate " and " <| (cols.zip vs).map fun p =>
      p.1.name ++ " = " ++ p.2) ++ ")"

/-- Modelled from the spec: `PrintPredicateCompoundDNF cols pts`: a
disjunction of row-value equalities `(c1,c2) = (v1,v2) or ...`. -/
def printPredicateCompoundDNF (cols : List Column) (pts : List (List String)) : String :=
  "(" ++ (String.intercalate ") or (" <| pts.map fun vs =>
    "(" ++ commaJoin (cols.map (·.name)) ++ ") = (" ++ commaJoin vs ++ ")") ++ ")"

/-- Modelled from the spec: `PrintPredicateIn cols pts`:
`(c1,c2) in ((v11,v12),...)`. -/
def printPredicateIn (cols : List Column) (pts : List (List String)) : String :=
  "(" ++ commaJoin (cols.map (·.name)) ++ ") in (" ++
    commaJoin (pts.map fun vs => "(" ++ commaJoin vs ++ ")") ++ ")"

/-- Modelled from the spec: `SwapOutParameterizedColumns`: a random subset
of the columns becomes parameters of the current prepared statement. -/
def swapOutParameterizedColumns (cols : List Column) : Gen (List Column) :=
  getRandSubset cols

/-- Modelled from the spec: `SelectOutFileDir`. -/
def SelectOutFileDir : String := "/tmp/outfile"

/-!  Productions, transcribed one-to-one from `src/sqlgen/start.go`.
Each production is a `Gen (List String)`; tables are addressed by position. -/

/-- Transcribed from `getTable` (start.go): the scope's current table, or a
coin-flip between the two tables of a multi-table query. -/
def getTableIdx : Gen Nat := do
  let s ← getS
  match s.scopeCurrentMultiTable with
  | some (i, j) => do
    let b ← randomBool
    pure (if b then i else j)
  | none =>
    match s.scopeCurrentTable with
    | some i => pure i
    | none => failP

/-- Transcribed from `cmpSymbol` (start.go). -/
def cmpSymbol : Gen (List String) :=
  orEval [(1, pure ["="]), (1, pure ["<"]), (1, pure ["<="]), (1, pure [">"]),
    (1, pure [">="]), (1, pure ["<>"]), (1, pure ["!="])]

/-- Transcribed from `maybeLimit` (start.go): returns `Empty()` because a
`limit` is not friendly to the clustered-index AB test. -/
def maybeLimit : Gen (List String) := pure []

/-- The plain value leaf of `predicate` (start.go): a fresh random literal,
or a value of a sampled row when the table has rows. -/
def randValPlain (t : Table) (randCol : Column) : Gen (List String) := do
  let z ← randIntn 3
  if z = 0 || t.values.length = 0 then do
    let v ← randCol.randomValue
    pure [v]
  else do
    let v ← t.getRandRowVal randCol
    pure [v]

/-- Transcribed from `randVal` inside `predicate` (start.go): with a
prepared statement in scope, a `1/50` chance turns the literal into a `?`
parameter and records the column. -/
def randValP (ti : Nat) (randCol : Column) : Gen (List String) := do
  let s ← getS
  let t ← readTable ti
  match s.scopeCurrentPrepare with
  | some pid => do
    let z ← randIntn 50
    if z = 0 then do
      prepareAppendColumns pid [randCol]
      pure ["?"]
    else randValPlain t randCol
  | none => randValPlain t randCol

/-- Transcribed from `predicate` (start.go): `col <cmp> val` or
`col in (vals)`; in index-merge mode the column is popped from
`colForPrefixIndex` when available. -/
def predicate : Gen (List String) := do
  let s ← getS
  let ti ← getTableIdx
  let t ← readTable ti
  let randCol0 ← t.getRandColumn
  let im := s.ctrl.Weight.Query_INDEX_MERGE
  (if im && t.colForPrefixIndex.length > 0 then
    match t.colForPrefixIndex.head? with
    | some c => do
      updTable ti fun tb => { tb with colForPrefixIndex := tb.colForPrefixIndex.tail }
      pure c
    | none => failP
   else pure randCol0) >>= fun randCol => do
  let colName := t.name ++ "." ++ randCol.name
  orEval [
    (1, do
      let cs ← cmpSymbol
      let v ← randValP ti randCol
      pure ([colName] ++ cs ++ v)),
    (1, do
      let vs ← repRange 1 5 (randValP ti randCol) (pure [","])
      pure ([colName, "in", "("] ++ vs ++ [")"]))]

/-- Transcribed from `andPredicates` inside `predicates` (start.go): store a
random index-prefix column list in the table scratch and chain that many
`and`-ed predicates. -/
def andPredicates : Gen (List String) := do
  let ti ← getTableIdx
  let t ← readTable ti
  let pcols ← t.getRandIndexPrefixColumn
  updTable ti fun tb => { tb with colForPrefixIndex := pcols }
  let cnt0 := pcols.length
  let cnt1 := if cnt0 = 0 then 1 else cnt0
  let z ← randIntn 5
  (if z = 0 then do
    let e ← randIntn 2
    pure (cnt1 + e + 1)
   else pure cnt1) >>= fun cnt =>
  repK predicate (pure ["and"]) cnt

/-- The point-get rows of `predicatesPointGet` (start.go): each point is a
sampled row (when rows exist and a coin says so) or fresh literals. -/
def pointGetVals (t : Table) (idx : Index) : Nat → Gen (List (List String))
  | 0 => pure []
  | n + 1 =>
    (if t.values.length > 0 then
      randomBool >>= fun b =>
        if b then t.getRandRow idx.columns else genRandValues idx.columns
     else genRandValues idx.columns) >>= fun row =>
    pointGetVals t idx n >>= fun rest => pure (row :: rest)

/-- Transcribed from `predicatesPointGet` (start.go): 1-4 points over the
unique index, printed as DNF, compound DNF or an `in` list. -/
def predicatesPointGet (t : Table) (idx : Index) : Gen (List String) := do
  let pc ← randIntn 4
  let pts ← pointGetVals t idx (pc + 1)
  orEval [
    (1, pure [printPredicateDNF idx.columns pts]),
    (1, pure [printPredicateCompoundDNF idx.columns pts]),
    (1, pure [printPredicateIn idx.columns pts])]

/-- The non-index-merge tail of `predicates` (start.go): weight 3 for a
1-5 chain of predicates, weight 1 for a point-get when a unique index
exists. -/
def predicatesRest (t : Table) (uniqueIdx : Option Index) : Gen (List String) :=
  orEval [
    (3, repRange 1 5 predicate (orEval [(1, pure ["and"]), (1, pure ["or"])])),
    ((if uniqueIdx.isSome then 1 else 0),
      match uniqueIdx with
      | some idx => predicatesPointGet t idx
      | none => failP)]

/-- Transcribed from `predicates` (start.go). -/
def predicates : Gen (List String) := do
  let s ← getS
  let ti ← getTableIdx
  let t ← readTable ti
  let uniqueIdx ← t.getRandUniqueIndexForPointGet
  if s.ctrl.Weight.Query_INDEX_MERGE then do
    let z ← randIntn 5
    if z ≠ 0 then repRange 2 5 andPredicates (pure ["or"])
    else predicatesRest t uniqueIdx
  else predicatesRest t uniqueIdx

/-- Transcribed from `updateAssignment` inside `commonUpdate` (start.go). -/
def updateAssignment (ti : Nat) : Gen (List String) := do
  let t ← readTable ti
  let c ← t.getRandColumn
  let v ← c.randomValue
  orEval [(1, pure [c.name, "=", v])]

/-- Transcribed from `commonUpdate` (start.go):
`update t set ... where ... [order by ... <maybeLimit>]`. -/
def commonUpdate : Gen (List String) := do
  let ti ← getRandTableIdx
  let t ← readTable ti
  storeCurrentTable ti
  let orderByCols ← t.getRandColumns
  let assigns ← repRange 1 3 (updateAssignment ti) (pure [","])
  let preds ← predicates
  let tailTs ← optIf (orderByCols.length > 0)
    (do
      let ml ← maybeLimit
      pure (["order by", printColumnNamesWithoutPar orderByCols ""] ++ ml))
  pure (["update", t.name, "set"] ++ assigns ++ ["where"] ++ preds ++ tailTs)

/-- Transcribed from `commonDelete` (start.go):
`delete from t where <predicates | col in (...) | col is null>` with
`maybeLimit` at each tail. -/
def commonDelete : Gen (List String) := do
  let s ← getS
  let w := s.ctrl.Weight
  let ti ← getRandTableIdx
  let t ← readTable ti
  let z ← randIntn (w.Query_DML_DEL_COMMON + w.Query_DML_DEL_INDEX)
  (if z < w.Query_DML_DEL_COMMON then t.getRandColumn
   else (t.getRandIndexFirstColumnWithWeight w.Query_DML_DEL_INDEX_COMMON
     w.Query_DML_DEL_INDEX_COMMON)) >>= fun col => do
  storeCurrentTable ti
  let body ← orEval [
    (1, do
      let p ← predicates
      let ml ← maybeLimit
      pure (p ++ ml)),
    (1, do
      let vs ← repRange 1 9 (do
        let v ← col.randomValue
        pure [v]) (pure [","])
      let ml ← maybeLimit
      pure ([col.name, "in", "("] ++ vs ++ [")"] ++ ml)),
    (1, do
      let ml ← maybeLimit
      pure ([col.name, "is null"] ++ ml))]
  pure (["delete from", t.name, "where"] ++ body)

/-- Transcribed from `onDuplicateUpdate` inside `commonInsert` (start.go). -/
def onDuplicateUpdate (ti : Nat) (onDupW : Nat) : Gen (List String) := do
  let t ← readTable ti
  let cols ← t.getRandColumnsNonEmpty
  let asg ← printRandomAssignments cols
  orEval [(3, pure []), (onDupW, pure ["on duplicate key update", asg])]

/-- Transcribed from `commonInsert` (start.go): `insert | replace` with a
values list or a `set` form, optional `ignore` and optional
`on duplicate key update`. -/
def commonInsert : Gen (List String) := do
  let s ← getS
  let w := s.ctrl.Weight
  let ti ← getRandTableIdx
  let t ← readTable ti
  (if s.ctrl.StrictTransTable then t.getRandColumnsIncludedDefaultValue
   else t.getRandColumns) >>= fun cols => do
  let z ← randIntn 3
  let ior := if z = 0 && w.Query_DML_Can_Be_Replace then "replace" else "insert"
  orEval [
    (1, do
      let ig ← optIf (ior == "insert") (pure ["ignore"])
      let rows ← repRange 1 7 (do
        let vs ← genRandValues cols
        pure ["(", printRandValues vs, ")"]) (pure [","])
      let dup ← optIf (ior == "insert") (onDuplicateUpdate ti w.Query_DML_INSERT_ON_DUP)
      pure ([ior] ++ ig ++ ["into", t.name, printColumnNamesWithPar cols "", "values"]
        ++ rows ++ dup)),
    (1, do
      let ig ← optIf (ior == "insert") (pure ["ignore"])
      let sets ← repRange 1 3 (do
        let c ← t.getRandColumn
        let v ← c.randomValue
        orEval [(1, pure [c.name, "=", v])]) (pure [","])
      let dup ← optIf (ior == "insert") (onDuplicateUpdate ti w.Query_DML_INSERT_ON_DUP)
      pure ([ior] ++ ig ++ ["into", t.name, "set"] ++ sets ++ dup))]

/-- Transcribed from `commonAnalyze` (start.go). -/
def commonAnalyze : Gen (List String) := do
  let ti ← getRandTableIdx
  let t ← readTable ti
  pure ["analyze table", t.name]

/-- The scope's current table position (a `ToTable` dereference that panics
when the key is unset). -/
def currentTableIdx : Gen Nat := do
  let s ← getS
  match s.scopeCurrentTable with
  | some i => pure i
  | none => failP

/-- Transcribed from `addIndex` (start.go). -/
def addIndex : Gen (List String) := do
  let ti ← currentTableIdx
  let t ← readTable ti
  let id ← allocIdxID
  let idx ← t.genNewIndex id
  updTable ti (·.appendIndex idx)
  pure ["alter table", t.name, "add index", idx.name, "(", printIndexColumnNames idx, ")"]

/-- Transcribed from `dropIndex` (start.go). -/
def dropIndex : Gen (List String) := do
  let ti ← currentTableIdx
  let t ← readTable ti
  let idx ← t.getRandomIndex
  updTable ti (·.removeIndex idx)
  pure ["alter table", t.name, "drop index", idx.name]

/-- Transcribed from `addColumn` (start.go). -/
def addColumn : Gen (List String) := do
  let ti ← currentTableIdx
  let t ← readTable ti
  let col ← genNewColumn
  updTable ti (·.appendColumn col)
  pure ["alter table", t.name, "add column", col.name, printColumnType col]

/-- Transcribed from `dropColumn` (start.go). -/
def dropColumn : Gen (List String) := do
  let ti ← currentTableIdx
  let t ← readTable ti
  let col ← t.getRandDroppableColumn
  updTable ti (·.removeColumn col)
  pure ["alter table", t.name, "drop column", col.name]

/-- Transcribed from `alterColumn` (start.go): `modify` keeps the name,
`change` renames; the catalog column is replaced either way. -/
def alterColumn : Gen (List String) := do
  let ti ← currentTableIdx
  let t ← readTable ti
  let col ← t.getRandColumn
  let newCol ← genNewColumn
  let b ← randomBool
  if b = false then do
    let newCol2 := { newCol with id := col.id }
    updTable ti fun tb => tb.replaceColumn col newCol2
    pure ["alter table", t.name, "modify column", col.name, printColumnType newCol2]
  else do
    updTable ti fun tb => tb.replaceColumn col newCol
    pure ["alter table", t.name, "change column", col.name, newCol.name, printColumnType newCol]

/-- Transcribed from `ddlStmt` (start.go). -/
def ddlStmt : Gen (List String) := do
  let s ← getS
  let ti ← getRandTableIdx
  let t ← readTable ti
  storeCurrentTable ti
  orEval [
    (1, addColumn),
    (1, addIndex),
    ((if t.columns.length > 1 && t.hasDroppableColumn then 1 else 0), dropColumn),
    ((if t.indices.length > 0 then 1 else 0), dropIndex),
    ((if s.ctrl.EnableColumnTypeChange then 1 else 0), alterColumn)]

/-- The three-token TiFlash read hint of the selects (start.go). -/
def tiflashHint (t : Table) : List String :=
  ["/*+ read_from_storage(tiflash[", t.name, "]) */"]

/-- The three-token index-merge hint of the selects (start.go). -/
def indexMergeHint (t : Table) : List String :=
  ["/*+ use_index_merge(", t.name, ") */"]

/-- Transcribed from `commonSelect` inside `query` (start.go). -/
def commonSelect (ti : Nat) (cols : List Column) : Gen (List String) := do
  let s ← getS
  let w := s.ctrl.Weight
  let t ← readTable ti
  (match s.scopeCurrentPrepare with
   | some pid => do
     let paramCols ← swapOutParameterizedColumns cols
     prepareAppendColumns pid paramCols
   | none => pure ()) >>= fun _ => do
  let fh ← optIf s.ctrl.EnableTestTiFlash (pure (tiflashHint t))
  let imh ← optIf w.Query_INDEX_MERGE (pure (indexMergeHint t))
  let preds ← predicates
  let ob ← optIf (w.Query_HasOrderby > 0)
    (pure ["order by", printColumnNamesWithoutPar t.columns ""])
  let lim ← optIf (w.Query_HasLimit > 0) (do
    let n ← randomNum 1 1000
    pure ["limit", n])
  pure (["select"] ++ fh ++ imh ++
    [printColumnNamesWithoutPar cols "*", "from", t.name, "where"] ++ preds ++ ob ++ lim)

/-- Transcribed from `forUpdateOpt` inside `query` (start.go). -/
def forUpdateOpt : Gen (List String) := optE (pure ["for update"])

/-- Transcribed from `union` inside `query` (start.go). -/
def unionG : Gen (List String) :=
  orEval [(1, pure ["union"]), (1, pure ["union all"]), (1, pure ["except"]),
    (1, pure ["intersect"])]

/-- Draw `n` random columns of a table (the `aggCols` loop in `aggSelect`). -/
def pickCols (t : Table) : Nat → Gen (List Column)
  | 0 => pure []
  | n + 1 => do
    let c ← t.getRandColumn
    let cs ← pickCols t n
    pure (c :: cs)

/-- Transcribed from `aggSelect` inside `query` (start.go): an aggregate over
a deterministically ordered subquery (`order by <pk> or _tidb_rowid`).  Note
that it mutates `ctrl.EnableAggPushDown` and `ctrl.AggType`. -/
def aggSelect (ti : Nat) : Gen (List String) := do
  let s ← getS
  let w := s.ctrl.Weight
  let t ← readTable ti
  let aggCols ← pickCols t 5
  let groupByCols ← t.getRandColumns
  let aggFunc ← printRandomAggFunc aggCols
  let z1 ← randIntn 2
  let z2 ← randIntn 3
  modifyS fun st =>
    { st with ctrl :=
      { st.ctrl with
        EnableAggPushDown := z1 == 1
        AggType := (["", "hash_agg", "stream_agg"].get? z2).getD "" } }
  let s2 ← getS
  let primaryKeyIdx := t.getPrimaryKeyIndex
  let primaryKeyCols := match primaryKeyIdx with
    | some i => i.columns
    | none => []
  let apd ← optIf s2.ctrl.EnableAggPushDown (pure ["agg_to_cop()"])
  let agt ← optIf (s2.ctrl.AggType ≠ "") (pure [s2.ctrl.AggType ++ "()"])
  let fh ← optIf s2.ctrl.EnableTestTiFlash (pure (tiflashHint t))
  let imh ← optIf w.Query_INDEX_MERGE (pure (indexMergeHint t))
  let preds ← predicates
  let obpk ← optIf primaryKeyIdx.isSome
    (pure [printColumnNamesWithoutPar primaryKeyCols ""])
  let obrid ← optIf primaryKeyIdx.isNone (pure ["_tidb_rowid"])
  let gb1 ← optIf (groupByCols.length > 0) (pure ["group by"])
  let gb2 ← optIf (groupByCols.length > 0)
    (pure [printColumnNamesWithoutPar groupByCols ""])
  let ob ← optIf (w.Query_HasOrderby > 0) (pure ["order by aggCol"])
  let lim ← optIf (w.Query_HasLimit > 0) (do
    let n ← randomNum 1 1000
    pure ["limit", n])
  pure (["select", "/*+"] ++ apd ++ agt ++ ["*/", aggFunc, "from", "(select"] ++ fh ++ imh ++
    ["*", "from", t.name, "where"] ++ preds ++ ["order by"] ++ obpk ++ obrid ++
    [") ordered_tbl"] ++ gb1 ++ gb2 ++ ob ++ lim)

/-- Transcribed from `windowSelect` inside `query` (start.go). -/
def windowSelect (ti : Nat) : Gen (List String) := do
  let s ← getS
  let w := s.ctrl.Weight
  let t ← readTable ti
  let wf ← printRandomWindowFunc t
  let wd ← printRandomWindow t
  let fh ← optIf s.ctrl.EnableTestTiFlash (pure (tiflashHint t))
  let imh ← optIf w.Query_INDEX_MERGE (pure (indexMergeHint t))
  let ob ← optIf (w.Query_HasOrderby > 0)
    (pure ["order by", printColumnNamesWithoutPar t.columns "", ", ", wf ++ " over w"])
  let lim ← optIf (w.Query_HasLimit > 0) (do
    let n ← randomNum 1 1000
    pure ["limit", n])
  pure (["select"] ++ fh ++ imh ++ [wf, "over w", "from", t.name, "window w as", wd] ++
    ob ++ lim)

/-- Modelled from the spec: `ColumnType.IsStringType`. -/
def ColTp.isStringType (tp : ColTp) : Bool := tp == .stringF || tp == .enumF

/-- Modelled from the spec: `ColumnType.IsIntegerType`. -/
def ColTp.isIntegerType (tp : ColTp) : Bool := tp == .intF

/-- The type-compatibility test of `semiJoinStmt` (start.go). -/
def semiCompat (c1 c2 : Column) : Bool :=
  (c1.tp.isStringType && c2.tp.isStringType) ||
  (c1.tp.isIntegerType && c2.tp.isIntegerType) || c1.tp == c2.tp

/-- The retry loop of `semiJoinStmt` (start.go): up to six attempts to find
a compatible right-hand column. -/
def semiRetry (t2 : Table) (preferIndex : Bool) (c1 : Column) (c2 : Column) :
    Nat → Gen Column
  | 0 => pure c2
  | n + 1 =>
    if semiCompat c1 c2 then pure c2
    else
      (if preferIndex then t2.getRandColumnsPreferIndex else t2.getRandColumnsSimple) >>=
        fun c2n => semiRetry t2 preferIndex c1 c2n n

/-- Transcribed from `joinHint` inside `multiTableQuery` (start.go). -/
def joinHint (preferIndex : Bool) (t1 t2 : Table) : Gen (List String) :=
  if preferIndex then
    orEval [
      (1, pure []),
      (1, orEval [
        (1, pure ["INL_JOIN(", t1.name, ",", t2.name, ")"]),
        (1, pure ["INL_HASH_JOIN(", t1.name, ",", t2.name, ")"]),
        (1, pure ["INL_MERGE_JOIN(", t1.name, ",", t2.name, ")"])])]
  else
    orEval [
      (1, pure []),
      (1, orEval [
        (1, pure ["MERGE_JOIN(", t1.name, ",", t2.name, ")"]),
        (1, pure ["HASH_JOIN(", t1.name, ",", t2.name, ")"])])]

/-- Transcribed from `joinPredicate` inside `multiTableQuery` (start.go). -/
def joinPredicate (preferIndex : Bool) (t1 t2 : Table) : Gen (List String) :=
  (if preferIndex then t1.getRandColumnsPreferIndex else t1.getRandColumnsSimple) >>=
    fun c1 =>
  (if preferIndex then t2.getRandColumnsPreferIndex else t2.getRandColumnsSimple) >>=
    fun c2 => do
  let cs ← cmpSymbol
  pure ([c1.name] ++ cs ++ [c2.name])

/-- Transcribed from `semiJoinStmt` inside `multiTableQuery` (start.go). -/
def semiJoinStmt (preferIndex : Bool) (t1 t2 : Table) (cols1 : List Column) :
    Gen (List String) := do
  let s ← getS
  let w := s.ctrl.Weight
  (if preferIndex then t1.getRandColumnsPreferIndex else t1.getRandColumnsSimple) >>=
    fun c1 => do
  (if preferIndex then t2.getRandColumnsPreferIndex else t2.getRandColumnsSimple) >>=
    fun c20 => do
  let c2 ← semiRetry t2 preferIndex c1 c20 6
  let fh ← optIf s.ctrl.EnableTestTiFlash
    (pure ["read_from_storage(tiflash[", t1.name, ",", t2.name, "])"])
  let jh ← joinHint preferIndex t1 t2
  let preds ← predicates
  let ob ← optIf (w.Query_HasOrderby > 0)
    (pure ["order by", printColumnNamesWithoutPar t1.columns ""])
  let lim ← optIf (w.Query_HasLimit > 0) (do
    let n ← randomNum 1 1000
    pure ["limit", n])
  pure (["select", "/*+ "] ++ fh ++ jh ++ [" */", printFullQualifiedColName t1 cols1,
    "from", t1.name, "where", c1.name, "in", "(", "select", c2.name, "from", t2.name,
    "where"] ++ preds ++ [")"] ++ ob ++ lim)

/-- Transcribed from `multiTableQuery` (start.go). -/
def multiTableQuery : Gen (List String) := do
  let s ← getS
  let w := s.ctrl.Weight
  let ti1 ← getRandTableIdx
  let ti2 ← getRandTableIdx
  let t1 ← readTable ti1
  let t2 ← readTable ti2
  let cols1 ← t1.getRandColumns
  let cols2 ← t2.getRandColumns
  storeCurrentMultiTable ti1 ti2
  let preferIndex ← randomBool
  orEval [
    (1, do
      let fh ← optIf s.ctrl.EnableTestTiFlash
        (pure ["read_from_storage(tiflash[", t1.name, ",", t2.name, "])"])
      let jh ← joinHint preferIndex t1 t2
      let jk ← orEval [(1, pure ["left join"]), (1, pure ["join"]), (1, pure ["right join"])]
      let jp ← repRange 1 5 (joinPredicate preferIndex t1 t2)
        (orEval [(1, pure ["and"]), (1, pure ["or"])])
      let preds ← predicates
      let ob ← optIf (w.Query_HasOrderby > 0)
        (pure ["order by", printColumnNamesWithoutPar t1.columns "", ",",
          printColumnNamesWithoutPar t2.columns ""])
      let lim ← optIf (w.Query_HasLimit > 0) (do
        let n ← randomNum 1 1000
        pure ["limit", n])
      pure (["select", "/*+ "] ++ fh ++ jh ++ [" */", printFullQualifiedColName t1 cols1,
        ",", printFullQualifiedColName t2 cols2, "from", t1.name] ++ jk ++ [t2.name, "on"] ++
        jp ++ ["where"] ++ preds ++ ob ++ lim)),
    (1, do
      let fh ← optIf s.ctrl.EnableTestTiFlash
        (pure ["read_from_storage(tiflash[", t1.name, ",", t2.name, "])"])
      let imh ← optIf w.Query_INDEX_MERGE
        (pure ["use_index_merge(", t1.name, ",", t2.name, ")"])
      let jh ← joinHint preferIndex t1 t2
      let ob ← optIf (w.Query_HasOrderby > 0)
        (pure ["order by", printColumnNamesWithoutPar t1.columns "", ",",
          printColumnNamesWithoutPar t2.columns ""])
      let lim ← optIf (w.Query_HasLimit > 0) (do
        let n ← randomNum 1 1000
        pure ["limit", n])
      pure (["select", "/*+ "] ++ fh ++ imh ++ jh ++ [" */",
        printFullQualifiedColName t1 cols1, ",", printFullQualifiedColName t2 cols2,
        "from", t1.name, "join", t2.name] ++ ob ++ lim)),
    (1, semiJoinStmt preferIndex t1 t2 cols1)]

/-- Transcribed from `query` (start.go): the seven query shapes. -/
def query : Gen (List String) := do
  let s ← getS
  let w := s.ctrl.Weight
  let ti ← getRandTableIdx
  storeCurrentTable ti
  let t ← readTable ti
  let cols ← t.getRandColumns
  orEval [
    (1, do
      let a ← commonSelect ti cols
      let f ← forUpdateOpt
      pure (a ++ f)),
    (w.Query_Union, do
      let a1 ← commonSelect ti cols
      let f1 ← forUpdateOpt
      let u ← unionG
      let a2 ← commonSelect ti cols
      let f2 ← forUpdateOpt
      let ob ← optIf (w.Query_HasOrderby > 0)
        (pure ["order by", printColumnNamesWithoutPar cols ""])
      let lim ← optIf (w.Query_HasLimit > 0) (do
        let n ← randomNum 1 1000
        pure ["limit", n])
      pure (["("] ++ a1 ++ f1 ++ [")"] ++ u ++ ["("] ++ a2 ++ f2 ++ [")"] ++ ob ++ lim)),
    (1, do
      let a ← aggSelect ti
      let f ← forUpdateOpt
      pure (a ++ f)),
    (w.Query_Window, do
      let a ← windowSelect ti
      let f ← forUpdateOpt
      pure (a ++ f)),
    (w.Query_Union, do
      let a1 ← aggSelect ti
      let f1 ← forUpdateOpt
      let u ← unionG
      let a2 ← aggSelect ti
      let f2 ← forUpdateOpt
      let ob ← optIf (w.Query_HasOrderby > 0) (pure ["order by aggCol"])
      let lim ← optIf (w.Query_HasLimit > 0) (do
        let n ← randomNum 1 1000
        pure ["limit", n])
      pure (["("] ++ a1 ++ f1 ++ [")"] ++ u ++ ["("] ++ a2 ++ f2 ++ [")"] ++ ob ++ lim)),
    (w.Query_Window + w.Query_Union, do
      let a1 ← windowSelect ti
      let f1 ← forUpdateOpt
      let u ← unionG
      let a2 ← windowSelect ti
      let f2 ← forUpdateOpt
      let ob ← optIf (w.Query_HasOrderby > 0) (pure ["order by 1"])
      let lim ← optIf (w.Query_HasLimit > 0) (do
        let n ← randomNum 1 1000
        pure ["limit", n])
      pure (["("] ++ a1 ++ f1 ++ [")"] ++ u ++ ["("] ++ a2 ++ f2 ++ [")"] ++ ob ++ lim)),
    ((if s.tables.length > 1 then 1 else 0), multiTableQuery)]

/-- Transcribed from `switchRowFormatVer` (start.go). -/
def switchRowFormatVer : Gen (List String) := do
  let b ← randomBool
  if b then pure ["set @@global.tidb_row_format_version = 2"]
  else pure ["set @@global.tidb_row_format_version = 1"]

/-- Transcribed from `switchClustered` (start.go). -/
def switchClustered : Gen (List String) := do
  let b ← randomBool
  if b then do
    modifyS fun s => { s with enabledClustered := false }
    pure ["set @@global.tidb_enable_clustered_index = 0"]
  else do
    modifyS fun s => { s with enabledClustered := true }
    pure ["set @@global.tidb_enable_clustered_index = 1"]

/-- Transcribed from `dropTable` (start.go); this production is defined but
never referenced by `start`. -/
def dropTable : Gen (List String) := do
  let ti ← getRandTableIdx
  let t ← readTable ti
  storeLastDropTable ti
  pure ["drop table", t.name]

/-- Transcribed from `flashBackTable` (start.go): pick a random table,
enqueue `flashback table <t>` on the deferred-SQL queue, then emit
`drop table <t>` or `truncate table <t>`. -/
def flashBackTable : Gen (List String) := do
  let ti ← getRandTableIdx
  let t ← readTable ti
  injectTodoSQL ("flashback table " ++ t.name)
  orEval [
    (1, pure ["drop table", t.name]),
    (1, pure ["truncate table", t.name])]

/-- Transcribed from `adminCheck` (start.go): the empty string under
TiFlash testing (tidb issue 22947); otherwise `admin check table <t>` or,
when the table has an index, possibly `admin check index <t> <i>`. -/
def adminCheck : Gen (List String) := do
  let s ← getS
  let ti ← getRandTableIdx
  let t ← readTable ti
  if s.ctrl.EnableTestTiFlash then pure [""]
  else
    if t.indices.length = 0 then pure ["admin check table", t.name]
    else do
      let idx ← t.getRandomIndex
      orEval [
        (1, pure ["admin check table", t.name]),
        (1, pure ["admin check index", t.name, idx.name])]

/-- Transcribed from `colDef` inside `createTable` (start.go). -/
def colDef (ti : Nat) : Gen (List String) := do
  let id ← allocColID
  let v ← randIntn 7
  let nb ← randomBool
  let col : Column := ⟨id, colTpOfDraw v, nb⟩
  updTable ti (·.appendColumn col)
  pure [col.name, printColumnType col]

/-- Transcribed from `colDefs` inside `createTable` (start.go): exactly
`InitColCount` columns before initialization, else a uniform
`1 .. CreateTable_MaxColumnCnt` count. -/
def colDefs (ti : Nat) : Gen (List String) := do
  let s ← getS
  if !s.initialized then repK (colDef ti) (pure [","]) s.ctrl.InitColCount
  else repRange 1 s.ctrl.Weight.CreateTable_MaxColumnCnt (colDef ti) (pure [","])

/-- Transcribed from `idxDef` inside `createTable` (start.go): a fresh
index; when it is unique and `ScopeKeyCurrentPartitionColumn` is set, the
partition column is appended if not already present, before `AppendIndex`. -/
def idxDef (ti : Nat) : Gen (List String) := do
  let s ← getS
  let t ← readTable ti
  let id ← allocIdxID
  let idx0 ← t.genNewIndex id
  (if idx0.isUniqueIdx then
    match s.scopeCurrentPartitionCol with
    | some c => pure (idx0.appendColumnIfNotExists c)
    | none => pure idx0
   else pure idx0) >>= fun idx => do
  updTable ti (·.appendIndex idx)
  let ck ← optIf (idx.tp == IndexTp.primary && s.ctrl.Weight.CreateTable_WithClusterHint)
    (pure ["/*T![clustered_index] clustered */"])
  pure ([printIndexType idx, "key", idx.name, "(", printIndexColumnNames idx, ")"] ++ ck)

/-- Transcribed from `idxDefs` inside `createTable` (start.go). -/
def idxDefs (ti : Nat) : Gen (List String) := do
  let s ← getS
  repRange 1 s.ctrl.Weight.CreateTable_IndexMoreCol (idxDef ti) (pure [","])

/-- Transcribed from `partitionDef` inside `createTable` (start.go): nil
eligible column means no partition clause; otherwise the column is stored
in the parent (createTable) scope frame and appended to the table before a
hash, range or list clause is emitted. -/
def partitionDef (ti : Nat) : Gen (List String) := do
  let s ← getS
  let w := s.ctrl.Weight
  let t ← readTable ti
  let pcOpt ← t.getRandColumnForPartition
  match pcOpt with
  | none => pure []
  | some pcol => do
    storePartitionCol pcol
    updTable ti (·.appendPartitionColumn pcol)
    let z ← randIntn 6
    let randN : Nat :=
      match w.CreateTable_Partition_Type with
      | "hash" => 0
      | "list" => 2
      | "range" => 1
      | _ => z
    match randN with
    | 0 => do
      let pn ← randomNum 1 6
      pure ["partition by", "hash(", pcol.name, ")", "partitions", pn]
    | 1 => do
      let pcount ← randIntn 5
      let vals ← pcol.randomValuesAsc (pcount + 1)
      let z2 ← randIntn 2
      let vals2 := if z2 = 0 then vals ++ ["maxvalue"] else vals
      pure ["partition by range (", pcol.name, ") (", printRangePartitionDefs vals2, ")"]
    | 2 => do
      let listVals ← pcol.randomValuesAsc 20
      let z3 ← randIntn 3
      let listGroups := randomGroups listVals (z3 + 1)
      pure ["partition by", "list(", pcol.name, ") (", printListPartitionDefs listGroups, ")"]
    | _ => pure []

/-- Transcribed from `createTable` (start.go): the `indexOpt` bound of the
index-definition gate: 10, or 1000000 when `Query_INDEX_MERGE` is set. -/
def createTableIndexOpt (im : Bool) : Nat := if im then 1000000 else 10

/-- Whether `createTable` includes the (always-generated) index definitions
in the emitted SQL: the `OptIf` condition `rand.Intn indexOpt ≠ 0` must
hold, and then the `Opt` coin (`Opt child = Or(Empty, child)` with equal
weights) must choose the child. -/
def createTableIncludesIdx (im : Bool) (gate : Nat) (coin : Bool) : Bool :=
  decide (gate % createTableIndexOpt im ≠ 0) && coin

/-- Transcribed from `createTable` (start.go): allocate and append a fresh
table; evaluate `colDefs`, then `partitionDef`, then `idxDefs` (in that
order, with their side effects on the catalog); under TiFlash testing
enqueue the replica DDL and a sleep; the index definitions appear in the
emitted SQL only behind the `OptIf(rand.Intn indexOpt ≠ 0, ...)` gate
(inlined here on the already-evaluated tokens). -/
def createTable : Gen (List String) := do
  let s0 ← getS
  let ti := s0.tables.length
  let id ← allocTableID
  let tbl := genNewTable id
  appendTable tbl
  (if s0.ctrl.EnableTestTiFlash then do
    injectTodoSQL ("alter table " ++ tbl.name ++ " set tiflash replica 1")
    injectTodoSQL "select sleep(20)"
   else pure ()) >>= fun _ => do
  let im := s0.ctrl.Weight.Query_INDEX_MERGE
  let eColDefs ← colDefs ti
  let ePartitionDef ← partitionDef ti
  let eIdxDefs ← idxDefs ti
  let g ← randIntn (createTableIndexOpt im)
  (if g ≠ 0 then do
    let v2 ← randIntn 2
    pure (if createTableIncludesIdx im g (v2 == 1) then [","] ++ eIdxDefs else [])
   else pure []) >>= fun idxPart =>
  pure (["create table", tbl.name, "("] ++ eColDefs ++ idxPart ++ [")"] ++ ePartitionDef)

/-- Modelled from the spec: `State.GetFirstNonFullTable`: the first table
that has not yet received its initialization row quota (panics when every
table is full). -/
def getFirstNonFullTableIdx : Gen Nat := do
  let s ← getS
  match s.tables.findIdx? (fun t => t.values.length < s.ctrl.InitRowCount) with
  | some i => pure i
  | none => failP

/-- Transcribed from `insertInto` (start.go): only legal before
initialization; appends one sampled row. -/
def insertInto : Gen (List String) := do
  let s ← getS
  let _ ← assertP (!s.initialized)
  let ti ← getFirstNonFullTableIdx
  let t ← readTable ti
  let vals ← genRandValues t.columns
  updTable ti (·.appendRow vals)
  pure ["insert into", t.name, "values", "(", printRandValues vals, ")"]

/-- Clone helper: fresh ids for the columns, keeping the old column as the
key of the renaming. -/
def cloneColsAux : List Column → Gen (List (Column × Column))
  | [] => pure []
  | c :: cs => do
    let nid ← allocColID
    let rest ← cloneColsAux cs
    pure ((c, { c with id := nid }) :: rest)

/-- Apply a column renaming. -/
def remapCol (m : List (Column × Column)) (c : Column) : Column :=
  match m.find? (fun p => p.1 = c) with
  | some p => p.2
  | none => c

/-- Clone helper: fresh ids for the indices, with renamed columns. -/
def cloneIdxsAux (m : List (Column × Column)) : List Index → Gen (List Index)
  | [] => pure []
  | i :: is => do
    let nid ← allocIdxID
    let rest ← cloneIdxsAux m is
    pure ({ i with id := nid, columns := i.columns.map (remapCol m) } :: rest)

/-- Modelled from the spec: `Table.Clone`: a new independent table whose
schema mirrors the source with freshly allocated table/column/index ids. -/
def cloneTable (t : Table) : Gen Table := do
  let ntid ← allocTableID
  let m ← cloneColsAux t.columns
  let nidx ← cloneIdxsAux m t.indices
  pure { id := ntid
         columns := m.map (·.2)
         indices := nidx
         partitionColumns := t.partitionColumns.map (remapCol m)
         childTables := []
         values := t.values
         colForPrefixIndex := [] }

/-- Transcribed from `createTableLike` (start.go): clone a random table,
record the clone in the source's `childTables`, and append it. -/
def createTableLike : Gen (List String) := do
  let ti ← getRandTableIdx
  let t ← readTable ti
  let newTbl ← cloneTable t
  updTable ti fun tb => { tb with childTables := tb.childTables ++ [newTbl.id] }
  appendTable newTbl
  pure ["create table", newTbl.name, "like", t.name]

/-- Transcribed from `selectIntoOutFile` (start.go): remembers the table in
the root scope and allocates a tmp-file id. -/
def selectIntoOutFile : Gen (List String) := do
  let ti ← getRandTableIdx
  let t ← readTable ti
  storeLastOutFileTable ti
  let fid ← allocTmpFileID
  let tmpFile := SelectOutFileDir ++ "/" ++ t.name ++ "_" ++ decRepr fid ++ ".txt"
  pure ["select * from", t.name, "into outfile", "\x27" ++ tmpFile ++ "\x27"]

/-- Transcribed from `loadTable` (start.go): reads the last-outfile table
and the tmp-file id from the scope, then indexes `childTables` with
`rand.Intn (len childTables)` — which panics when the list is empty. -/
def loadTable : Gen (List String) := do
  let s ← getS
  (match s.lastOutFileTable with
   | some i => pure i
   | none => failP) >>= fun ti => do
  let t ← readTable ti
  let fid := s.tmpFileIdCnt
  let tmpFile := SelectOutFileDir ++ "/" ++ t.name ++ "_" ++ decRepr fid ++ ".txt"
  let v ← randIntn t.childTables.length
  match t.childTables.get? v with
  | none => failP
  | some cid =>
    pure ["load data local infile", "\x27" ++ tmpFile ++ "\x27", "into table",
      "t" ++ decRepr cid]

/-- Transcribed from `splitRegion` (start.go): the four split shapes over
the table handle or a random index. -/
def splitRegion : Gen (List String) := do
  let ti ← getRandTableIdx
  let t ← readTable ti
  let stp := "split table " ++ t.name
  (if t.indices.length > 0 then randomBool else pure false) >>= fun splittingIndex =>
  if splittingIndex then do
    let v ← randIntn t.indices.length
    (match t.indices.get? v with
     | some i => pure i
     | none => failP) >>= fun idx => do
    let ip := "index " ++ idx.name
    orEval [
      (1, do
        let rows ← t.genMultipleRowsAscForIndexCols 2 idx
        let low := (rows.get? 0).getD []
        let high := (rows.get? 1).getD []
        let rn ← randomNum 2 10
        pure [stp, ip, "between", "(", printRandValues low, ")", "and", "(",
          printRandValues high, ")", "regions", rn]),
      (1, do
        let z ← randIntn 10
        let rows ← t.genMultipleRowsAscForIndexCols (z + 2) idx
        pure [stp, ip, "by", printSplitByItems rows])]
  else
    orEval [
      (1, do
        let rows ← t.genMultipleRowsAscForHandleCols 2
        let low := (rows.get? 0).getD []
        let high := (rows.get? 1).getD []
        let rn ← randomNum 2 10
        pure [stp, "between", "(", printRandValues low, ")", "and", "(",
          printRandValues high, ")", "regions", rn]),
      (1, do
        let z ← randIntn 10
        let rows ← t.genMultipleRowsAscForHandleCols (z + 2)
        pure [stp, "by", printSplitByItems rows])]

/-- Transcribed from `prepareStmt` (start.go). -/
def prepareStmt : Gen (List String) := do
  let id ← allocPrepareID
  let p := genNewPrepare id
  appendPrepare p
  storeCurrentPrepare id
  let q ← query
  pure (["prepare", p.pname, "from", "\""] ++ q ++ ["\""])

/-- Transcribed from `deallocPrepareStmt` (start.go). -/
def deallocPrepareStmt : Gen (List String) := do
  let s ← getS
  assertP (s.prepareStmts.length > 0)
  let i ← getRandPrepareIdx
  let p ← readPrepare i
  removePrepareAt i
  pure ["deallocate prepare", p.pname]

/-- Enqueue a list of SQL strings in order. -/
def injectList : List String → Gen Unit
  | [] => pure ()
  | x :: xs => do
    injectTodoSQL x
    injectList xs

/-- Transcribed from `queryPrepare` (start.go): emits the first `set`
assignment and defers the remaining assignments plus the `execute` through
the deferred-SQL queue. -/
def queryPrepare : Gen (List String) := do
  let s ← getS
  assertP (s.prepareStmts.length > 0)
  let i ← getRandPrepareIdx
  let p ← readPrepare i
  let assignments ← p.genAssignments
  match assignments with
  | [] => pure ["execute " ++ p.pname]
  | a0 :: rest => do
    injectList rest
    injectTodoSQL ("execute " ++ p.pname ++ " using " ++ commaJoin p.userVars)
    pure [a0]

/-- Transcribed from `dmlStmt` (start.go). -/
def dmlStmt : Gen (List String) := do
  let s ← getS
  assertP (s.tables.length > 0)
  let w := s.ctrl.Weight
  orEval [
    (w.Query_Select, query),
    ((if s.prepareStmts.length > 0 then 1 else 0), queryPrepare),
    (w.Query_DML_DEL, commonDelete),
    (w.Query_DML_INSERT, commonInsert),
    (w.Query_DML_UPDATE, commonUpdate)]

/-- Modelled from the spec: `State.MeetInitializedDemand`: at least
`InitTableCount` tables, each populated with its row quota. -/
def meetInitializedDemand (s : GState) : Bool :=
  decide (s.tables.length ≥ s.ctrl.InitTableCount) &&
    s.tables.all fun t => decide (t.values.length ≥ s.ctrl.InitRowCount)

/-- Transcribed from `initStart` (start.go): `createTable` until
`InitTableCount` tables exist (no `MaxTableNum` check here), then
`insertInto`. -/
def initStart : Gen (List String) := do
  let s ← getS
  assertP (!s.initialized)
  if s.tables.length < s.ctrl.InitTableCount then createTable else insertInto

/-- Transcribed from `start` (start.go): pop the deferred-SQL queue first
and emit its head verbatim; otherwise drive `initStart` until the
initialization demand is met; otherwise the weighted main dispatch. -/
def startP : Gen (List String) := do
  let popped ← popOneTodoSQL
  match popped with
  | some q => pure [q]
  | none => do
    let s ← getS
    let w := s.ctrl.Weight
    if !s.initialized then do
      let out ← initStart
      let s2 ← getS
      (if meetInitializedDemand s2 then modifyS fun st => { st with initialized := true }
       else pure ()) >>= fun _ =>
      pure out
    else
      orEval [
        (w.SetRowFormat, switchRowFormatVer),
        (w.SetClustered, switchClustered),
        (w.AdminCheck, adminCheck),
        ((if s.tables.length < s.ctrl.MaxTableNum then w.CreateTable else 0),
          orEval [
            (w.CreateTable_WithoutLike, createTable),
            (1, createTableLike)]),
        ((if s.tables.length > 0 then w.Query else 0),
          orEval [
            (w.Query_DML, dmlStmt),
            (w.Query_DDL, ddlStmt),
            (w.Query_Split, splitRegion),
            (w.Query_Analyze, commonAnalyze),
            (w.Query_Prepare, prepareStmt),
            ((if s.prepareStmts.length > 0 then 1 else 0), deallocPrepareStmt),
            ((if s.ctrl.CanReadGCSavePoint then 1 else 0), flashBackTable),
            ((if s.ctrl.EnableSelectOutFileAndLoadData then 1 else 0),
              orEval [
                (1, selectIntoOutFile),
                ((if s.lastOutFileTable.isSome then 1 else 0), loadTable)])])]

/-- Reset the per-call scope frames (pushed on entry and popped on exit of
each `Generate` call; only the root `ScopeKeyLastOutFileTable` survives). -/
def resetScope (s : GState) : GState :=
  { s with
    scopeCurrentTable := none
    scopeCurrentMultiTable := none
    scopeCurrentPrepare := none
    scopeCurrentPartitionCol := none
    scopeLastDropTable := none }

/-- One call of the producer returned by `NewGenerator` (start.go):
evaluate `start` under a fresh scope and join the emitted tokens. -/
def generate (s : GState) (r : R) : Option (String × GState × R) :=
  match startP (resetScope s) r with
  | none => none
  | some (ts, s', r') => some (render ts, s', r')

/-- A trace of `n` producer calls. -/
def generateN : Nat → GState → R → Option (List String × GState × R)
  | 0, s, r => some ([], s, r)
  | n + 1, s, r =>
    match generate s r with
    | none => none
    | some (q, s', r') =>
      match generateN n s' r' with
      | none => none
      | some (qs, s'', r'') => some (q :: qs, s'', r'')

/-- Modelled from the spec: one step of a concrete PRNG for the
process-global `math/rand` source. -/
def lcgNext (g : Nat) : Nat :=
  (g * 6364136223846793005 + 1442695040888963407) % (2 ^ 64)

/-- Modelled from the spec: the draw stream produced by the PRNG from a
given internal state. -/
def lcgList (g : Nat) : Nat → List Nat
  | 0 => []
  | n + 1 =>
    let g2 := lcgNext g
    (g2 % (2 ^ 31)) :: lcgList g2 n

/-- Modelled from the spec: `rand.Seed`: the PRNG state, hence its whole
draw stream, is a function of the seed alone. -/
def seedR (seed len : Nat) : R := ⟨lcgList seed len⟩

/-- Transcribed from `NewGenerator` (start.go): the constructor seeds the
process-global source from the wall clock (`rand.Seed(time.Now().UnixNano())`);
the spec's contract makes the seed explicitly configurable, which re-seeds
the same global source before the producer draws.  `steps` calls of the
producer then consume the resulting stream. -/
def newGeneratorRun (now : Nat) (override : Option Nat) (len steps : Nat)
    (st : GState) : Option (List String) :=
  let r0 := seedR now len
  let r1 :=
    match override with
    | some sd => seedR sd len
    | none => r0
  (generateN steps st r1).map (·.1)

/-!  The interaction-test driver (`runInteractTest`, `ValidateErrs`,
`OneOfContains` in start.go), as pure functions of the two execution
outcomes.  An outcome is a possible result set plus a possible error
message; `runQuery` returns a nil result set exactly when an error
occurred. -/

/-- Modelled from the spec: the face of `resultset.ResultSet` that
`runInteractTest` consumes: the two digests, whether it is an exec-style
result and its rows-affected count. -/
structure ResultSetM where
  orderedDigest : String
  dataDigest : String
  isExecRes : Bool
  rowsAffected : Nat
deriving DecidableEq, Repr

/-- The possible returns of `runInteractTest`: `ok` is Go's `nil`; the
other constructors carry which error object is propagated. -/
inductive InteractRes where
  | ok
  | err (msg : String)
  | errsMismatch
  | digestMismatch
  | rowsAffectedMismatch
deriving DecidableEq, Repr

/-- Transcribed from `OneOfContains` (start.go): exactly one side errored,
and its message contains `msg`. -/
def OneOfContains (err1 err2 : Option String) (msg : String) : Bool :=
  let c1 := err1.isSome && strContains (err1.getD "") msg && err2.isNone
  let c2 := err2.isSome && strContains (err2.getD "") msg && err1.isNone
  c1 || c2

/-- Transcribed from `ValidateErrs` (start.go): the benign-mismatch
allowlist. -/
def ignoreErrMsgs : List String :=
  ["with index covered now",
   "Unknown system variable",
   "Split table region lower value count should be",
   "Column count doesn\x27t match value count",
   "for column \x27_tidb_rowid\x27",
   "Unknown column \x27_tidb_rowid\x27"]

/-- Transcribed from `ValidateErrs` (start.go): any allowlist match wins;
otherwise both sides must agree on erroring or not. -/
def ValidateErrs (err1 err2 : Option String) : Bool :=
  ignoreErrMsgs.any (fun msg => OneOfContains err1 err2 msg) ||
    ((err1.isNone && err2.isNone) || (err1.isSome && err2.isSome))

/-- Transcribed from `runInteractTest` (start.go), over the two execution
outcomes: the admin-check early returns, the `ValidateErrs` gate, the
nil-result short-circuit, then digest and rows-affected comparison. -/
def runInteractTest (sql : String) (rs1 : Option ResultSetM) (err1 : Option String)
    (rs2 : Option ResultSetM) (err2 : Option String) (sortQueryResult : Bool) :
    InteractRes :=
  let lsql := asciiLower sql
  let isAdminCheck := strContains lsql "admin" && strContains lsql "check"
  if isAdminCheck && err1.isSome && !strContains (err1.getD "") "t exist" then
    .err (err1.getD "")
  else if isAdminCheck && err2.isSome && !strContains (err2.getD "") "t exist" then
    .err (err2.getD "")
  else if !ValidateErrs err1 err2 then .errsMismatch
  else
    match rs1, rs2 with
    | some a, some b =>
      let h1 := if sortQueryResult then a.orderedDigest else a.dataDigest
      let h2 := if sortQueryResult then b.orderedDigest else b.dataDigest
      if h1 ≠ h2 then .digestMismatch
      else if a.isExecRes && a.rowsAffected ≠ b.rowsAffected then .rowsAffectedMismatch
      else .ok
    | _, _ => .ok

/-!  A small preservation framework: `GPres Q m` says every successful
evaluation of `m` relates the pre- and post-state by `Q`. -/

/-- Preservation of a state relation by a production. -/
def GPres {α : Type} (Q : GState → GState → Prop) (m : Gen α) : Prop :=
  ∀ s r a s' r', m s r = some (a, s', r') → Q s s'

theorem some_triple_inj {α : Type} {a b : α} {s s' : GState} {r r' : R}
    (h : (some (a, s, r) : Option (α × GState × R)) = some (b, s', r')) :
    a = b ∧ s = s' ∧ r = r' := by
  simp only [Option.some.injEq, Prod.mk.injEq] at h
  exact ⟨h.1, h.2.1, h.2.2⟩

theorem gpres_pure {Q : GState → GState → Prop} (hrefl : ∀ s, Q s s) {α : Type} (a : α) :
    GPres Q (pure a : Gen α) := by
  intro s r b s' r' h
  obtain ⟨-, rfl, -⟩ := some_triple_inj h
  exact hrefl s

theorem gpres_failP {Q : GState → GState → Prop} {α : Type} :
    GPres Q (failP : Gen α) := by
  intro s r b s' r' h
  exact absurd h (by simp [failP])

theorem gpres_bind {Q : GState → GState → Prop} (htrans : ∀ a b c, Q a b → Q b c → Q a c)
    {α β : Type} {m : Gen α} {f : α → Gen β}
    (hm : GPres Q m) (hf : ∀ a, GPres Q (f a)) : GPres Q (m >>= f) := by
  intro s r b s' r' h
  rw [Gen.bind_eq_some] at h
  obtain ⟨a, s₁, r₁, h₁, h₂⟩ := h
  exact htrans _ _ _ (hm s r a s₁ r₁ h₁) (hf a s₁ r₁ b s' r' h₂)

theorem gpres_ite {Q : GState → GState → Prop} {α : Type} (c : Prop) [Decidable c]
    {m m' : Gen α} (h1 : GPres Q m) (h2 : GPres Q m') :
    GPres Q (if c then m else m') := by
  by_cases hc : c <;> simp [hc] <;> assumption

/-- A production that never changes the state. -/
def StateLess {α : Type} (m : Gen α) : Prop :=
  ∀ s r a s' r', m s r = some (a, s', r') → s' = s

theorem gpres_of_stateless {Q : GState → GState → Prop} (hrefl : ∀ s, Q s s)
    {α : Type} {m : Gen α} (h : StateLess m) : GPres Q m := by
  intro s r a s' r' hm
  rw [h s r a s' r' hm]
  exact hrefl s

theorem stateless_pure {α : Type} (a : α) : StateLess (pure a : Gen α) := by
  intro s r b s' r' h
  obtain ⟨-, rfl, -⟩ := some_triple_inj h
  rfl

theorem stateless_failP {α : Type} : StateLess (failP : Gen α) := by
  intro s r b s' r' h
  exact absurd h (by simp [failP])

theorem stateless_bind {α β : Type} {m : Gen α} {f : α → Gen β}
    (hm : StateLess m) (hf : ∀ a, StateLess (f a)) : StateLess (m >>= f) := by
  intro s r b s' r' h
  rw [Gen.bind_eq_some] at h
  obtain ⟨a, s₁, r₁, h₁, h₂⟩ := h
  rw [hm s r a s₁ r₁ h₁] at h₂
  exact hf a s r₁ b s' r' h₂

theorem stateless_ite {α : Type} (c : Prop) [Decidable c] {m m' : Gen α}
    (h1 : StateLess m) (h2 : StateLess m') : StateLess (if c then m else m') := by
  by_cases hc : c <;> simp [hc] <;> assumption

theorem stateless_getS : StateLess getS := by
  intro s r a s' r' h
  obtain ⟨-, rfl, -⟩ := some_triple_inj h
  rfl

theorem stateless_randIntn (n : Nat) : StateLess (randIntn n) := by
  intro s r a s' r' h
  unfold randIntn at h
  split at h
  · exact absurd h (by simp)
  · obtain ⟨-, rfl, -⟩ := some_triple_inj h
    rfl

theorem stateless_assertP (b : Bool) : StateLess (assertP b) := by
  unfold assertP
  exact stateless_ite _ (stateless_pure _) stateless_failP

theorem stateless_randomBool : StateLess randomBool :=
  stateless_bind (stateless_randIntn 2) (fun _ => stateless_pure _)

theorem stateless_randomNum (lo hi : Nat) : StateLess (randomNum lo hi) :=
  stateless_bind (stateless_randIntn _) (fun _ => stateless_pure _)

theorem stateless_readTable (i : Nat) : StateLess (readTable i) := by
  intro s r a s' r' h
  unfold readTable at h
  split at h
  · exact absurd h (by simp)
  · obtain ⟨-, rfl, -⟩ := some_triple_inj h
    rfl

theorem stateless_readPrepare (i : Nat) : StateLess (readPrepare i) := by
  intro s r a s' r' h
  unfold readPrepare at h
  split at h
  · exact absurd h (by simp)
  · obtain ⟨-, rfl, -⟩ := some_triple_inj h
    rfl

theorem pickW_mem {α : Type} :
    ∀ (cs : List (Nat × α)) (v : Nat) (c : α),
      pickW v cs = some c → ∃ w, (w, c) ∈ cs ∧ 0 < w
  | [], v, c, h => by simp [pickW] at h
  | (w₀, c₀) :: rest, v, c, h => by
    by_cases hvw : v < w₀
    · simp only [pickW, hvw, if_pos] at h
      obtain rfl := Option.some.inj h
      exact ⟨w₀, by simp, by omega⟩
    · simp only [pickW, hvw, if_neg, not_false_iff] at h
      obtain ⟨w, hm, hw⟩ := pickW_mem rest (v - w₀) c h
      exact ⟨w, by simp [hm], hw⟩

/-- Elimination for `orEval`: a successful evaluation is either the
all-weights-zero empty emission, or a positive-weight child evaluated in
the same state (only the draw stream advanced). -/
theorem orEval_eq_some {cs : List (Nat × Gen (List String))} {s : GState} {r : R}
    {x : List String × GState × R} (h : orEval cs s r = some x) :
    ((cs.map Prod.fst).sum = 0 ∧ x = ([], s, r)) ∨
      ∃ w c, (w, c) ∈ cs ∧ 0 < w ∧ ∃ r₁, c s r₁ = some x := by
  unfold orEval at h
  split at h
  · left
    rename_i h0
    exact ⟨h0, (Option.some.inj h).symm⟩
  · right
    rw [Gen.bind_eq_some] at h
    obtain ⟨v, s₁, r₁, h₁, h₂⟩ := h
    have hs₁ : s₁ = s := stateless_randIntn _ s r v s₁ r₁ h₁
    subst hs₁
    cases hp : pickW v cs with
    | none => rw [hp] at h₂; exact absurd h₂ (by simp [failP])
    | some c =>
      rw [hp] at h₂
      obtain ⟨w, hmem, hw⟩ := pickW_mem cs v c hp
      exact ⟨w, c, hmem, hw, r₁, h₂⟩

theorem stateless_orEval {cs : List (Nat × Gen (List String))}
    (h : ∀ p ∈ cs, StateLess p.2) : StateLess (orEval cs) := by
  intro s r a s' r' hm
  rcases orEval_eq_some hm with ⟨-, hx⟩ | ⟨w, c, hmem, -, r₁, hc⟩
  · simp only [Prod.mk.injEq] at hx
    exact hx.2.1
  · exact h (w, c) hmem s r₁ a s' r' hc

theorem stateless_optE {c : Gen (List String)} (h : StateLess c) : StateLess (optE c) :=
  stateless_orEval (by
    intro p hp
    simp [optE] at hp  -- membership in the two-element list
    rcases hp with hp | hp <;> rw [hp]
    · exact stateless_pure _
    · exact h)

theorem stateless_optIf (cond : Bool) {c : Gen (List String)} (h : StateLess c) :
    StateLess (optIf cond c) := by
  unfold optIf
  exact stateless_ite _ (stateless_optE h) (stateless_pure _)

theorem gpres_orEval {Q : GState → GState → Prop} (hrefl : ∀ s, Q s s)
    {cs : List (Nat × Gen (List String))}
    (h : ∀ p ∈ cs, GPres Q p.2) : GPres Q (orEval cs) := by
  intro s r a s' r' hm
  rcases orEval_eq_some hm with ⟨-, hx⟩ | ⟨w, c, hmem, -, r₁, hc⟩
  · simp only [Prod.mk.injEq] at hx
    rw [hx.2.1]
    exact hrefl s
  · exact h (w, c) hmem s r₁ a s' r' hc

theorem gpres_optE {Q : GState → GState → Prop} (hrefl : ∀ s, Q s s)
    {c : Gen (List String)} (h : GPres Q c) : GPres Q (optE c) :=
  gpres_orEval hrefl (by
    intro p hp
    simp [optE] at hp
    rcases hp with hp | hp <;> rw [hp]
    · exact gpres_pure hrefl _
    · exact h)

theorem gpres_optIf {Q : GState → GState → Prop} (hrefl : ∀ s, Q s s) (cond : Bool)
    {c : Gen (List String)} (h : GPres Q c) : GPres Q (optIf cond c) := by
  unfold optIf
  exact gpres_ite _ (gpres_optE hrefl h) (gpres_pure hrefl _)

theorem gpres_repTail {Q : GState → GState → Prop} (hrefl : ∀ s, Q s s)
    (htrans : ∀ a b c, Q a b → Q b c → Q a c) {body sep : Gen (List String)}
    (hb : GPres Q body) (hs : GPres Q sep) :
    ∀ n, GPres Q (repTail body sep n)
  | 0 => gpres_pure hrefl _
  | n + 1 => by
    unfold repTail
    exact gpres_bind htrans hs fun _ =>
      gpres_bind htrans hb fun _ =>
        gpres_bind htrans (gpres_repTail hrefl htrans hb hs n) fun _ =>
          gpres_pure hrefl _

theorem gpres_repK {Q : GState → GState → Prop} (hrefl : ∀ s, Q s s)
    (htrans : ∀ a b c, Q a b → Q b c → Q a c) {body sep : Gen (List String)}
    (hb : GPres Q body) (hs : GPres Q sep) (n : Nat) : GPres Q (repK body sep n) := by
  cases n with
  | zero => exact gpres_pure hrefl _
  | succ n =>
    unfold repK
    exact gpres_bind htrans hb fun _ =>
      gpres_bind htrans (gpres_repTail hrefl htrans hb hs n) fun _ =>
        gpres_pure hrefl _

theorem gpres_repRange {Q : GState → GState → Prop} (hrefl : ∀ s, Q s s)
    (htrans : ∀ a b c, Q a b → Q b c → Q a c) (lo hi : Nat) {body sep : Gen (List String)}
    (hb : GPres Q body) (hs : GPres Q sep) : GPres Q (repRange lo hi body sep) := by
  unfold repRange
  exact gpres_bind htrans (gpres_of_stateless hrefl (stateless_randIntn _)) fun n =>
    gpres_repK hrefl htrans hb hs (lo + n)

theorem stateless_repTail {body sep : Gen (List String)}
    (hb : StateLess body) (hs : StateLess sep) :
    ∀ n, StateLess (repTail body sep n)
  | 0 => stateless_pure _
  | n + 1 => by
    unfold repTail
    exact stateless_bind hs fun _ =>
      stateless_bind hb fun _ =>
        stateless_bind (stateless_repTail hb hs n) fun _ => stateless_pure _

theorem stateless_repK {body sep : Gen (List String)}
    (hb : StateLess body) (hs : StateLess sep) (n : Nat) : StateLess (repK body sep n) := by
  cases n with
  | zero => exact stateless_pure _
  | succ n =>
    unfold repK
    exact stateless_bind hb fun _ =>
      stateless_bind (stateless_repTail hb hs n) fun _ => stateless_pure _

theorem stateless_repRange (lo hi : Nat) {body sep : Gen (List String)}
    (hb : StateLess body) (hs : StateLess sep) : StateLess (repRange lo hi body sep) := by
  unfold repRange
  exact stateless_bind (stateless_randIntn _) fun n => stateless_repK hb hs (lo + n)

theorem stateless_getRandColumn (t : Table) : StateLess t.getRandColumn := by
  unfold Table.getRandColumn
  refine stateless_bind (stateless_randIntn _) fun v => ?_
  cases t.columns.get? v
  · exact stateless_failP
  · exact stateless_pure _

theorem stateless_getRandSubset : ∀ cols : List Column, StateLess (getRandSubset cols)
  | [] => stateless_pure _
  | c :: cs => by
    unfold getRandSubset
    exact stateless_bind stateless_randomBool fun _ =>
      stateless_bind (stateless_getRandSubset cs) fun _ => stateless_pure _

theorem stateless_getRandColumns (t : Table) : StateLess t.getRandColumns :=
  stateless_getRandSubset t.columns

theorem stateless_getRandColumnsNonEmpty (t : Table) : StateLess t.getRandColumnsNonEmpty := by
  unfold Table.getRandColumnsNonEmpty
  refine stateless_bind (stateless_getRandColumns t) fun cs => ?_
  exact stateless_ite _
    (stateless_bind (stateless_getRandColumn t) fun _ => stateless_pure _)
    (stateless_pure _)

theorem stateless_getRandColumnsIncludedDefaultValue (t : Table) :
    StateLess t.getRandColumnsIncludedDefaultValue :=
  stateless_getRandColumns t

theorem stateless_getRandColumnForPartition (t : Table) :
    StateLess t.getRandColumnForPartition := by
  unfold Table.getRandColumnForPartition
  refine stateless_ite _ (stateless_pure _) ?_
  exact stateless_bind (stateless_randIntn _) fun _ => stateless_pure _

theorem stateless_getRandUniqueIndexForPointGet (t : Table) :
    StateLess t.getRandUniqueIndexForPointGet := by
  unfold Table.getRandUniqueIndexForPointGet
  refine stateless_ite _ (stateless_pure _) ?_
  exact stateless_bind (stateless_randIntn _) fun _ => stateless_pure _

theorem stateless_getRandomIndex (t : Table) : StateLess t.getRandomIndex := by
  unfold Table.getRandomIndex
  refine stateless_bind (stateless_randIntn _) fun v => ?_
  cases t.indices.get? v
  · exact stateless_failP
  · exact stateless_pure _

theorem stateless_getRandIndexPrefixColumn (t : Table) :
    StateLess t.getRandIndexPrefixColumn := by
  unfold Table.getRandIndexPrefixColumn
  refine stateless_ite _ (stateless_pure _) ?_
  refine stateless_bind (stateless_randIntn _) fun v => ?_
  cases t.indices.get? v
  · exact stateless_pure _
  · exact stateless_bind (stateless_randIntn _) fun _ => stateless_pure _

theorem stateless_getRandIndexFirstColumnWithWeight (t : Table) (w1 w2 : Nat) :
    StateLess (t.getRandIndexFirstColumnWithWeight w1 w2) := by
  unfold Table.getRandIndexFirstColumnWithWeight
  refine stateless_bind (stateless_randIntn _) fun v => ?_
  refine stateless_ite _ (stateless_getRandColumn t) ?_
  refine stateless_bind (stateless_getRandomIndex t) fun i => ?_
  cases i.columns.head?
  · exact stateless_getRandColumn t
  · exact stateless_pure _

theorem stateless_getRandColumnsPreferIndex (t : Table) :
    StateLess t.getRandColumnsPreferIndex := by
  unfold Table.getRandColumnsPreferIndex
  refine stateless_ite _ (stateless_getRandColumn t) ?_
  refine stateless_bind (stateless_randIntn _) fun v => ?_
  cases (t.indices.foldr (fun i acc => i.columns ++ acc) []).get? v
  · exact stateless_getRandColumn t
  · exact stateless_pure _

theorem stateless_getRandColumnsSimple (t : Table) : StateLess t.getRandColumnsSimple :=
  stateless_getRandColumn t

theorem stateless_getRandRow (t : Table) (cols : List Column) :
    StateLess (t.getRandRow cols) := by
  unfold Table.getRandRow
  refine stateless_bind (stateless_randIntn _) fun v => ?_
  cases t.values.get? v
  · exact stateless_failP
  · exact stateless_pure _

theorem stateless_getRandRowVal (t : Table) (c : Column) : StateLess (t.getRandRowVal c) := by
  unfold Table.getRandRowVal
  refine stateless_bind (stateless_randIntn _) fun v => ?_
  cases t.values.get? v
  · exact stateless_failP
  · exact stateless_pure _

theorem stateless_getRandDroppableColumn (t : Table) :
    StateLess t.getRandDroppableColumn := by
  unfold Table.getRandDroppableColumn
  refine stateless_bind (stateless_randIntn _) fun v => ?_
  cases (t.columns.filter t.isDroppable).get? v
  · exact stateless_failP
  · exact stateless_pure _

theorem stateless_genNewIndex (t : Table) (id : Nat) : StateLess (t.genNewIndex id) := by
  unfold Table.genNewIndex
  exact stateless_bind (stateless_randIntn _) fun _ =>
    stateless_bind (stateless_randIntn _) fun _ =>
      stateless_bind (stateless_randIntn _) fun _ => stateless_pure _

theorem stateless_randomValue (c : Column) : StateLess c.randomValue := by
  unfold Column.randomValue
  exact stateless_bind (stateless_randIntn _) fun v =>
    stateless_ite _ (stateless_pure _) (stateless_pure _)

theorem stateless_genRandValues : ∀ cols : List Column, StateLess (genRandValues cols)
  | [] => stateless_pure _
  | c :: cs => by
    unfold genRandValues
    exact stateless_bind (stateless_randomValue c) fun _ =>
      stateless_bind (stateless_genRandValues cs) fun _ => stateless_pure _

theorem stateless_randomValuesAsc (c : Column) (n : Nat) : StateLess (c.randomValuesAsc n) := by
  unfold Column.randomValuesAsc
  exact stateless_bind (stateless_randIntn _) fun _ => stateless_pure _

theorem stateless_genMultipleRowsAscForHandleCols (t : Table) (n : Nat) :
    StateLess (t.genMultipleRowsAscForHandleCols n) := by
  unfold Table.genMultipleRowsAscForHandleCols
  exact stateless_bind (stateless_randIntn _) fun _ => stateless_pure _

theorem stateless_genMultipleRowsAscForIndexCols (t : Table) (n : Nat) (idx : Index) :
    StateLess (t.genMultipleRowsAscForIndexCols n idx) := by
  unfold Table.genMultipleRowsAscForIndexCols
  exact stateless_bind (stateless_randIntn _) fun _ => stateless_pure _

theorem stateless_printRandomAggFunc (cols : List Column) :
    StateLess (printRandomAggFunc cols) := by
  unfold printRandomAggFunc
  exact stateless_bind (stateless_randIntn _) fun _ => stateless_pure _

theorem stateless_printRandomWindowFunc (t : Table) : StateLess (printRandomWindowFunc t) := by
  unfold printRandomWindowFunc
  exact stateless_bind (stateless_randIntn _) fun _ => stateless_pure _

theorem stateless_printRandomWindow (t : Table) : StateLess (printRandomWindow t) := by
  unfold printRandomWindow
  exact stateless_bind (stateless_getRandColumn t) fun _ => stateless_pure _

theorem stateless_printRandomAssignments (cols : List Column) :
    StateLess (printRandomAssignments cols) := by
  unfold printRandomAssignments
  exact stateless_bind (stateless_genRandValues cols) fun _ => stateless_pure _

theorem stateless_genAssignmentsAux : ∀ (k : Nat) (cs : List Column),
    StateLess (genAssignmentsAux k cs)
  | _, [] => stateless_pure _
  | k, c :: cs => by
    unfold genAssignmentsAux
    exact stateless_bind (stateless_randomValue c) fun _ =>
      stateless_bind (stateless_genAssignmentsAux (k + 1) cs) fun _ => stateless_pure _

theorem stateless_genAssignments (p : Prepare) : StateLess p.genAssignments :=
  stateless_genAssignmentsAux 1 p.columns

theorem stateless_getTableIdx : StateLess getTableIdx := by
  unfold getTableIdx
  refine stateless_bind stateless_getS fun s => ?_
  cases s.scopeCurrentMultiTable with
  | some ij =>
    exact stateless_bind stateless_randomBool fun _ => stateless_pure _
  | none =>
    cases s.scopeCurrentTable
    · exact stateless_failP
    · exact stateless_pure _

theorem stateless_getRandTableIdx : StateLess getRandTableIdx := by
  unfold getRandTableIdx
  exact stateless_bind stateless_getS fun s => stateless_randIntn _

theorem stateless_getFirstNonFullTableIdx : StateLess getFirstNonFullTableIdx := by
  unfold getFirstNonFullTableIdx
  refine stateless_bind stateless_getS fun s => ?_
  cases s.tables.findIdx? fun t => t.values.length < s.ctrl.InitRowCount
  · exact stateless_failP
  · exact stateless_pure _

theorem stateless_getRandPrepareIdx : StateLess getRandPrepareIdx := by
  unfold getRandPrepareIdx
  exact stateless_bind stateless_getS fun s => stateless_randIntn _

theorem stateless_currentTableIdx : StateLess currentTableIdx := by
  unfold currentTableIdx
  refine stateless_bind stateless_getS fun s => ?_
  cases s.scopeCurrentTable
  · exact stateless_failP
  · exact stateless_pure _

theorem stateless_pickCols (t : Table) : ∀ n, StateLess (pickCols t n)
  | 0 => stateless_pure _
  | n + 1 => by
    unfold pickCols
    exact stateless_bind (stateless_getRandColumn t) fun _ =>
      stateless_bind (stateless_pickCols t n) fun _ => stateless_pure _

theorem stateless_semiRetry (t2 : Table) (pi : Bool) (c1 c2 : Column) :
    ∀ n, StateLess (semiRetry t2 pi c1 c2 n)
  | 0 => stateless_pure _
  | n + 1 => by
    unfold semiRetry
    refine stateless_ite (semiCompat c1 c2 = true) (stateless_pure _) ?_
    exact stateless_bind
      (stateless_ite (pi = true) (stateless_getRandColumnsPreferIndex t2)
        (stateless_getRandColumnsSimple t2))
      fun c2n => stateless_semiRetry t2 pi c1 c2n n

theorem stateless_cmpSymbol : StateLess cmpSymbol := by
  unfold cmpSymbol
  refine stateless_orEval ?_
  intro p hp
  simp at hp
  rcases hp with hp | hp | hp | hp | hp | hp | hp <;> rw [hp] <;> exact stateless_pure _

theorem stateless_unionG : StateLess unionG := by
  unfold unionG
  refine stateless_orEval ?_
  intro p hp
  simp at hp
  rcases hp with hp | hp | hp | hp <;> rw [hp] <;> exact stateless_pure _

theorem stateless_forUpdateOpt : StateLess forUpdateOpt :=
  stateless_optE (stateless_pure _)

theorem stateless_joinHint (pi : Bool) (t1 t2 : Table) : StateLess (joinHint pi t1 t2) := by
  unfold joinHint
  split
  · refine stateless_orEval ?_
    intro p hp
    simp at hp
    rcases hp with hp | hp <;> rw [hp] <;> dsimp only
    · exact stateless_pure _
    · refine stateless_orEval ?_
      intro q hq
      simp at hq
      rcases hq with hq | hq | hq <;> rw [hq] <;> dsimp only <;> exact stateless_pure _
  · refine stateless_orEval ?_
    intro p hp
    simp at hp
    rcases hp with hp | hp <;> rw [hp] <;> dsimp only
    · exact stateless_pure _
    · refine stateless_orEval ?_
      intro q hq
      simp at hq
      rcases hq with hq | hq <;> rw [hq] <;> dsimp only <;> exact stateless_pure _

theorem stateless_joinPredicate (pi : Bool) (t1 t2 : Table) :
    StateLess (joinPredicate pi t1 t2) := by
  unfold joinPredicate
  refine stateless_bind
    (stateless_ite _ (stateless_getRandColumnsPreferIndex t1) (stateless_getRandColumnsSimple t1))
    fun _ => ?_
  refine stateless_bind
    (stateless_ite _ (stateless_getRandColumnsPreferIndex t2) (stateless_getRandColumnsSimple t2))
    fun _ => ?_
  exact stateless_bind stateless_cmpSymbol fun _ => stateless_pure _

theorem stateless_pointGetVals (t : Table) (idx : Index) :
    ∀ n, StateLess (pointGetVals t idx n)
  | 0 => stateless_pure _
  | n + 1 => by
    unfold pointGetVals
    refine stateless_bind ?_ fun row =>
      stateless_bind (stateless_pointGetVals t idx n) fun _ => stateless_pure _
    refine stateless_ite _ ?_ (stateless_genRandValues _)
    exact stateless_bind stateless_randomBool fun b =>
      stateless_ite _ (stateless_getRandRow t idx.columns) (stateless_genRandValues _)

theorem stateless_predicatesPointGet (t : Table) (idx : Index) :
    StateLess (predicatesPointGet t idx) := by
  unfold predicatesPointGet
  refine stateless_bind (stateless_randIntn _) fun pc => ?_
  refine stateless_bind (stateless_pointGetVals t idx _) fun pts => ?_
  refine stateless_orEval ?_
  intro p hp
  simp at hp
  rcases hp with hp | hp | hp <;> rw [hp] <;> exact stateless_pure _

/-!  Table-count preservation (`tcQ`): the catalog size and the
`MaxTableNum` / `InitTableCount` bounds are unchanged.  Every production
except `createTable` and `createTableLike` preserves `tcQ`. -/

/-- Catalog size and table-count bounds unchanged. -/
def tcQ (s s' : GState) : Prop :=
  s'.tables.length = s.tables.length ∧
    s'.ctrl.MaxTableNum = s.ctrl.MaxTableNum ∧
    s'.ctrl.InitTableCount = s.ctrl.InitTableCount

theorem tcQ_refl (s : GState) : tcQ s s := ⟨rfl, rfl, rfl⟩

theorem tcQ_trans (a b c : GState) (h1 : tcQ a b) (h2 : tcQ b c) : tcQ a c :=
  ⟨h2.1.trans h1.1, h2.2.1.trans h1.2.1, h2.2.2.trans h1.2.2⟩

theorem gpres_tcQ_modify (f : GState → GState) (h : ∀ s, tcQ s (f s)) :
    GPres tcQ (modifyS f) := by
  intro s r a s' r' hm
  obtain ⟨-, hs, -⟩ := some_triple_inj hm
  rw [← hs]
  exact h s

theorem tc_injectTodoSQL (q : String) : GPres tcQ (injectTodoSQL q) :=
  gpres_tcQ_modify _ (fun s => ⟨rfl, rfl, rfl⟩)

theorem tc_injectList : ∀ l : List String, GPres tcQ (injectList l)
  | [] => gpres_pure tcQ_refl _
  | x :: xs => by
    unfold injectList
    exact gpres_bind tcQ_trans (tc_injectTodoSQL x) fun _ => tc_injectList xs

theorem tc_appendPrepare (p : Prepare) : GPres tcQ (appendPrepare p) :=
  gpres_tcQ_modify _ (fun s => ⟨rfl, rfl, rfl⟩)

theorem tc_removePrepareAt (i : Nat) : GPres tcQ (removePrepareAt i) :=
  gpres_tcQ_modify _ (fun s => ⟨rfl, rfl, rfl⟩)

theorem tc_prepareAppendColumns (pid : Nat) (cs : List Column) :
    GPres tcQ (prepareAppendColumns pid cs) :=
  gpres_tcQ_modify _ (fun s => ⟨rfl, rfl, rfl⟩)

theorem tc_storeCurrentTable (i : Nat) : GPres tcQ (storeCurrentTable i) :=
  gpres_tcQ_modify _ (fun s => ⟨rfl, rfl, rfl⟩)

theorem tc_storeCurrentMultiTable (i j : Nat) : GPres tcQ (storeCurrentMultiTable i j) :=
  gpres_tcQ_modify _ (fun s => ⟨rfl, rfl, rfl⟩)

theorem tc_storeCurrentPrepare (pid : Nat) : GPres tcQ (storeCurrentPrepare pid) :=
  gpres_tcQ_modify _ (fun s => ⟨rfl, rfl, rfl⟩)

theorem tc_storePartitionCol (c : Column) : GPres tcQ (storePartitionCol c) :=
  gpres_tcQ_modify _ (fun s => ⟨rfl, rfl, rfl⟩)

theorem tc_storeLastDropTable (i : Nat) : GPres tcQ (storeLastDropTable i) :=
  gpres_tcQ_modify _ (fun s => ⟨rfl, rfl, rfl⟩)

theorem tc_storeLastOutFileTable (i : Nat) : GPres tcQ (storeLastOutFileTable i) :=
  gpres_tcQ_modify _ (fun s => ⟨rfl, rfl, rfl⟩)

theorem tc_updTable (i : Nat) (f : Table → Table) : GPres tcQ (updTable i f) :=
  gpres_tcQ_modify _ (fun s => ⟨listUpd_length _ _ _, rfl, rfl⟩)

theorem tc_allocTableID : GPres tcQ allocTableID := by
  intro s r a s' r' h
  obtain ⟨-, hs, -⟩ := some_triple_inj h
  rw [← hs]
  exact ⟨rfl, rfl, rfl⟩

theorem tc_allocColID : GPres tcQ allocColID := by
  intro s r a s' r' h
  obtain ⟨-, hs, -⟩ := some_triple_inj h
  rw [← hs]
  exact ⟨rfl, rfl, rfl⟩

theorem tc_allocIdxID : GPres tcQ allocIdxID := by
  intro s r a s' r' h
  obtain ⟨-, hs, -⟩ := some_triple_inj h
  rw [← hs]
  exact ⟨rfl, rfl, rfl⟩

theorem tc_allocPrepareID : GPres tcQ allocPrepareID := by
  intro s r a s' r' h
  obtain ⟨-, hs, -⟩ := some_triple_inj h
  rw [← hs]
  exact ⟨rfl, rfl, rfl⟩

theorem tc_allocTmpFileID : GPres tcQ allocTmpFileID := by
  intro s r a s' r' h
  obtain ⟨-, hs, -⟩ := some_triple_inj h
  rw [← hs]
  exact ⟨rfl, rfl, rfl⟩

theorem tc_stateless {α : Type} {m : Gen α} (h : StateLess m) : GPres tcQ m :=
  gpres_of_stateless tcQ_refl h

theorem stateless_randValPlain (t : Table) (c : Column) : StateLess (randValPlain t c) := by
  unfold randValPlain
  refine stateless_bind (stateless_randIntn 3) fun z => ?_
  refine stateless_ite _ ?_ ?_
  · exact stateless_bind (stateless_randomValue c) fun _ => stateless_pure _
  · exact stateless_bind (stateless_getRandRowVal t c) fun _ => stateless_pure _

theorem tc_randValP (ti : Nat) (c : Column) : GPres tcQ (randValP ti c) := by
  unfold randValP
  refine gpres_bind tcQ_trans (tc_stateless stateless_getS) fun s => ?_
  refine gpres_bind tcQ_trans (tc_stateless (stateless_readTable ti)) fun t => ?_
  cases s.scopeCurrentPrepare with
  | some pid =>
    refine gpres_bind tcQ_trans (tc_stateless (stateless_randIntn 50)) fun z => ?_
    refine gpres_ite _ ?_ (tc_stateless (stateless_randValPlain t c))
    exact gpres_bind tcQ_trans (tc_prepareAppendColumns pid [c]) fun _ =>
      gpres_pure tcQ_refl _
  | none => exact tc_stateless (stateless_randValPlain t c)

theorem tc_cmpSymbol : GPres tcQ cmpSymbol := tc_stateless stateless_cmpSymbol

theorem tc_predicate : GPres tcQ predicate := by
  unfold predicate
  refine gpres_bind tcQ_trans (tc_stateless stateless_getS) fun s => ?_
  refine gpres_bind tcQ_trans (tc_stateless stateless_getTableIdx) fun ti => ?_
  refine gpres_bind tcQ_trans (tc_stateless (stateless_readTable ti)) fun t => ?_
  refine gpres_bind tcQ_trans (tc_stateless (stateless_getRandColumn t)) fun c0 => ?_
  refine gpres_bind tcQ_trans ?_ fun randCol => ?_
  · refine gpres_ite _ ?_ (gpres_pure tcQ_refl _)
    cases t.colForPrefixIndex.head? with
    | some c =>
      exact gpres_bind tcQ_trans (tc_updTable ti _) fun _ => gpres_pure tcQ_refl _
    | none => exact gpres_failP
  · refine gpres_orEval tcQ_refl ?_
    intro p hp
    simp at hp
    rcases hp with hp | hp <;> rw [hp] <;> dsimp only
    · exact gpres_bind tcQ_trans tc_cmpSymbol fun _ =>
        gpres_bind tcQ_trans (tc_randValP ti randCol) fun _ => gpres_pure tcQ_refl _
    · exact gpres_bind tcQ_trans
        (gpres_repRange tcQ_refl tcQ_trans 1 5 (tc_randValP ti randCol)
          (gpres_pure tcQ_refl _)) fun _ => gpres_pure tcQ_refl _

theorem tc_andPredicates : GPres tcQ andPredicates := by
  unfold andPredicates
  refine gpres_bind tcQ_trans (tc_stateless stateless_getTableIdx) fun ti => ?_
  refine gpres_bind tcQ_trans (tc_stateless (stateless_readTable ti)) fun t => ?_
  refine gpres_bind tcQ_trans (tc_stateless (stateless_getRandIndexPrefixColumn t)) fun pcols => ?_
  refine gpres_bind tcQ_trans (tc_updTable ti _) fun _ => ?_
  refine gpres_bind tcQ_trans (tc_stateless (stateless_randIntn 5)) fun z => ?_
  refine gpres_bind tcQ_trans ?_ fun cnt => gpres_repK tcQ_refl tcQ_trans tc_predicate (gpres_pure tcQ_refl _) cnt
  refine gpres_ite _ ?_ (gpres_pure tcQ_refl _)
  exact gpres_bind tcQ_trans (tc_stateless (stateless_randIntn 2)) fun _ => gpres_pure tcQ_refl _

theorem tc_predicatesRest (t : Table) (u : Option Index) : GPres tcQ (predicatesRest t u) := by
  unfold predicatesRest
  refine gpres_orEval tcQ_refl ?_
  intro p hp
  simp at hp
  rcases hp with hp | hp <;> rw [hp] <;> dsimp only
  · refine gpres_repRange tcQ_refl tcQ_trans 1 5 tc_predicate ?_
    refine gpres_orEval tcQ_refl ?_
    intro q hq
    simp at hq
    rcases hq with hq | hq <;> rw [hq] <;> exact gpres_pure tcQ_refl _
  · cases u with
    | some idx => exact tc_stateless (stateless_predicatesPointGet t idx)
    | none => exact gpres_failP

theorem tc_predicates : GPres tcQ predicates := by
  unfold predicates
  refine gpres_bind tcQ_trans (tc_stateless stateless_getS) fun s => ?_
  refine gpres_bind tcQ_trans (tc_stateless stateless_getTableIdx) fun ti => ?_
  refine gpres_bind tcQ_trans (tc_stateless (stateless_readTable ti)) fun t => ?_
  refine gpres_bind tcQ_trans (tc_stateless (stateless_getRandUniqueIndexForPointGet t)) fun u => ?_
  refine gpres_ite _ ?_ (tc_predicatesRest t u)
  refine gpres_bind tcQ_trans (tc_stateless (stateless_randIntn 5)) fun z => ?_
  refine gpres_ite _ ?_ (tc_predicatesRest t u)
  exact gpres_repRange tcQ_refl tcQ_trans 2 5 tc_andPredicates (gpres_pure tcQ_refl _)

theorem tc_updateAssignment (ti : Nat) : GPres tcQ (updateAssignment ti) := by
  unfold updateAssignment
  refine gpres_bind tcQ_trans (tc_stateless (stateless_readTable ti)) fun t => ?_
  refine gpres_bind tcQ_trans (tc_stateless (stateless_getRandColumn t)) fun c => ?_
  refine gpres_bind tcQ_trans (tc_stateless (stateless_randomValue c)) fun v => ?_
  refine gpres_orEval tcQ_refl ?_
  intro p hp
  simp at hp
  rw [hp]
  exact gpres_pure tcQ_refl _

theorem tc_maybeLimit : GPres tcQ maybeLimit := gpres_pure tcQ_refl _

theorem tc_commonUpdate : GPres tcQ commonUpdate := by
  unfold commonUpdate
  refine gpres_bind tcQ_trans (tc_stateless stateless_getRandTableIdx) fun ti => ?_
  refine gpres_bind tcQ_trans (tc_stateless (stateless_readTable ti)) fun t => ?_
  refine gpres_bind tcQ_trans (tc_storeCurrentTable ti) fun _ => ?_
  refine gpres_bind tcQ_trans (tc_stateless (stateless_getRandColumns t)) fun obc => ?_
  refine gpres_bind tcQ_trans
    (gpres_repRange tcQ_refl tcQ_trans 1 3 (tc_updateAssignment ti)
      (gpres_pure tcQ_refl _)) fun _ => ?_
  refine gpres_bind tcQ_trans tc_predicates fun _ => ?_
  refine gpres_bind tcQ_trans (gpres_optIf tcQ_refl _ ?_) fun _ => gpres_pure tcQ_refl _
  exact gpres_bind tcQ_trans tc_maybeLimit fun _ => gpres_pure tcQ_refl _

theorem tc_commonDelete : GPres tcQ commonDelete := by
  unfold commonDelete
  refine gpres_bind tcQ_trans (tc_stateless stateless_getS) fun s => ?_
  refine gpres_bind tcQ_trans (tc_stateless stateless_getRandTableIdx) fun ti => ?_
  refine gpres_bind tcQ_trans (tc_stateless (stateless_readTable ti)) fun t => ?_
  refine gpres_bind tcQ_trans (tc_stateless (stateless_randIntn _)) fun z => ?_
  refine gpres_bind tcQ_trans
    (tc_stateless (stateless_ite _ (stateless_getRandColumn t)
      (stateless_getRandIndexFirstColumnWithWeight t _ _))) fun col => ?_
  refine gpres_bind tcQ_trans (tc_storeCurrentTable ti) fun _ => ?_
  refine gpres_bind tcQ_trans ?_ fun _ => gpres_pure tcQ_refl _
  refine gpres_orEval tcQ_refl ?_
  intro p hp
  simp at hp
  rcases hp with hp | hp | hp <;> rw [hp] <;> dsimp only
  · exact gpres_bind tcQ_trans tc_predicates fun _ =>
      gpres_bind tcQ_trans tc_maybeLimit fun _ => gpres_pure tcQ_refl _
  · refine gpres_bind tcQ_trans
      (gpres_repRange tcQ_refl tcQ_trans 1 9
        (gpres_bind tcQ_trans (tc_stateless (stateless_randomValue col)) fun _ =>
          gpres_pure tcQ_refl _)
        (gpres_pure tcQ_refl _)) fun _ => ?_
    exact gpres_bind tcQ_trans tc_maybeLimit fun _ => gpres_pure tcQ_refl _
  · exact gpres_bind tcQ_trans tc_maybeLimit fun _ => gpres_pure tcQ_refl _

theorem tc_onDuplicateUpdate (ti : Nat) (w : Nat) : GPres tcQ (onDuplicateUpdate ti w) := by
  unfold onDuplicateUpdate
  refine gpres_bind tcQ_trans (tc_stateless (stateless_readTable ti)) fun t => ?_
  refine gpres_bind tcQ_trans (tc_stateless (stateless_getRandColumnsNonEmpty t)) fun cols => ?_
  refine gpres_bind tcQ_trans (tc_stateless (stateless_printRandomAssignments cols)) fun asg => ?_
  refine gpres_orEval tcQ_refl ?_
  intro p hp
  simp at hp
  rcases hp with hp | hp <;> rw [hp] <;> exact gpres_pure tcQ_refl _

theorem tc_commonInsert : GPres tcQ commonInsert := by
  unfold commonInsert
  refine gpres_bind tcQ_trans (tc_stateless stateless_getS) fun s => ?_
  refine gpres_bind tcQ_trans (tc_stateless stateless_getRandTableIdx) fun ti => ?_
  refine gpres_bind tcQ_trans (tc_stateless (stateless_readTable ti)) fun t => ?_
  refine gpres_bind tcQ_trans
    (tc_stateless (stateless_ite _ (stateless_getRandColumnsIncludedDefaultValue t)
      (stateless_getRandColumns t))) fun cols => ?_
  refine gpres_bind tcQ_trans (tc_stateless (stateless_randIntn 3)) fun z => ?_
  refine gpres_orEval tcQ_refl ?_
  intro p hp
  simp at hp
  rcases hp with hp | hp <;> rw [hp] <;> dsimp only
  · refine gpres_bind tcQ_trans (gpres_optIf tcQ_refl _ (gpres_pure tcQ_refl _)) fun _ => ?_
    refine gpres_bind tcQ_trans
      (gpres_repRange tcQ_refl tcQ_trans 1 7
        (gpres_bind tcQ_trans (tc_stateless (stateless_genRandValues cols)) fun _ =>
          gpres_pure tcQ_refl _)
        (gpres_pure tcQ_refl _)) fun _ => ?_
    refine gpres_bind tcQ_trans (gpres_optIf tcQ_refl _ (tc_onDuplicateUpdate ti _)) fun _ => ?_
    exact gpres_pure tcQ_refl _
  · refine gpres_bind tcQ_trans (gpres_optIf tcQ_refl _ (gpres_pure tcQ_refl _)) fun _ => ?_
    refine gpres_bind tcQ_trans
      (gpres_repRange tcQ_refl tcQ_trans 1 3 ?_ (gpres_pure tcQ_refl _)) fun _ => ?_
    · refine gpres_bind tcQ_trans (tc_stateless (stateless_getRandColumn t)) fun c => ?_
      refine gpres_bind tcQ_trans (tc_stateless (stateless_randomValue c)) fun v => ?_
      refine gpres_orEval tcQ_refl ?_
      intro q hq
      simp at hq
      rw [hq]
      exact gpres_pure tcQ_refl _
    · refine gpres_bind tcQ_trans (gpres_optIf tcQ_refl _ (tc_onDuplicateUpdate ti _)) fun _ => ?_
      exact gpres_pure tcQ_refl _

theorem tc_commonAnalyze : GPres tcQ commonAnalyze := by
  unfold commonAnalyze
  refine gpres_bind tcQ_trans (tc_stateless stateless_getRandTableIdx) fun ti => ?_
  exact gpres_bind tcQ_trans (tc_stateless (stateless_readTable ti)) fun t =>
    gpres_pure tcQ_refl _

theorem tc_addIndex : GPres tcQ addIndex := by
  unfold addIndex
  refine gpres_bind tcQ_trans (tc_stateless stateless_currentTableIdx) fun ti => ?_
  refine gpres_bind tcQ_trans (tc_stateless (stateless_readTable ti)) fun t => ?_
  refine gpres_bind tcQ_trans tc_allocIdxID fun id => ?_
  refine gpres_bind tcQ_trans (tc_stateless (stateless_genNewIndex t id)) fun idx => ?_
  exact gpres_bind tcQ_trans (tc_updTable ti _) fun _ => gpres_pure tcQ_refl _

theorem tc_dropIndex : GPres tcQ dropIndex := by
  unfold dropIndex
  refine gpres_bind tcQ_trans (tc_stateless stateless_currentTableIdx) fun ti => ?_
  refine gpres_bind tcQ_trans (tc_stateless (stateless_readTable ti)) fun t => ?_
  refine gpres_bind tcQ_trans (tc_stateless (stateless_getRandomIndex t)) fun idx => ?_
  exact gpres_bind tcQ_trans (tc_updTable ti _) fun _ => gpres_pure tcQ_refl _

theorem tc_addColumn : GPres tcQ addColumn := by
  unfold addColumn
  refine gpres_bind tcQ_trans (tc_stateless stateless_currentTableIdx) fun ti => ?_
  refine gpres_bind tcQ_trans (tc_stateless (stateless_readTable ti)) fun t => ?_
  refine gpres_bind tcQ_trans ?_ fun col => ?_
  · unfold genNewColumn
    exact gpres_bind tcQ_trans tc_allocColID fun _ =>
      gpres_bind tcQ_trans (tc_stateless (stateless_randIntn 7)) fun _ =>
        gpres_bind tcQ_trans (tc_stateless stateless_randomBool) fun _ =>
          gpres_pure tcQ_refl _
  · exact gpres_bind tcQ_trans (tc_updTable ti _) fun _ => gpres_pure tcQ_refl _

theorem tc_genNewColumn : GPres tcQ genNewColumn := by
  unfold genNewColumn
  exact gpres_bind tcQ_trans tc_allocColID fun _ =>
    gpres_bind tcQ_trans (tc_stateless (stateless_randIntn 7)) fun _ =>
      gpres_bind tcQ_trans (tc_stateless stateless_randomBool) fun _ =>
        gpres_pure tcQ_refl _

theorem tc_dropColumn : GPres tcQ dropColumn := by
  unfold dropColumn
  refine gpres_bind tcQ_trans (tc_stateless stateless_currentTableIdx) fun ti => ?_
  refine gpres_bind tcQ_trans (tc_stateless (stateless_readTable ti)) fun t => ?_
  refine gpres_bind tcQ_trans (tc_stateless (stateless_getRandDroppableColumn t)) fun col => ?_
  exact gpres_bind tcQ_trans (tc_updTable ti _) fun _ => gpres_pure tcQ_refl _

theorem tc_alterColumn : GPres tcQ alterColumn := by
  unfold alterColumn
  refine gpres_bind tcQ_trans (tc_stateless stateless_currentTableIdx) fun ti => ?_
  refine gpres_bind tcQ_trans (tc_stateless (stateless_readTable ti)) fun t => ?_
  refine gpres_bind tcQ_trans (tc_stateless (stateless_getRandColumn t)) fun col => ?_
  refine gpres_bind tcQ_trans tc_genNewColumn fun newCol => ?_
  refine gpres_bind tcQ_trans (tc_stateless stateless_randomBool) fun b => ?_
  refine gpres_ite _ ?_ ?_
  · exact gpres_bind tcQ_trans (tc_updTable ti _) fun _ => gpres_pure tcQ_refl _
  · exact gpres_bind tcQ_trans (tc_updTable ti _) fun _ => gpres_pure tcQ_refl _

theorem tc_ddlStmt : GPres tcQ ddlStmt := by
  unfold ddlStmt
  refine gpres_bind tcQ_trans (tc_stateless stateless_getS) fun s => ?_
  refine gpres_bind tcQ_trans (tc_stateless stateless_getRandTableIdx) fun ti => ?_
  refine gpres_bind tcQ_trans (tc_stateless (stateless_readTable ti)) fun t => ?_
  refine gpres_bind tcQ_trans (tc_storeCurrentTable ti) fun _ => ?_
  refine gpres_orEval tcQ_refl ?_
  intro p hp
  simp at hp
  rcases hp with hp | hp | hp | hp | hp <;> rw [hp] <;> dsimp only
  · exact tc_addColumn
  · exact tc_addIndex
  · exact tc_dropColumn
  · exact tc_dropIndex
  · exact tc_alterColumn

theorem tc_commonSelect (ti : Nat) (cols : List Column) : GPres tcQ (commonSelect ti cols) := by
  unfold commonSelect
  refine gpres_bind tcQ_trans (tc_stateless stateless_getS) fun s => ?_
  refine gpres_bind tcQ_trans (tc_stateless (stateless_readTable ti)) fun t => ?_
  refine gpres_bind tcQ_trans ?_ fun _ => ?_
  · cases s.scopeCurrentPrepare with
    | some pid =>
      exact gpres_bind tcQ_trans (tc_stateless (stateless_getRandSubset cols)) fun pc =>
        tc_prepareAppendColumns pid pc
    | none => exact gpres_pure tcQ_refl _
  · refine gpres_bind tcQ_trans (gpres_optIf tcQ_refl _ (gpres_pure tcQ_refl _)) fun _ => ?_
    refine gpres_bind tcQ_trans (gpres_optIf tcQ_refl _ (gpres_pure tcQ_refl _)) fun _ => ?_
    refine gpres_bind tcQ_trans tc_predicates fun _ => ?_
    refine gpres_bind tcQ_trans (gpres_optIf tcQ_refl _ (gpres_pure tcQ_refl _)) fun _ => ?_
    refine gpres_bind tcQ_trans (gpres_optIf tcQ_refl _ ?_) fun _ => gpres_pure tcQ_refl _
    exact gpres_bind tcQ_trans (tc_stateless (stateless_randomNum 1 1000)) fun _ =>
      gpres_pure tcQ_refl _

theorem tc_forUpdateOpt : GPres tcQ forUpdateOpt := tc_stateless stateless_forUpdateOpt

theorem tc_unionG : GPres tcQ unionG := tc_stateless stateless_unionG

theorem tc_aggSelect (ti : Nat) : GPres tcQ (aggSelect ti) := by
  unfold aggSelect
  refine gpres_bind tcQ_trans (tc_stateless stateless_getS) fun s => ?_
  refine gpres_bind tcQ_trans (tc_stateless (stateless_readTable ti)) fun t => ?_
  refine gpres_bind tcQ_trans (tc_stateless (stateless_pickCols t 5)) fun aggCols => ?_
  refine gpres_bind tcQ_trans (tc_stateless (stateless_getRandColumns t)) fun gcols => ?_
  refine gpres_bind tcQ_trans (tc_stateless (stateless_printRandomAggFunc aggCols)) fun af => ?_
  refine gpres_bind tcQ_trans (tc_stateless (stateless_randIntn 2)) fun z1 => ?_
  refine gpres_bind tcQ_trans (tc_stateless (stateless_randIntn 3)) fun z2 => ?_
  refine gpres_bind tcQ_trans (gpres_tcQ_modify _ fun st => ⟨rfl, rfl, rfl⟩) fun _ => ?_
  refine gpres_bind tcQ_trans (tc_stateless stateless_getS) fun s2 => ?_
  refine gpres_bind tcQ_trans (gpres_optIf tcQ_refl _ (gpres_pure tcQ_refl _)) fun _ => ?_
  refine gpres_bind tcQ_trans (gpres_optIf tcQ_refl _ (gpres_pure tcQ_refl _)) fun _ => ?_
  refine gpres_bind tcQ_trans (gpres_optIf tcQ_refl _ (gpres_pure tcQ_refl _)) fun _ => ?_
  refine gpres_bind tcQ_trans (gpres_optIf tcQ_refl _ (gpres_pure tcQ_refl _)) fun _ => ?_
  refine gpres_bind tcQ_trans tc_predicates fun _ => ?_
  refine gpres_bind tcQ_trans (gpres_optIf tcQ_refl _ (gpres_pure tcQ_refl _)) fun _ => ?_
  refine gpres_bind tcQ_trans (gpres_optIf tcQ_refl _ (gpres_pure tcQ_refl _)) fun _ => ?_
  refine gpres_bind tcQ_trans (gpres_optIf tcQ_refl _ (gpres_pure tcQ_refl _)) fun _ => ?_
  refine gpres_bind tcQ_trans (gpres_optIf tcQ_refl _ (gpres_pure tcQ_refl _)) fun _ => ?_
  refine gpres_bind tcQ_trans (gpres_optIf tcQ_refl _ (gpres_pure tcQ_refl _)) fun _ => ?_
  refine gpres_bind tcQ_trans (gpres_optIf tcQ_refl _ ?_) fun _ => gpres_pure tcQ_refl _
  exact gpres_bind tcQ_trans (tc_stateless (stateless_randomNum 1 1000)) fun _ =>
    gpres_pure tcQ_refl _

theorem tc_windowSelect (ti : Nat) : GPres tcQ (windowSelect ti) := by
  unfold windowSelect
  refine gpres_bind tcQ_trans (tc_stateless stateless_getS) fun s => ?_
  refine gpres_bind tcQ_trans (tc_stateless (stateless_readTable ti)) fun t => ?_
  refine gpres_bind tcQ_trans (tc_stateless (stateless_printRandomWindowFunc t)) fun wf => ?_
  refine gpres_bind tcQ_trans (tc_stateless (stateless_printRandomWindow t)) fun wd => ?_
  refine gpres_bind tcQ_trans (gpres_optIf tcQ_refl _ (gpres_pure tcQ_refl _)) fun _ => ?_
  refine gpres_bind tcQ_trans (gpres_optIf tcQ_refl _ (gpres_pure tcQ_refl _)) fun _ => ?_
  refine gpres_bind tcQ_trans (gpres_optIf tcQ_refl _ (gpres_pure tcQ_refl _)) fun _ => ?_
  refine gpres_bind tcQ_trans (gpres_optIf tcQ_refl _ ?_) fun _ => gpres_pure tcQ_refl _
  exact gpres_bind tcQ_trans (tc_stateless (stateless_randomNum 1 1000)) fun _ =>
    gpres_pure tcQ_refl _

theorem tc_semiJoinStmt (pi : Bool) (t1 t2 : Table) (cols1 : List Column) :
    GPres tcQ (semiJoinStmt pi t1 t2 cols1) := by
  unfold semiJoinStmt
  refine gpres_bind tcQ_trans (tc_stateless stateless_getS) fun s => ?_
  refine gpres_bind tcQ_trans
    (tc_stateless (stateless_ite _ (stateless_getRandColumnsPreferIndex t1)
      (stateless_getRandColumnsSimple t1))) fun c1 => ?_
  refine gpres_bind tcQ_trans
    (tc_stateless (stateless_ite _ (stateless_getRandColumnsPreferIndex t2)
      (stateless_getRandColumnsSimple t2))) fun c20 => ?_
  refine gpres_bind tcQ_trans (tc_stateless (stateless_semiRetry t2 pi c1 c20 6)) fun c2 => ?_
  refine gpres_bind tcQ_trans (gpres_optIf tcQ_refl _ (gpres_pure tcQ_refl _)) fun _ => ?_
  refine gpres_bind tcQ_trans (tc_stateless (stateless_joinHint pi t1 t2)) fun _ => ?_
  refine gpres_bind tcQ_trans tc_predicates fun _ => ?_
  refine gpres_bind tcQ_trans (gpres_optIf tcQ_refl _ (gpres_pure tcQ_refl _)) fun _ => ?_
  refine gpres_bind tcQ_trans (gpres_optIf tcQ_refl _ ?_) fun _ => gpres_pure tcQ_refl _
  exact gpres_bind tcQ_trans (tc_stateless (stateless_randomNum 1 1000)) fun _ =>
    gpres_pure tcQ_refl _

theorem tc_multiTableQuery : GPres tcQ multiTableQuery := by
  unfold multiTableQuery
  refine gpres_bind tcQ_trans (tc_stateless stateless_getS) fun s => ?_
  refine gpres_bind tcQ_trans (tc_stateless stateless_getRandTableIdx) fun ti1 => ?_
  refine gpres_bind tcQ_trans (tc_stateless stateless_getRandTableIdx) fun ti2 => ?_
  refine gpres_bind tcQ_trans (tc_stateless (stateless_readTable ti1)) fun t1 => ?_
  refine gpres_bind tcQ_trans (tc_stateless (stateless_readTable ti2)) fun t2 => ?_
  refine gpres_bind tcQ_trans (tc_stateless (stateless_getRandColumns t1)) fun cols1 => ?_
  refine gpres_bind tcQ_trans (tc_stateless (stateless_getRandColumns t2)) fun cols2 => ?_
  refine gpres_bind tcQ_trans (tc_storeCurrentMultiTable ti1 ti2) fun _ => ?_
  refine gpres_bind tcQ_trans (tc_stateless stateless_randomBool) fun pi => ?_
  refine gpres_orEval tcQ_refl ?_
  intro p hp
  simp at hp
  rcases hp with hp | hp | hp <;> rw [hp] <;> dsimp only
  · refine gpres_bind tcQ_trans (gpres_optIf tcQ_refl _ (gpres_pure tcQ_refl _)) fun _ => ?_
    refine gpres_bind tcQ_trans (tc_stateless (stateless_joinHint pi t1 t2)) fun _ => ?_
    refine gpres_bind tcQ_trans ?_ fun _ => ?_
    · refine gpres_orEval tcQ_refl ?_
      intro q hq
      simp at hq
      rcases hq with hq | hq | hq <;> rw [hq] <;> exact gpres_pure tcQ_refl _
    · refine gpres_bind tcQ_trans
        (gpres_repRange tcQ_refl tcQ_trans 1 5
          (tc_stateless (stateless_joinPredicate pi t1 t2)) ?_) fun _ => ?_
      · refine gpres_orEval tcQ_refl ?_
        intro q hq
        simp at hq
        rcases hq with hq | hq <;> rw [hq] <;> exact gpres_pure tcQ_refl _
      · refine gpres_bind tcQ_trans tc_predicates fun _ => ?_
        refine gpres_bind tcQ_trans (gpres_optIf tcQ_refl _ (gpres_pure tcQ_refl _)) fun _ => ?_
        refine gpres_bind tcQ_trans (gpres_optIf tcQ_refl _ ?_) fun _ => gpres_pure tcQ_refl _
        exact gpres_bind tcQ_trans (tc_stateless (stateless_randomNum 1 1000)) fun _ =>
          gpres_pure tcQ_refl _
  · refine gpres_bind tcQ_trans (gpres_optIf tcQ_refl _ (gpres_pure tcQ_refl _)) fun _ => ?_
    refine gpres_bind tcQ_trans (gpres_optIf tcQ_refl _ (gpres_pure tcQ_refl _)) fun _ => ?_
    refine gpres_bind tcQ_trans (tc_stateless (stateless_joinHint pi t1 t2)) fun _ => ?_
    refine gpres_bind tcQ_trans (gpres_optIf tcQ_refl _ (gpres_pure tcQ_refl _)) fun _ => ?_
    refine gpres_bind tcQ_trans (gpres_optIf tcQ_refl _ ?_) fun _ => gpres_pure tcQ_refl _
    exact gpres_bind tcQ_trans (tc_stateless (stateless_randomNum 1 1000)) fun _ =>
      gpres_pure tcQ_refl _
  · exact tc_semiJoinStmt pi t1 t2 cols1

theorem tc_query : GPres tcQ query := by
  unfold query
  refine gpres_bind tcQ_trans (tc_stateless stateless_getS) fun s => ?_
  refine gpres_bind tcQ_trans (tc_stateless stateless_getRandTableIdx) fun ti => ?_
  refine gpres_bind tcQ_trans (tc_storeCurrentTable ti) fun _ => ?_
  refine gpres_bind tcQ_trans (tc_stateless (stateless_readTable ti)) fun t => ?_
  refine gpres_bind tcQ_trans (tc_stateless (stateless_getRandColumns t)) fun cols => ?_
  refine gpres_orEval tcQ_refl ?_
  intro p hp
  simp at hp
  rcases hp with hp | hp | hp | hp | hp | hp | hp <;> rw [hp] <;> dsimp only
  · exact gpres_bind tcQ_trans (tc_commonSelect ti cols) fun _ =>
      gpres_bind tcQ_trans tc_forUpdateOpt fun _ => gpres_pure tcQ_refl _
  · refine gpres_bind tcQ_trans (tc_commonSelect ti cols) fun _ => ?_
    refine gpres_bind tcQ_trans tc_forUpdateOpt fun _ => ?_
    refine gpres_bind tcQ_trans tc_unionG fun _ => ?_
    refine gpres_bind tcQ_trans (tc_commonSelect ti cols) fun _ => ?_
    refine gpres_bind tcQ_trans tc_forUpdateOpt fun _ => ?_
    refine gpres_bind tcQ_trans (gpres_optIf tcQ_refl _ (gpres_pure tcQ_refl _)) fun _ => ?_
    refine gpres_bind tcQ_trans (gpres_optIf tcQ_refl _ ?_) fun _ => gpres_pure tcQ_refl _
    exact gpres_bind tcQ_trans (tc_stateless (stateless_randomNum 1 1000)) fun _ =>
      gpres_pure tcQ_refl _
  · exact gpres_bind tcQ_trans (tc_aggSelect ti) fun _ =>
      gpres_bind tcQ_trans tc_forUpdateOpt fun _ => gpres_pure tcQ_refl _
  · exact gpres_bind tcQ_trans (tc_windowSelect ti) fun _ =>
      gpres_bind tcQ_trans tc_forUpdateOpt fun _ => gpres_pure tcQ_refl _
  · refine gpres_bind tcQ_trans (tc_aggSelect ti) fun _ => ?_
    refine gpres_bind tcQ_trans tc_forUpdateOpt fun _ => ?_
    refine gpres_bind tcQ_trans tc_unionG fun _ => ?_
    refine gpres_bind tcQ_trans (tc_aggSelect ti) fun _ => ?_
    refine gpres_bind tcQ_trans tc_forUpdateOpt fun _ => ?_
    refine gpres_bind tcQ_trans (gpres_optIf tcQ_refl _ (gpres_pure tcQ_refl _)) fun _ => ?_
    refine gpres_bind tcQ_trans (gpres_optIf tcQ_refl _ ?_) fun _ => gpres_pure tcQ_refl _
    exact gpres_bind tcQ_trans (tc_stateless (stateless_randomNum 1 1000)) fun _ =>
      gpres_pure tcQ_refl _
  · refine gpres_bind tcQ_trans (tc_windowSelect ti) fun _ => ?_
    refine gpres_bind tcQ_trans tc_forUpdateOpt fun _ => ?_
    refine gpres_bind tcQ_trans tc_unionG fun _ => ?_
    refine gpres_bind tcQ_trans (tc_windowSelect ti) fun _ => ?_
    refine gpres_bind tcQ_trans tc_forUpdateOpt fun _ => ?_
    refine gpres_bind tcQ_trans (gpres_optIf tcQ_refl _ (gpres_pure tcQ_refl _)) fun _ => ?_
    refine gpres_bind tcQ_trans (gpres_optIf tcQ_refl _ ?_) fun _ => gpres_pure tcQ_refl _
    exact gpres_bind tcQ_trans (tc_stateless (stateless_randomNum 1 1000)) fun _ =>
      gpres_pure tcQ_refl _
  · exact tc_multiTableQuery

theorem tc_prepareStmt : GPres tcQ prepareStmt := by
  unfold prepareStmt
  refine gpres_bind tcQ_trans tc_allocPrepareID fun id => ?_
  refine gpres_bind tcQ_trans (tc_appendPrepare _) fun _ => ?_
  refine gpres_bind tcQ_trans (tc_storeCurrentPrepare id) fun _ => ?_
  exact gpres_bind tcQ_trans tc_query fun _ => gpres_pure tcQ_refl _

theorem tc_deallocPrepareStmt : GPres tcQ deallocPrepareStmt := by
  unfold deallocPrepareStmt
  refine gpres_bind tcQ_trans (tc_stateless stateless_getS) fun s => ?_
  refine gpres_bind tcQ_trans (tc_stateless (stateless_assertP _)) fun _ => ?_
  refine gpres_bind tcQ_trans (tc_stateless stateless_getRandPrepareIdx) fun i => ?_
  refine gpres_bind tcQ_trans (tc_stateless (stateless_readPrepare i)) fun p => ?_
  exact gpres_bind tcQ_trans (tc_removePrepareAt i) fun _ => gpres_pure tcQ_refl _

theorem tc_queryPrepare : GPres tcQ queryPrepare := by
  unfold queryPrepare
  refine gpres_bind tcQ_trans (tc_stateless stateless_getS) fun s => ?_
  refine gpres_bind tcQ_trans (tc_stateless (stateless_assertP _)) fun _ => ?_
  refine gpres_bind tcQ_trans (tc_stateless stateless_getRandPrepareIdx) fun i => ?_
  refine gpres_bind tcQ_trans (tc_stateless (stateless_readPrepare i)) fun p => ?_
  refine gpres_bind tcQ_trans (tc_stateless (stateless_genAssignments p)) fun asg => ?_
  cases asg with
  | nil => exact gpres_pure tcQ_refl _
  | cons a0 rest =>
    refine gpres_bind tcQ_trans (tc_injectList rest) fun _ => ?_
    exact gpres_bind tcQ_trans (tc_injectTodoSQL _) fun _ => gpres_pure tcQ_refl _

theorem tc_dmlStmt : GPres tcQ dmlStmt := by
  unfold dmlStmt
  refine gpres_bind tcQ_trans (tc_stateless stateless_getS) fun s => ?_
  refine gpres_bind tcQ_trans (tc_stateless (stateless_assertP _)) fun _ => ?_
  refine gpres_orEval tcQ_refl ?_
  intro p hp
  simp at hp
  rcases hp with hp | hp | hp | hp | hp <;> rw [hp] <;> dsimp only
  · exact tc_query
  · exact tc_queryPrepare
  · exact tc_commonDelete
  · exact tc_commonInsert
  · exact tc_commonUpdate

theorem tc_switchRowFormatVer : GPres tcQ switchRowFormatVer := by
  unfold switchRowFormatVer
  refine gpres_bind tcQ_trans (tc_stateless stateless_randomBool) fun b => ?_
  exact gpres_ite _ (gpres_pure tcQ_refl _) (gpres_pure tcQ_refl _)

theorem tc_switchClustered : GPres tcQ switchClustered := by
  unfold switchClustered
  refine gpres_bind tcQ_trans (tc_stateless stateless_randomBool) fun b => ?_
  refine gpres_ite _ ?_ ?_ <;>
    exact gpres_bind tcQ_trans (gpres_tcQ_modify _ fun s => ⟨rfl, rfl, rfl⟩) fun _ =>
      gpres_pure tcQ_refl _

theorem tc_adminCheck : GPres tcQ adminCheck := by
  unfold adminCheck
  refine gpres_bind tcQ_trans (tc_stateless stateless_getS) fun s => ?_
  refine gpres_bind tcQ_trans (tc_stateless stateless_getRandTableIdx) fun ti => ?_
  refine gpres_bind tcQ_trans (tc_stateless (stateless_readTable ti)) fun t => ?_
  refine gpres_ite _ (gpres_pure tcQ_refl _) ?_
  refine gpres_ite _ (gpres_pure tcQ_refl _) ?_
  refine gpres_bind tcQ_trans (tc_stateless (stateless_getRandomIndex t)) fun idx => ?_
  refine gpres_orEval tcQ_refl ?_
  intro p hp
  simp at hp
  rcases hp with hp | hp <;> rw [hp] <;> exact gpres_pure tcQ_refl _

theorem tc_flashBackTable : GPres tcQ flashBackTable := by
  unfold flashBackTable
  refine gpres_bind tcQ_trans (tc_stateless stateless_getRandTableIdx) fun ti => ?_
  refine gpres_bind tcQ_trans (tc_stateless (stateless_readTable ti)) fun t => ?_
  refine gpres_bind tcQ_trans (tc_injectTodoSQL _) fun _ => ?_
  refine gpres_orEval tcQ_refl ?_
  intro p hp
  simp at hp
  rcases hp with hp | hp <;> rw [hp] <;> exact gpres_pure tcQ_refl _

theorem tc_selectIntoOutFile : GPres tcQ selectIntoOutFile := by
  unfold selectIntoOutFile
  refine gpres_bind tcQ_trans (tc_stateless stateless_getRandTableIdx) fun ti => ?_
  refine gpres_bind tcQ_trans (tc_stateless (stateless_readTable ti)) fun t => ?_
  refine gpres_bind tcQ_trans (tc_storeLastOutFileTable ti) fun _ => ?_
  exact gpres_bind tcQ_trans tc_allocTmpFileID fun _ => gpres_pure tcQ_refl _

theorem stateless_loadTable : StateLess loadTable := by
  unfold loadTable
  refine stateless_bind stateless_getS fun s => ?_
  refine stateless_bind ?_ fun ti => ?_
  · cases s.lastOutFileTable
    · exact stateless_failP
    · exact stateless_pure _
  · refine stateless_bind (stateless_readTable ti) fun t => ?_
    refine stateless_bind (stateless_randIntn _) fun v => ?_
    cases t.childTables.get? v
    · exact stateless_failP
    · exact stateless_pure _

theorem tc_loadTable : GPres tcQ loadTable := tc_stateless stateless_loadTable

theorem stateless_splitRegion : StateLess splitRegion := by
  unfold splitRegion
  refine stateless_bind stateless_getRandTableIdx fun ti => ?_
  refine stateless_bind (stateless_readTable ti) fun t => ?_
  refine stateless_bind
    (stateless_ite _ stateless_randomBool (stateless_pure _)) fun si => ?_
  refine stateless_ite _ ?_ ?_
  · refine stateless_bind (stateless_randIntn _) fun v => ?_
    refine stateless_bind ?_ fun idx => ?_
    · cases t.indices.get? v
      · exact stateless_failP
      · exact stateless_pure _
    · refine stateless_orEval ?_
      intro p hp
      simp at hp
      rcases hp with hp | hp <;> rw [hp] <;> dsimp only
      · refine stateless_bind (stateless_genMultipleRowsAscForIndexCols t 2 idx) fun _ => ?_
        exact stateless_bind (stateless_randomNum 2 10) fun _ => stateless_pure _
      · refine stateless_bind (stateless_randIntn 10) fun z => ?_
        exact stateless_bind (stateless_genMultipleRowsAscForIndexCols t (z + 2) idx)
          fun _ => stateless_pure _
  · refine stateless_orEval ?_
    intro p hp
    simp at hp
    rcases hp with hp | hp <;> rw [hp] <;> dsimp only
    · refine stateless_bind (stateless_genMultipleRowsAscForHandleCols t 2) fun _ => ?_
      exact stateless_bind (stateless_randomNum 2 10) fun _ => stateless_pure _
    · refine stateless_bind (stateless_randIntn 10) fun z => ?_
      exact stateless_bind (stateless_genMultipleRowsAscForHandleCols t (z + 2))
        fun _ => stateless_pure _

theorem tc_splitRegion : GPres tcQ splitRegion := tc_stateless stateless_splitRegion

theorem tc_insertInto : GPres tcQ insertInto := by
  unfold insertInto
  refine gpres_bind tcQ_trans (tc_stateless stateless_getS) fun s => ?_
  refine gpres_bind tcQ_trans (tc_stateless (stateless_assertP _)) fun _ => ?_
  refine gpres_bind tcQ_trans (tc_stateless stateless_getFirstNonFullTableIdx) fun ti => ?_
  refine gpres_bind tcQ_trans (tc_stateless (stateless_readTable ti)) fun t => ?_
  refine gpres_bind tcQ_trans (tc_stateless (stateless_genRandValues t.columns)) fun vals => ?_
  exact gpres_bind tcQ_trans (tc_updTable ti _) fun _ => gpres_pure tcQ_refl _

theorem tc_colDef (ti : Nat) : GPres tcQ (colDef ti) := by
  unfold colDef
  refine gpres_bind tcQ_trans tc_allocColID fun id => ?_
  refine gpres_bind tcQ_trans (tc_stateless (stateless_randIntn 7)) fun v => ?_
  refine gpres_bind tcQ_trans (tc_stateless stateless_randomBool) fun nb => ?_
  exact gpres_bind tcQ_trans (tc_updTable ti _) fun _ => gpres_pure tcQ_refl _

theorem tc_colDefs (ti : Nat) : GPres tcQ (colDefs ti) := by
  unfold colDefs
  refine gpres_bind tcQ_trans (tc_stateless stateless_getS) fun s => ?_
  refine gpres_ite _ ?_ ?_
  · exact gpres_repK tcQ_refl tcQ_trans (tc_colDef ti) (gpres_pure tcQ_refl _) _
  · exact gpres_repRange tcQ_refl tcQ_trans 1 _ (tc_colDef ti) (gpres_pure tcQ_refl _)

theorem tc_idxDef (ti : Nat) : GPres tcQ (idxDef ti) := by
  unfold idxDef
  refine gpres_bind tcQ_trans (tc_stateless stateless_getS) fun s => ?_
  refine gpres_bind tcQ_trans (tc_stateless (stateless_readTable ti)) fun t => ?_
  refine gpres_bind tcQ_trans tc_allocIdxID fun id => ?_
  refine gpres_bind tcQ_trans (tc_stateless (stateless_genNewIndex t id)) fun idx0 => ?_
  refine gpres_bind tcQ_trans ?_ fun idx => ?_
  · refine gpres_ite _ ?_ (gpres_pure tcQ_refl _)
    cases s.scopeCurrentPartitionCol <;> exact gpres_pure tcQ_refl _
  · refine gpres_bind tcQ_trans (tc_updTable ti _) fun _ => ?_
    refine gpres_bind tcQ_trans (gpres_optIf tcQ_refl _ (gpres_pure tcQ_refl _)) fun _ => ?_
    exact gpres_pure tcQ_refl _

theorem tc_idxDefs (ti : Nat) : GPres tcQ (idxDefs ti) := by
  unfold idxDefs
  refine gpres_bind tcQ_trans (tc_stateless stateless_getS) fun s => ?_
  exact gpres_repRange tcQ_refl tcQ_trans 1 _ (tc_idxDef ti) (gpres_pure tcQ_refl _)

theorem tc_partitionDef (ti : Nat) : GPres tcQ (partitionDef ti) := by
  unfold partitionDef
  refine gpres_bind tcQ_trans (tc_stateless stateless_getS) fun s => ?_
  refine gpres_bind tcQ_trans (tc_stateless (stateless_readTable ti)) fun t => ?_
  refine gpres_bind tcQ_trans (tc_stateless (stateless_getRandColumnForPartition t)) fun pcOpt => ?_
  cases pcOpt with
  | none => exact gpres_pure tcQ_refl _
  | some pcol =>
    refine gpres_bind tcQ_trans (tc_storePartitionCol pcol) fun _ => ?_
    refine gpres_bind tcQ_trans (tc_updTable ti _) fun _ => ?_
    refine gpres_bind tcQ_trans (tc_stateless (stateless_randIntn 6)) fun z => ?_
    cases hz : (match s.ctrl.Weight.CreateTable_Partition_Type with
      | "hash" => 0
      | "list" => 2
      | "range" => 1
      | _ => z : Nat) with
    | zero =>
      exact gpres_bind tcQ_trans (tc_stateless (stateless_randomNum 1 6)) fun _ =>
        gpres_pure tcQ_refl _
    | succ n =>
      cases n with
      | zero =>
        refine gpres_bind tcQ_trans (tc_stateless (stateless_randIntn 5)) fun pc => ?_
        refine gpres_bind tcQ_trans (tc_stateless (stateless_randomValuesAsc pcol _)) fun _ => ?_
        exact gpres_bind tcQ_trans (tc_stateless (stateless_randIntn 2)) fun _ =>
          gpres_pure tcQ_refl _
      | succ n =>
        cases n with
        | zero =>
          refine gpres_bind tcQ_trans (tc_stateless (stateless_randomValuesAsc pcol 20)) fun _ => ?_
          exact gpres_bind tcQ_trans (tc_stateless (stateless_randIntn 3)) fun _ =>
            gpres_pure tcQ_refl _
        | succ n => exact gpres_pure tcQ_refl _

theorem tc_cloneColsAux : ∀ cs : List Column, GPres tcQ (cloneColsAux cs)
  | [] => gpres_pure tcQ_refl _
  | c :: cs => by
    unfold cloneColsAux
    exact gpres_bind tcQ_trans tc_allocColID fun _ =>
      gpres_bind tcQ_trans (tc_cloneColsAux cs) fun _ => gpres_pure tcQ_refl _

theorem tc_cloneIdxsAux (m : List (Column × Column)) :
    ∀ is : List Index, GPres tcQ (cloneIdxsAux m is)
  | [] => gpres_pure tcQ_refl _
  | i :: is => by
    unfold cloneIdxsAux
    exact gpres_bind tcQ_trans tc_allocIdxID fun _ =>
      gpres_bind tcQ_trans (tc_cloneIdxsAux m is) fun _ => gpres_pure tcQ_refl _

theorem tc_cloneTable (t : Table) : GPres tcQ (cloneTable t) := by
  unfold cloneTable
  refine gpres_bind tcQ_trans tc_allocTableID fun _ => ?_
  refine gpres_bind tcQ_trans (tc_cloneColsAux t.columns) fun m => ?_
  exact gpres_bind tcQ_trans (tc_cloneIdxsAux m t.indices) fun _ => gpres_pure tcQ_refl _

/-- `createTable` appends exactly one table and leaves the table-count
bounds unchanged. -/
theorem createTable_grow (s : GState) (r : R) (a : List String) (s' : GState) (r' : R)
    (h : createTable s r = some (a, s', r')) :
    s'.tables.length = s.tables.length + 1 ∧
      s'.ctrl.MaxTableNum = s.ctrl.MaxTableNum ∧
      s'.ctrl.InitTableCount = s.ctrl.InitTableCount := by
  unfold createTable at h
  rw [Gen.bind_eq_some] at h
  obtain ⟨s0, s1, r1, hgs, h⟩ := h
  obtain ⟨hs0, hs1, hr1⟩ := some_triple_inj hgs
  rw [Gen.bind_eq_some] at h
  obtain ⟨id, s2, r2, hal, h⟩ := h
  obtain ⟨hid, hs2, hr2⟩ := some_triple_inj hal
  rw [Gen.bind_eq_some] at h
  obtain ⟨u, s3, r3, hap, h⟩ := h
  obtain ⟨-, hs3, hr3⟩ := some_triple_inj hap
  have hq : tcQ s3 s' := by
    refine (gpres_bind tcQ_trans ?_ fun _ => ?_) s3 r3 a s' r' h
    · refine gpres_ite _ ?_ (gpres_pure tcQ_refl _)
      exact gpres_bind tcQ_trans (tc_injectTodoSQL _) fun _ =>
        gpres_bind tcQ_trans (tc_injectTodoSQL _) fun _ => gpres_pure tcQ_refl _
    · refine gpres_bind tcQ_trans (tc_colDefs _) fun _ => ?_
      refine gpres_bind tcQ_trans (tc_partitionDef _) fun _ => ?_
      refine gpres_bind tcQ_trans (tc_idxDefs _) fun _ => ?_
      refine gpres_bind tcQ_trans (tc_stateless (stateless_randIntn _)) fun g => ?_
      refine gpres_bind tcQ_trans ?_ fun _ => gpres_pure tcQ_refl _
      refine gpres_ite _ ?_ (gpres_pure tcQ_refl _)
      exact gpres_bind tcQ_trans (tc_stateless (stateless_randIntn 2)) fun _ =>
        gpres_pure tcQ_refl _
  obtain ⟨hql, hqm, hqi⟩ := hq
  refine ⟨?_, ?_, ?_⟩
  · rw [hql, ← hs3, ← hs2, ← hs1]
    simp
  · rw [hqm, ← hs3, ← hs2, ← hs1]
  · rw [hqi, ← hs3, ← hs2, ← hs1]

/-- `createTableLike` appends exactly one table and leaves the table-count
bounds unchanged. -/
theorem createTableLike_grow (s : GState) (r : R) (a : List String) (s' : GState) (r' : R)
    (h : createTableLike s r = some (a, s', r')) :
    s'.tables.length = s.tables.length + 1 ∧
      s'.ctrl.MaxTableNum = s.ctrl.MaxTableNum ∧
      s'.ctrl.InitTableCount = s.ctrl.InitTableCount := by
  unfold createTableLike at h
  rw [Gen.bind_eq_some] at h
  obtain ⟨ti, s1, r1, hti, h⟩ := h
  have hs1 : s1 = s := stateless_getRandTableIdx s r ti s1 r1 hti
  subst hs1
  rw [Gen.bind_eq_some] at h
  obtain ⟨t, s2, r2, hrt, h⟩ := h
  have hs2 : s2 = s1 := stateless_readTable ti s1 r1 t s2 r2 hrt
  subst hs2
  rw [Gen.bind_eq_some] at h
  obtain ⟨newTbl, s3, r3, hcl, h⟩ := h
  have hq3 : tcQ s2 s3 := tc_cloneTable t s2 r2 newTbl s3 r3 hcl
  rw [Gen.bind_eq_some] at h
  obtain ⟨u, s4, r4, hupd, h⟩ := h
  have hq4 : tcQ s3 s4 := tc_updTable ti _ s3 r3 u s4 r4 hupd
  rw [Gen.bind_eq_some] at h
  obtain ⟨u2, s5, r5, hap, h⟩ := h
  obtain ⟨-, hs5, hr5⟩ := some_triple_inj hap
  obtain ⟨-, hs', -⟩ := some_triple_inj h
  rw [← hs']
  refine ⟨?_, ?_, ?_⟩
  · rw [← hs5]
    simp only [List.length_append, List.length_cons, List.length_nil]
    rw [hq4.1, hq3.1]
  · rw [← hs5]
    show s4.ctrl.MaxTableNum = s2.ctrl.MaxTableNum
    rw [hq4.2.1, hq3.2.1]
  · rw [← hs5]
    show s4.ctrl.InitTableCount = s2.ctrl.InitTableCount
    rw [hq4.2.2, hq3.2.2]

/-- One `start` evaluation never pushes the catalog size above
`max` of its current size, `MaxTableNum` and `InitTableCount`: the main
dispatch guards table creation by `MaxTableNum`, while `initStart` guards it
only by `InitTableCount`. -/
theorem startP_table_bound (s : GState) (r : R) (a : List String) (s' : GState) (r' : R)
    (h : startP s r = some (a, s', r')) :
    s'.tables.length ≤ max s.tables.length (max s.ctrl.MaxTableNum s.ctrl.InitTableCount) ∧
      s'.ctrl.MaxTableNum = s.ctrl.MaxTableNum ∧
      s'.ctrl.InitTableCount = s.ctrl.InitTableCount := by
  unfold startP at h
  rw [Gen.bind_eq_some] at h
  obtain ⟨popped, s1, r1, hpop, h⟩ := h
  have hs1 : s1.tables = s.tables ∧ s1.ctrl = s.ctrl := by
    unfold popOneTodoSQL at hpop
    cases hq : s.todoSQL with
    | nil =>
      rw [hq] at hpop
      obtain ⟨-, hss, -⟩ := some_triple_inj hpop
      rw [← hss]
      exact ⟨rfl, rfl⟩
    | cons q qs =>
      rw [hq] at hpop
      obtain ⟨-, hss, -⟩ := some_triple_inj hpop
      rw [← hss]
      exact ⟨rfl, rfl⟩
  have goal_of_tcQ : tcQ s1 s' →
      s'.tables.length ≤ max s.tables.length (max s.ctrl.MaxTableNum s.ctrl.InitTableCount) ∧
        s'.ctrl.MaxTableNum = s.ctrl.MaxTableNum ∧
        s'.ctrl.InitTableCount = s.ctrl.InitTableCount := by
    intro hq
    refine ⟨?_, ?_, ?_⟩
    · rw [hq.1, hs1.1]
      exact le_max_left _ _
    · rw [hq.2.1, hs1.2]
    · rw [hq.2.2, hs1.2]
  have goal_of_grow : ∀ s2 : GState, s2.tables = s1.tables → s2.ctrl = s1.ctrl →
      (s'.tables.length = s2.tables.length + 1 ∧
        s'.ctrl.MaxTableNum = s2.ctrl.MaxTableNum ∧
        s'.ctrl.InitTableCount = s2.ctrl.InitTableCount) →
      (s2.tables.length < s2.ctrl.MaxTableNum ∨ s2.tables.length < s2.ctrl.InitTableCount) →
      s'.tables.length ≤ max s.tables.length (max s.ctrl.MaxTableNum s.ctrl.InitTableCount) ∧
        s'.ctrl.MaxTableNum = s.ctrl.MaxTableNum ∧
        s'.ctrl.InitTableCount = s.ctrl.InitTableCount := by
    intro s2 ht hc hg hlt
    have hM : s2.ctrl.MaxTableNum = s.ctrl.MaxTableNum := by rw [hc, hs1.2]
    have hI : s2.ctrl.InitTableCount = s.ctrl.InitTableCount := by rw [hc, hs1.2]
    refine ⟨?_, by rw [hg.2.1, hM], by rw [hg.2.2, hI]⟩
    rcases hlt with hlt | hlt
    · calc s'.tables.length = s2.tables.length + 1 := hg.1
        _ ≤ s2.ctrl.MaxTableNum := hlt
        _ = s.ctrl.MaxTableNum := hM
        _ ≤ max s.ctrl.MaxTableNum s.ctrl.InitTableCount := le_max_left _ _
        _ ≤ _ := le_max_right _ _
    · calc s'.tables.length = s2.tables.length + 1 := hg.1
        _ ≤ s2.ctrl.InitTableCount := hlt
        _ = s.ctrl.InitTableCount := hI
        _ ≤ max s.ctrl.MaxTableNum s.ctrl.InitTableCount := le_max_right _ _
        _ ≤ _ := le_max_right _ _
  cases popped with
  | some q =>
    obtain ⟨-, hs', -⟩ := some_triple_inj h
    exact goal_of_tcQ (by rw [← hs']; exact tcQ_refl s1)
  | none =>
    rw [Gen.bind_eq_some] at h
    obtain ⟨sg, s2, r2, hgs, h⟩ := h
    obtain ⟨hsg, hs2, hr2⟩ := some_triple_inj hgs
    by_cases hinit : s2.initialized
    · rw [if_neg (by simp [hinit, ← hsg, hs2])] at h
      rcases orEval_eq_some h with ⟨-, hx⟩ | ⟨w, c, hmem, hw, r₃, hc⟩
      · simp only [Prod.mk.injEq] at hx
        refine goal_of_tcQ ?_
        rw [hx.2.1, ← hs2]
        exact tcQ_refl s1
      · simp only [List.mem_cons, List.mem_singleton, Prod.mk.injEq] at hmem
        rcases hmem with ⟨hww, hcc⟩ | ⟨hww, hcc⟩ | ⟨hww, hcc⟩ | ⟨hww, hcc⟩ | ⟨hww, hcc⟩ | hmem
        · subst hcc
          refine goal_of_tcQ ?_
          have hq := tc_switchRowFormatVer s2 r₃ a s' r' hc
          rwa [← hs2] at hq
        · subst hcc
          refine goal_of_tcQ ?_
          have hq := tc_switchClustered s2 r₃ a s' r' hc
          rwa [← hs2] at hq
        · subst hcc
          refine goal_of_tcQ ?_
          have hq := tc_adminCheck s2 r₃ a s' r' hc
          rwa [← hs2] at hq
        · subst hcc
          have hlt : sg.tables.length < sg.ctrl.MaxTableNum := by
            by_contra hge
            rw [if_neg hge] at hww
            omega
          rcases orEval_eq_some hc with ⟨-, hx⟩ | ⟨w2, c2, hmem2, hw2, r₄, hc2⟩
          · simp only [Prod.mk.injEq] at hx
            refine goal_of_tcQ ?_
            rw [hx.2.1, ← hs2]
            exact tcQ_refl s1
          · simp only [List.mem_cons, List.mem_singleton, Prod.mk.injEq] at hmem2
            have hsgs2 : sg = s2 := by rw [← hsg, hs2]
            rcases hmem2 with ⟨hww2, hcc2⟩ | ⟨hww2, hcc2⟩ | hmem2
            · subst hcc2
              refine goal_of_grow s2 (by rw [← hs2]) (by rw [← hs2]) ?_ ?_
              · exact createTable_grow s2 r₄ a s' r' hc2
              · left
                rw [← hsgs2]
                exact hlt
            · subst hcc2
              refine goal_of_grow s2 (by rw [← hs2]) (by rw [← hs2]) ?_ ?_
              · exact createTableLike_grow s2 r₄ a s' r' hc2
              · left
                rw [← hsgs2]
                exact hlt
            · exact absurd hmem2 (List.not_mem_nil _)
        · subst hcc
          refine goal_of_tcQ ?_
          have hq : tcQ s2 s' := by
            refine (gpres_orEval tcQ_refl ?_) s2 r₃ a s' r' hc
            intro p hp
            simp at hp
            rcases hp with hp | hp | hp | hp | hp | hp | hp | hp <;> rw [hp] <;> dsimp only
            · exact tc_dmlStmt
            · exact tc_ddlStmt
            · exact tc_splitRegion
            · exact tc_commonAnalyze
            · exact tc_prepareStmt
            · exact tc_deallocPrepareStmt
            · exact tc_flashBackTable
            · refine gpres_orEval tcQ_refl ?_
              intro p2 hp2
              simp at hp2
              rcases hp2 with hp2 | hp2 <;> rw [hp2] <;> dsimp only
              · exact tc_selectIntoOutFile
              · exact tc_loadTable
          rwa [← hs2] at hq
        · exact absurd hmem (List.not_mem_nil _)
    · rw [if_pos (by simp [hinit, ← hsg, hs2])] at h
      rw [Gen.bind_eq_some] at h
      obtain ⟨out, s3, r3, hinitS, h⟩ := h
      rw [Gen.bind_eq_some] at h
      obtain ⟨sg2, s4, r4, hgs2, h⟩ := h
      obtain ⟨hsg2, hs4, hr4⟩ := some_triple_inj hgs2
      rw [Gen.bind_eq_some] at h
      obtain ⟨u, s5, r5, hmod, h⟩ := h
      obtain ⟨-, hs', -⟩ := some_triple_inj h
      have h5 : tcQ s4 s5 := by
        by_cases hmeet : meetInitializedDemand sg2 = true
        · rw [if_pos hmeet] at hmod
          obtain ⟨-, hss, -⟩ := some_triple_inj hmod
          rw [← hss]
          exact ⟨rfl, rfl, rfl⟩
        · rw [if_neg hmeet] at hmod
          obtain ⟨-, hss, -⟩ := some_triple_inj hmod
          rw [← hss]
          exact tcQ_refl s4
      unfold initStart at hinitS
      rw [Gen.bind_eq_some] at hinitS
      obtain ⟨si, t1, q1, hgs3, hinitS⟩ := hinitS
      obtain ⟨hsi, ht1, hq1⟩ := some_triple_inj hgs3
      rw [Gen.bind_eq_some] at hinitS
      obtain ⟨ua, t2, q2, hass, hinitS⟩ := hinitS
      have ht2 : t2 = t1 := stateless_assertP _ t1 q1 ua t2 q2 hass
      have ht2s1 : t2 = s1 := by rw [ht2, ← ht1, ← hs2]
      have hsis1 : si = s1 := by rw [← hsi, ← hs2]
      by_cases hlen : si.tables.length < si.ctrl.InitTableCount
      · rw [if_pos hlen] at hinitS
        have hgrow := createTable_grow t2 q2 out s3 r3 hinitS
        refine goal_of_grow t2 (by rw [ht2s1]) (by rw [ht2s1]) ?_ ?_
        · refine ⟨?_, ?_, ?_⟩
          · rw [← hs', h5.1, ← hs4, hgrow.1]
          · rw [← hs', h5.2.1, ← hs4, hgrow.2.1]
          · rw [← hs', h5.2.2, ← hs4, hgrow.2.2]
        · right
          rw [ht2s1, ← hsis1]
          exact hlen
      · rw [if_neg hlen] at hinitS
        have hins : tcQ t2 s3 := tc_insertInto t2 q2 out s3 r3 hinitS
        refine goal_of_tcQ ?_
        have e1 : tcQ s1 s3 := by
          rw [← ht2s1]
          exact hins
        have e2 : tcQ s3 s' := by
          rw [← hs', hs4]
          exact h5
        exact tcQ_trans _ _ _ e1 e2

/-- One `Generate` call obeys the same table-count bound. -/
theorem generate_table_bound (s : GState) (r : R) (q : String) (s' : GState) (r' : R)
    (h : generate s r = some (q, s', r')) :
    s'.tables.length ≤ max s.tables.length (max s.ctrl.MaxTableNum s.ctrl.InitTableCount) ∧
      s'.ctrl.MaxTableNum = s.ctrl.MaxTableNum ∧
      s'.ctrl.InitTableCount = s.ctrl.InitTableCount := by
  unfold generate at h
  cases hst : startP (resetScope s) r with
  | none =>
    rw [hst] at h
    exact absurd h (by simp)
  | some x =>
    obtain ⟨ts, s2, r2⟩ := x
    rw [hst] at h
    obtain ⟨-, hs', -⟩ := some_triple_inj h
    have hb := startP_table_bound (resetScope s) r ts s2 r2 hst
    rw [← hs']
    exact hb

/-- A trace of `Generate` calls obeys the table-count bound. -/
theorem generateN_table_bound :
    ∀ (n : Nat) (s : GState) (r : R) (qs : List String) (s' : GState) (r' : R),
      generateN n s r = some (qs, s', r') →
      s'.tables.length ≤ max s.tables.length (max s.ctrl.MaxTableNum s.ctrl.InitTableCount) ∧
        s'.ctrl.MaxTableNum = s.ctrl.MaxTableNum ∧
        s'.ctrl.InitTableCount = s.ctrl.InitTableCount
  | 0, s, r, qs, s', r', h => by
    unfold generateN at h
    obtain ⟨-, hs', -⟩ := some_triple_inj h
    rw [← hs']
    exact ⟨le_max_left _ _, rfl, rfl⟩
  | n + 1, s, r, qs, s', r', h => by
    unfold generateN at h
    cases hg : generate s r with
    | none =>
      rw [hg] at h
      exact absurd h (by simp)
    | some x =>
      obtain ⟨q, s1, r1⟩ := x
      rw [hg] at h
      dsimp only at h
      cases hgn : generateN n s1 r1 with
      | none =>
        rw [hgn] at h
        exact absurd h (by simp)
      | some y =>
        obtain ⟨qs2, s2, r2⟩ := y
        rw [hgn] at h
        dsimp only at h
        obtain ⟨-, hs', -⟩ := some_triple_inj h
        have h1 := generate_table_bound s r q s1 r1 hg
        have h2 := generateN_table_bound n s1 r1 qs2 s2 r2 hgn
        rw [← hs']
        refine ⟨?_, h2.2.1.trans h1.2.1, h2.2.2.trans h1.2.2⟩
        have h21 := h2.1
        rw [h1.2.1, h1.2.2] at h21
        exact le_trans h21 (max_le h1.1 (le_max_right _ _))

/-!  Concrete fixtures for the witnesses and counterexamples. -/

/-- A concrete weight profile: only the `Query` branch (and inside it only
the guard-weighted children) is selectable in the main phase. -/
def wEx : Weights where
  SetRowFormat := 0
  SetClustered := 0
  AdminCheck := 0
  CreateTable := 0
  CreateTable_WithoutLike := 1
  CreateTable_MaxColumnCnt := 4
  CreateTable_IndexMoreCol := 1
  CreateTable_WithClusterHint := false
  CreateTable_Partition_Type := ""
  Query := 1
  Query_DML := 0
  Query_DDL := 0
  Query_Split := 0
  Query_Analyze := 0
  Query_Prepare := 0
  Query_Select := 1
  Query_DML_DEL := 0
  Query_DML_INSERT := 0
  Query_DML_INSERT_ON_DUP := 1
  Query_DML_UPDATE := 0
  Query_DML_DEL_COMMON := 1
  Query_DML_DEL_INDEX := 1
  Query_DML_DEL_INDEX_COMMON := 1
  Query_DML_Can_Be_Replace := false
  Query_HasOrderby := 0
  Query_HasLimit := 0
  Query_Union := 0
  Query_Window := 0
  Query_INDEX_MERGE := false

/-- A concrete control surface: `MaxTableNum = 1` but `InitTableCount = 2`,
with GC-savepoint reads enabled. -/
def ctrlEx : ControlOption where
  Weight := wEx
  MaxTableNum := 1
  InitTableCount := 2
  InitColCount := 1
  InitRowCount := 1
  EnableTestTiFlash := false
  EnableColumnTypeChange := false
  EnableSelectOutFileAndLoadData := false
  CanReadGCSavePoint := true
  StrictTransTable := false
  EnableAggPushDown := false
  AggType := ""

/-- The empty catalog state over a control surface. -/
def emptyState (c : ControlOption) : GState where
  ctrl := c
  tables := []
  prepareStmts := []
  todoSQL := []
  initialized := false
  enabledClustered := false
  tableIdCnt := 0
  colIdCnt := 0
  idxIdCnt := 0
  prepIdCnt := 0
  tmpFileIdCnt := 0
  lastOutFileTable := none
  scopeCurrentTable := none
  scopeCurrentMultiTable := none
  scopeCurrentPrepare := none
  scopeCurrentPartitionCol := none
  scopeLastDropTable := none

/-- The concrete start state of the fixture runs. -/
def stEx0 : GState := emptyState ctrlEx

/-- The first table of the fixture run (one nullable int column, a primary
index on it, partitioned by it). -/
def tEx0 : Table :=
  ⟨0, [⟨0, .intF, true⟩], [⟨0, .primary, [⟨0, .intF, true⟩]⟩], [⟨0, .intF, true⟩], [], [], []⟩

/-- The second table of the fixture run. -/
def tEx1 : Table :=
  ⟨1, [⟨1, .intF, true⟩], [⟨1, .primary, [⟨1, .intF, true⟩]⟩], [⟨1, .intF, true⟩], [], [], []⟩

/-- The fixture state after step 1 (`create table t0 ...`). -/
def stEx1 : GState :=
  { stEx0 with
    tables := [tEx0]
    tableIdCnt := 1
    colIdCnt := 1
    idxIdCnt := 1
    scopeCurrentPartitionCol := some ⟨0, .intF, true⟩ }

/-- The fixture state after step 2 (`create table t1 ...`): two tables in
the catalog although `MaxTableNum = 1`. -/
def stEx2 : GState :=
  { stEx0 with
    tables := [tEx0, tEx1]
    tableIdCnt := 2
    colIdCnt := 2
    idxIdCnt := 2
    scopeCurrentPartitionCol := some ⟨1, .intF, true⟩ }

/-- The fixture state after step 3 (`insert into t0 ...`). -/
def stEx3 : GState :=
  { stEx0 with
    tables := [{ tEx0 with values := [["null"]] }, tEx1]
    tableIdCnt := 2
    colIdCnt := 2
    idxIdCnt := 2 }

/-- The fixture state after step 4 (`insert into t1 ...`); initialization
is complete. -/
def stEx4 : GState :=
  { stEx0 with
    tables := [{ tEx0 with values := [["null"]] }, { tEx1 with values := [["null"]] }]
    tableIdCnt := 2
    colIdCnt := 2
    idxIdCnt := 2
    initialized := true }

/-- The fixture state after step 5 (`drop table t0` with
`flashback table t0` enqueued on the deferred queue). -/
def stEx5 : GState := { stEx4 with todoSQL := ["flashback table t0"] }

theorem stEx_step1 : generate stEx0 ⟨[]⟩ =
    some ("create table t0 ( c0 int ) partition by hash( c0 ) partitions 1", stEx1, ⟨[]⟩) := rfl

theorem stEx_step2 : generate stEx1 ⟨[]⟩ =
    some ("create table t1 ( c1 int ) partition by hash( c1 ) partitions 1", stEx2, ⟨[]⟩) := rfl

theorem stEx_step3 : generate stEx2 ⟨[]⟩ =
    some ("insert into t0 values ( null )", stEx3, ⟨[]⟩) := rfl

theorem stEx_step4 : generate stEx3 ⟨[]⟩ =
    some ("insert into t1 values ( null )", stEx4, ⟨[]⟩) := rfl

theorem stEx_step5 : generate stEx4 ⟨[]⟩ = some ("drop table t0", stEx5, ⟨[]⟩) := rfl

/-- One space-joined token renders as itself. -/
theorem render_single (q : String) : render [q] = q := rfl

/-- Popping the deferred queue: with a non-empty queue, `Generate` emits the
head verbatim, drains it, and neither draws randomness nor enters the
grammar. -/
theorem generate_pop_first (st : GState) (q : String) (qs : List String) (r : R)
    (h : st.todoSQL = q :: qs) :
    generate st r = some (q, { resetScope st with todoSQL := qs }, r) := by
  have hrs : (resetScope st).todoSQL = q :: qs := h
  unfold generate startP
  rw [Gen.bind_def]
  unfold popOneTodoSQL
  rw [hrs]
  rfl

/-- C1: each `Generate` call first pops the deferred-SQL queue and, when it
is non-empty, emits its head verbatim (independently of the random stream,
so before any grammar production is entered); consequently, when the
`flashBackTable` production enqueued `flashback table T` at a step k with
an empty incoming queue (emitting `drop table T` or `truncate table T` at
that step), every possible step k+1 emits exactly `flashback table T` and
drains the queue, with no other SQL intervening. -/
theorem c1_deferred_flashback :
    (∀ (st : GState) (q : String) (qs : List String) (r : R), st.todoSQL = q :: qs →
      generate st r = some (q, { resetScope st with todoSQL := qs }, r)) ∧
    (∀ (st st1 : GState) (r r1 : R) (out T : String),
      st.todoSQL = [] →
      generate st r = some (out, st1, r1) →
      (out = "drop table " ++ T ∨ out = "truncate table " ++ T) →
      st1.todoSQL = ["flashback table " ++ T] →
      ∀ r2 : R, generate st1 r2 =
        some ("flashback table " ++ T, { resetScope st1 with todoSQL := [] }, r2)) := by
  constructor
  · exact generate_pop_first
  · intro st st1 r r1 out T hq hgen hout henq r2
    exact generate_pop_first st1 ("flashback table " ++ T) [] r2 henq

/-- C1 witness: in the concrete fixture run, step 5 emitted `drop table t0`
and enqueued `flashback table t0`; step 6 emits it verbatim for the empty
random stream. -/
theorem c1_deferred_flashback_witness :
    generate stEx5 ⟨[]⟩ =
      some ("flashback table t0", { resetScope stEx5 with todoSQL := [] }, ⟨[]⟩) :=
  c1_deferred_flashback.2 stEx4 stEx5 ⟨[]⟩ ⟨[]⟩ "drop table t0" "t0" rfl stEx_step5
    (Or.inl rfl) rfl ⟨[]⟩

/-- C4 counterexample: with `MaxTableNum = 1` and `InitTableCount = 2`, two
generation steps from the empty catalog leave two tables in the catalog:
`initStart` selects `createTable` while `tables < InitTableCount` without
consulting `MaxTableNum`, so the table count exceeds `MaxTableNum`. -/
theorem c4_counterexample :
    generateN 2 stEx0 ⟨[]⟩ =
      some (["create table t0 ( c0 int ) partition by hash( c0 ) partitions 1",
             "create table t1 ( c1 int ) partition by hash( c1 ) partitions 1"],
        stEx2, ⟨[]⟩) ∧
      stEx2.tables.length = 2 ∧ stEx2.ctrl.MaxTableNum = 1 := by
  refine ⟨?_, rfl, rfl⟩
  simp only [generateN, stEx_step1, stEx_step2]

/-- C4 (amended): over any number of generation steps the catalog size
never exceeds the maximum of its starting size, `MaxTableNum` and
`InitTableCount`: the main `start` dispatch makes `createTable` and
`createTableLike` selectable only while `tables < MaxTableNum`, but the
initialization phase (`initStart`) selects `createTable` while
`tables < InitTableCount` without consulting `MaxTableNum`. -/
theorem c4_table_count_bound (n : Nat) (s : GState) (r : R) (qs : List String)
    (s' : GState) (r' : R) (h : generateN n s r = some (qs, s', r')) :
    s'.tables.length ≤ max s.tables.length (max s.ctrl.MaxTableNum s.ctrl.InitTableCount) :=
  (generateN_table_bound n s r qs s' r' h).1

/-- C4 witness: the bound evaluated on the concrete two-step fixture run. -/
theorem c4_table_count_bound_witness :
    stEx2.tables.length ≤
      max stEx0.tables.length (max stEx0.ctrl.MaxTableNum stEx0.ctrl.InitTableCount) :=
  c4_table_count_bound 2 stEx0 ⟨[]⟩
    ["create table t0 ( c0 int ) partition by hash( c0 ) partitions 1",
     "create table t1 ( c1 int ) partition by hash( c1 ) partitions 1"]
    stEx2 ⟨[]⟩ (by simp only [generateN, stEx_step1, stEx_step2])

/-- C2: with an explicitly configured seed, the draw stream — and hence the
emitted SQL sequence — of a `NewGenerator` producer run is a function of
the seed, the step count and the starting catalog state alone: two runs at
different wall-clock instants are byte-identical. -/
theorem c2_seed_reproducible (now1 now2 sd len steps : Nat) (st : GState) :
    newGeneratorRun now1 (some sd) len steps st =
      newGeneratorRun now2 (some sd) len steps st := rfl

/-- C5 counterexample: an `admin check` statement where the first database
fails with a table-not-exist error (its message contains `t exist`) while
the second database succeeds with a result set.  `runInteractTest` does not
return nil: the early return is skipped, but `ValidateErrs` then rejects
the one-sided error, so an errs-mismatch error is returned. -/
theorem c5_counterexample :
    runInteractTest "admin check table t0" none
        (some "Error 1146: Table \x27test.t0\x27 doesn\x27t exist")
        (some ⟨"d", "d", false, 0⟩) none true = InteractRes.errsMismatch ∧
      runInteractTest "admin check table t0" none
        (some "Error 1146: Table \x27test.t0\x27 doesn\x27t exist")
        (some ⟨"d", "d", false, 0⟩) none true ≠ InteractRes.ok := by
  exact ⟨by decide, by decide⟩

/-- C5 (amended): a `t exist` error is only shielded from the admin-check
early returns; nil is returned exactly when the rest of the validation
still passes.  In particular, when both databases error with messages
containing `t exist` (so both result sets are nil), `runInteractTest`
returns nil — for any statement; but when only one side errors the call
reports an errs mismatch (see the counterexample). -/
theorem c5_both_sides_suppressed (sql e1 e2 : String) (sortQ : Bool)
    (h1 : strContains e1 "t exist" = true)
    (h2 : strContains e2 "t exist" = true) :
    runInteractTest sql none (some e1) none (some e2) sortQ = InteractRes.ok := by
  unfold runInteractTest
  simp [h1, h2, ValidateErrs]

/-- C5 amended witness: both sides fail with table-not-exist on an admin
check; the call returns nil. -/
theorem c5_both_sides_suppressed_witness :
    runInteractTest "admin check table t0"
      none (some "Error 1146: Table \x27test.t0\x27 doesn\x27t exist")
      none (some "Error 1146: Table \x27test.t0\x27 doesn\x27t exist") true =
      InteractRes.ok :=
  c5_both_sides_suppressed "admin check table t0"
    "Error 1146: Table \x27test.t0\x27 doesn\x27t exist"
    "Error 1146: Table \x27test.t0\x27 doesn\x27t exist" true (by decide) (by decide)

/-- C6 counterexample: the index-definition gate of `createTable` fires in
9 of the 20 equally likely (gate, coin) outcomes when index-merge testing
is disabled — probability 9/20, not approximately 1/10; and with
index-merge enabled a tails coin still suppresses emission, so it is not
"effectively always". -/
theorem c6_counterexample :
    ((Finset.range 10 ×ˢ (Finset.univ : Finset Bool)).filter
        (fun p => createTableIncludesIdx false p.1 p.2 = true)).card = 9 ∧
      (Finset.range 10 ×ˢ (Finset.univ : Finset Bool)).card = 20 ∧
      createTableIncludesIdx true 1 false = false := by
  exact ⟨by decide, by decide, by decide⟩

/-- C6 (amended): `createTable` emits its generated index definitions iff
the uniform gate draw is nonzero modulo `indexOpt` (9/10 of draws with
`indexOpt = 10` when index-merge is disabled, 999999/1000000 with
`indexOpt = 1000000` when enabled) and an independent fair coin comes up
heads — an overall emission probability of 9/20, resp. 999999/2000000,
when the respective mode is active. -/
theorem c6_gate_characterization :
    ((Finset.range 10 ×ˢ (Finset.univ : Finset Bool)).filter
        (fun p => createTableIncludesIdx false p.1 p.2 = true)).card * 2 =
        ((Finset.range 10 ×ˢ (Finset.univ : Finset Bool)).card * 9) / 10 ∧
      ∀ im gate coin, createTableIncludesIdx im gate coin = true ↔
        (gate % createTableIndexOpt im ≠ 0 ∧ coin = true) := by
  refine ⟨by decide, fun im gate coin => ?_⟩
  unfold createTableIncludesIdx
  rw [Bool.and_eq_true, decide_eq_true_eq]

/-- Elimination form of a successful `readTable`: the table really is at
that catalog position and nothing else moved. -/
theorem readTable_eq_some {i : Nat} {s : GState} {r : R} {t : Table}
    {s2 : GState} {r2 : R} (h : readTable i s r = some (t, s2, r2)) :
    s.tables.get? i = some t ∧ s2 = s ∧ r2 = r := by
  unfold readTable at h
  split at h
  · exact absurd h (by simp)
  · rename_i t0 ht0
    obtain ⟨h1, h2, h3⟩ := some_triple_inj h
    exact ⟨h1 ▸ ht0, h2.symm, h3.symm⟩

/-- A successful `Table.getRandomIndex` returns one of the table's own
indices. -/
theorem getRandomIndex_mem {t : Table} {s : GState} {r : R} {idx : Index}
    {s2 : GState} {r2 : R} (h : t.getRandomIndex s r = some (idx, s2, r2)) :
    idx ∈ t.indices := by
  unfold Table.getRandomIndex at h
  rw [Gen.bind_eq_some] at h
  obtain ⟨v, s1, r1, -, h⟩ := h
  cases hg : t.indices.get? v with
  | none => rw [hg] at h; exact absurd h (by simp [failP])
  | some i0 =>
    rw [hg] at h
    have h2 : (some (i0, s1, r1) : Option (Index × GState × R)) = some (idx, s2, r2) := h
    obtain ⟨h1, -, -⟩ := some_triple_inj h2
    exact h1 ▸ List.get?_mem hg

/-- C8: under `EnableTestTiFlash` every successful `adminCheck` evaluation
emits the empty string (so a whole `Generate` call returns an empty
statement); otherwise it emits `admin check table <t>` for a catalog table
`t`, or `admin check index <t> <i>` for one of that table's indices. -/
theorem c8_adminCheck_characterization (s : GState) (r : R) (out : List String)
    (s2 : GState) (r2 : R) (h : adminCheck s r = some (out, s2, r2)) :
    (s.ctrl.EnableTestTiFlash = true → out = [""] ∧ render out = "") ∧
    (s.ctrl.EnableTestTiFlash = false →
      ∃ t, t ∈ s.tables ∧
        (out = ["admin check table", t.name] ∨
          ∃ idx, idx ∈ t.indices ∧ out = ["admin check index", t.name, idx.name])) := by
  unfold adminCheck at h
  rw [Gen.bind_eq_some] at h
  obtain ⟨sg, s1, r1, hg, h⟩ := h
  have hg2 : (some (s, s, r) : Option (GState × GState × R)) = some (sg, s1, r1) := hg
  obtain ⟨rfl, rfl, rfl⟩ := some_triple_inj hg2
  rw [Gen.bind_eq_some] at h
  obtain ⟨ti, sa, ra, hti, h⟩ := h
  have hsa : sa = s := stateless_getRandTableIdx s r ti sa ra hti
  subst hsa
  rw [Gen.bind_eq_some] at h
  obtain ⟨t, sb, rb, hrt, h⟩ := h
  obtain ⟨hget, rfl, rfl⟩ := readTable_eq_some hrt
  constructor
  · intro hfl
    rw [if_pos hfl] at h
    rw [Gen.pure_def] at h
    obtain ⟨h1, -, -⟩ := some_triple_inj h
    exact ⟨h1.symm, by rw [← h1]; rfl⟩
  · intro hfl
    rw [if_neg (by simp [hfl])] at h
    refine ⟨t, List.get?_mem hget, ?_⟩
    by_cases hidx : t.indices.length = 0
    · rw [if_pos hidx] at h
      rw [Gen.pure_def] at h
      obtain ⟨h1, -, -⟩ := some_triple_inj h
      exact Or.inl h1.symm
    · rw [if_neg hidx] at h
      rw [Gen.bind_eq_some] at h
      obtain ⟨idx, sc, rc, hgi, h⟩ := h
      have hmemIdx := getRandomIndex_mem hgi
      have hsc := stateless_getRandomIndex t _ _ idx sc rc hgi
      subst hsc
      rcases orEval_eq_some h with ⟨hz, -⟩ | ⟨w, c, hmem, -, r3, hc⟩
      · simp at hz
      · simp only [List.mem_cons, List.not_mem_nil, or_false, Prod.mk.injEq] at hmem
        rcases hmem with ⟨-, hcres⟩ | ⟨-, hcres⟩
        · rw [hcres, Gen.pure_def] at hc
          obtain ⟨h1, -, -⟩ := some_triple_inj hc
          exact Or.inl h1.symm
        · rw [hcres, Gen.pure_def] at hc
          obtain ⟨h1, -, -⟩ := some_triple_inj hc
          exact Or.inr ⟨idx, hmemIdx, h1.symm⟩

/-- C8 witness: in the fixture state (TiFlash testing off, two catalog
tables), a concrete `adminCheck` run emits `admin check table t0`. -/
theorem c8_adminCheck_witness :
    (stEx4.ctrl.EnableTestTiFlash = true →
        ["admin check table", "t0"] = [""] ∧ render ["admin check table", "t0"] = "") ∧
    (stEx4.ctrl.EnableTestTiFlash = false →
      ∃ t, t ∈ stEx4.tables ∧
        (["admin check table", "t0"] = ["admin check table", t.name] ∨
          ∃ idx, idx ∈ t.indices ∧
            ["admin check table", "t0"] = ["admin check index", t.name, idx.name])) :=
  c8_adminCheck_characterization stEx4 ⟨[]⟩ ["admin check table", "t0"] stEx4 ⟨[]⟩ rfl

/-- C9: when the scope key for the last out-file table points at a table
with no clones (`childTables = []`), `loadTable` evaluates to `none` — the
Go code panics in `rand.Intn(0)` — for every draw stream; yet the guard
consulted by the `start` dispatch, that the scope key is set, holds, so the
production is selectable in such a state. -/
theorem c9_loadTable_panics (s : GState) (ti : Nat) (t : Table)
    (hlast : s.lastOutFileTable = some ti)
    (ht : s.tables.get? ti = some t)
    (hchild : t.childTables = []) :
    (∀ r : R, loadTable s r = none) ∧ s.lastOutFileTable.isSome = true := by
  refine ⟨fun r => ?_, by rw [hlast]; rfl⟩
  have ht2 : s.tables[ti]? = some t := by rw [← List.get?_eq_getElem?]; exact ht
  simp [loadTable, Gen.bind_def, Gen.pure_def, getS, readTable, randIntn, hlast, ht2, hchild]

/-- C9 witness: the fixture state with the out-file scope key pointed at
the clone-less table `t0`: `loadTable` panics on the empty draw stream,
while the `start` guard condition holds. -/
theorem c9_loadTable_panics_witness :
    (∀ r : R, loadTable { stEx4 with lastOutFileTable := some 0 } r = none) ∧
      ({ stEx4 with lastOutFileTable := some 0 } : GState).lastOutFileTable.isSome = true :=
  c9_loadTable_panics { stEx4 with lastOutFileTable := some 0 } 0
    { tEx0 with values := [["null"]] } (by rfl) (by rfl) (by rfl)

/-!  No-limit-token analysis (C10): head-character reasoning on emitted
tokens, a benign-values predicate on the catalog, and a result-predicate
transformer over `Gen`. -/

/-- The first character of a string, if any. -/
def strHead (s : String) : Option Char := s.data.head?

theorem ne_of_strHead {a b : String} (h : strHead a ≠ strHead b) : a ≠ b :=
  fun he => h (he ▸ rfl)

theorem strHead_append (a b : String) (ha : a.data ≠ []) :
    strHead (a ++ b) = strHead a := by
  unfold strHead
  rw [String.data_append]
  cases hd : a.data with
  | nil => exact absurd hd ha
  | cons c cs => rfl

theorem data_append_ne_nil (a b : String) (ha : a.data ≠ []) : (a ++ b).data ≠ [] := by
  rw [String.data_append]
  intro h
  exact ha (List.append_eq_nil.mp h).1

/-- A token that starts with a character other than `l` is not the token
`limit`. -/
theorem concat_ne_limit (p y : String) (hne : p.data ≠ [])
    (hh : strHead p ≠ strHead "limit") : p ++ y ≠ "limit" := by
  apply ne_of_strHead
  rw [strHead_append p y hne]
  exact hh

theorem decRepr_data_ne_nil (v : Nat) : (decRepr v).data ≠ [] :=
  decDigits_ne_nil v v

theorem decRepr_head_digit (v : Nat) :
    ∃ c, strHead (decRepr v) = some c ∧ c.isDigit = true := by
  unfold strHead decRepr
  cases hd : decDigits (v + 1) v with
  | nil => exact absurd hd (decDigits_ne_nil v v)
  | cons c cs =>
    refine ⟨c, rfl, ?_⟩
    exact decDigits_digits (v + 1) v c (by rw [hd]; exact List.mem_cons_self c cs)

/-- A token whose head character is a digit is not the token `limit`. -/
theorem digit_head_ne_limit {x : String} {c : Char} (hc : strHead x = some c)
    (hd : c.isDigit = true) : x ≠ "limit" := by
  apply ne_of_strHead
  rw [hc]
  intro he
  have h2 : strHead "limit" = some ('l') := rfl
  rw [h2] at he
  rw [Option.some.inj he] at hd
  exact absurd hd (by decide)

theorem decRepr_ne_limit (v : Nat) : decRepr v ≠ "limit" := by
  obtain ⟨c, hc, hd⟩ := decRepr_head_digit v
  exact digit_head_ne_limit hc hd

theorem decRepr_concat_ne_limit (v : Nat) (y : String) : decRepr v ++ y ≠ "limit" := by
  obtain ⟨c, hc, hd⟩ := decRepr_head_digit v
  refine digit_head_ne_limit ?_ hd
  rw [strHead_append _ _ (decRepr_data_ne_nil v)]
  exact hc

/-- No rendered literal of any column type is the token `limit`: it starts
with a digit, a quote, `x` or is `null`. -/
theorem renderVal_ne_limit (tp : ColTp) (v : Nat) : tp.renderVal v ≠ "limit" := by
  cases tp with
  | intF => exact decRepr_ne_limit v
  | stringF =>
    unfold ColTp.renderVal
    apply ne_of_strHead
    rw [strHead_append _ _ (data_append_ne_nil _ _ (by decide)),
      strHead_append _ _ (by decide)]
    decide
  | datetimeF =>
    unfold ColTp.renderVal
    apply ne_of_strHead
    rw [strHead_append _ _ (data_append_ne_nil _ _ (by decide)),
      strHead_append _ _ (by decide)]
    decide
  | floatF =>
    unfold ColTp.renderVal
    obtain ⟨c, hc, hd⟩ := decRepr_head_digit (v % 1000)
    refine digit_head_ne_limit ?_ hd
    rw [strHead_append _ _ (data_append_ne_nil _ _ (decRepr_data_ne_nil _)),
      strHead_append _ _ (decRepr_data_ne_nil _)]
    exact hc
  | decimalF =>
    unfold ColTp.renderVal
    obtain ⟨c, hc, hd⟩ := decRepr_head_digit (v % 1000)
    refine digit_head_ne_limit ?_ hd
    rw [strHead_append _ _ (data_append_ne_nil _ _ (decRepr_data_ne_nil _)),
      strHead_append _ _ (decRepr_data_ne_nil _)]
    exact hc
  | blobF =>
    unfold ColTp.renderVal
    apply ne_of_strHead
    rw [strHead_append _ _ (data_append_ne_nil _ _ (by decide)),
      strHead_append _ _ (by decide)]
    decide
  | enumF =>
    unfold ColTp.renderVal
    apply ne_of_strHead
    rw [strHead_append _ _ (data_append_ne_nil _ _ (by decide)),
      strHead_append _ _ (by decide)]
    decide

theorem columnName_ne_limit (c : Column) : c.name ≠ "limit" :=
  concat_ne_limit _ _ (by decide) (by decide)

theorem tableName_ne_limit (t : Table) : t.name ≠ "limit" :=
  concat_ne_limit _ _ (by decide) (by decide)

theorem tableName_data_ne_nil (t : Table) : t.name.data ≠ [] :=
  data_append_ne_nil _ _ (by decide)

theorem columnName_data_ne_nil (c : Column) : c.name.data ≠ [] :=
  data_append_ne_nil _ _ (by decide)

/-- A qualified column token `t<i>.c<j>` is not the token `limit`. -/
theorem qualColName_ne_limit (t : Table) (c : Column) :
    t.name ++ "." ++ c.name ≠ "limit" := by
  apply ne_of_strHead
  rw [strHead_append _ _ (data_append_ne_nil _ _ (tableName_data_ne_nil t)),
    strHead_append _ _ (tableName_data_ne_nil t)]
  unfold Table.name
  rw [strHead_append _ _ (by decide)]
  decide

theorem commaJoin_cons_head (x : String) (xs : List String) (hx : x.data ≠ []) :
    strHead (commaJoin (x :: xs)) = strHead x := by
  cases xs with
  | nil => rfl
  | cons y ys => exact strHead_append _ _ hx

theorem printColumnNamesWithoutPar_ne_limit (cols : List Column) :
    printColumnNamesWithoutPar cols "" ≠ "limit" := by
  unfold printColumnNamesWithoutPar
  split
  · decide
  · cases cols with
    | nil => simp_all
    | cons c cs =>
      apply ne_of_strHead
      rw [List.map_cons, commaJoin_cons_head _ _ (columnName_data_ne_nil c)]
      unfold Column.name
      rw [strHead_append _ _ (by decide)]
      decide

theorem printPredicateDNF_ne_limit (cols : List Column) (pts : List (List String)) :
    printPredicateDNF cols pts ≠ "limit" := by
  apply ne_of_strHead
  unfold printPredicateDNF
  rw [strHead_append _ _ (data_append_ne_nil _ _ (by decide)),
    strHead_append _ _ (by decide)]
  decide

theorem printPredicateCompoundDNF_ne_limit (cols : List Column) (pts : List (List String)) :
    printPredicateCompoundDNF cols pts ≠ "limit" := by
  apply ne_of_strHead
  unfold printPredicateCompoundDNF
  rw [strHead_append _ _ (data_append_ne_nil _ _ (by decide)),
    strHead_append _ _ (by decide)]
  decide

theorem printPredicateIn_ne_limit (cols : List Column) (pts : List (List String)) :
    printPredicateIn cols pts ≠ "limit" := by
  apply ne_of_strHead
  unfold printPredicateIn
  rw [strHead_append _ _
      (data_append_ne_nil _ _ (data_append_ne_nil _ _ (data_append_ne_nil _ _ (by decide)))),
    strHead_append _ _ (data_append_ne_nil _ _ (data_append_ne_nil _ _ (by decide))),
    strHead_append _ _ (data_append_ne_nil _ _ (by decide)),
    strHead_append _ _ (by decide)]
  decide

theorem notlim_append (a b : List String) (ha : "limit" ∉ a) (hb : "limit" ∉ b) :
    "limit" ∉ a ++ b := by
  intro h
  rcases List.mem_append.mp h with h | h
  · exact ha h
  · exact hb h

/-- No sampled row value stored in the table is the bare token `limit`. -/
def TableOk (t : Table) : Bool :=
  t.values.all fun row => row.all fun v => v ≠ "limit"

/-- No table of the catalog stores the bare token `limit` as a row value. -/
def ValsOk (s : GState) : Bool := s.tables.all TableOk

theorem valsOk_table {s : GState} {t : Table} (h : ValsOk s = true)
    (ht : t ∈ s.tables) : TableOk t = true := by
  unfold ValsOk at h
  exact List.all_eq_true.mp h t ht

theorem tableOk_val {t : Table} {row : List String} {v : String} (h : TableOk t = true)
    (hrow : row ∈ t.values) (hv : v ∈ row) : v ≠ "limit" := by
  unfold TableOk at h
  have h2 := List.all_eq_true.mp h row hrow
  have h3 := List.all_eq_true.mp h2 v hv
  exact of_decide_eq_true h3

/-- Result-predicate transformer: provided the catalog values are benign on
entry, a successful evaluation satisfies `P` and keeps them benign. -/
def GenOk {α : Type} (P : α → Prop) (m : Gen α) : Prop :=
  ∀ s r a s2 r2, m s r = some (a, s2, r2) → ValsOk s = true → P a ∧ ValsOk s2 = true

theorem genok_pure {α : Type} {P : α → Prop} (a : α) (h : P a) : GenOk P (pure a) := by
  intro s r b s2 r2 hh hv
  obtain ⟨h1, h2, -⟩ := some_triple_inj hh
  exact ⟨h1 ▸ h, h2 ▸ hv⟩

theorem genok_failP {α : Type} {P : α → Prop} : GenOk P (failP : Gen α) := by
  intro s r b s2 r2 hh hv
  exact absurd hh (by simp [failP])

theorem genok_bind {α β : Type} {P : α → Prop} {Q : β → Prop} {m : Gen α}
    {k : α → Gen β} (hm : GenOk P m) (hk : ∀ a, P a → GenOk Q (k a)) :
    GenOk Q (m >>= k) := by
  intro s r b s2 r2 h hv
  rw [Gen.bind_eq_some] at h
  obtain ⟨a, s1, r1, h1, h2⟩ := h
  obtain ⟨hp, hv1⟩ := hm s r a s1 r1 h1 hv
  exact hk a hp s1 r1 b s2 r2 h2 hv1

theorem genok_ite {α : Type} {P : α → Prop} (c : Prop) [Decidable c] {m1 m2 : Gen α}
    (h1 : GenOk P m1) (h2 : GenOk P m2) : GenOk P (if c then m1 else m2) := by
  split
  · exact h1
  · exact h2

theorem genok_of_stateless {α : Type} {m : Gen α} (h : StateLess m) :
    GenOk (fun _ => True) m := by
  intro s r a s2 r2 hh hv
  refine ⟨trivial, ?_⟩
  rw [h s r a s2 r2 hh]
  exact hv

theorem genok_readTable (i : Nat) : GenOk (fun t => TableOk t = true) (readTable i) := by
  intro s r t s2 r2 h hv
  obtain ⟨hget, rfl, rfl⟩ := readTable_eq_some h
  exact ⟨valsOk_table hv (List.get?_mem hget), hv⟩

theorem genok_modify_keep_tables (f : GState → GState)
    (hf : ∀ s, (f s).tables = s.tables) : GenOk (fun _ => True) (modifyS f) := by
  intro s r a s2 r2 h hv
  have h2 : (some ((), f s, r) : Option (Unit × GState × R)) = some (a, s2, r2) := h
  obtain ⟨-, hs2, -⟩ := some_triple_inj h2
  refine ⟨trivial, ?_⟩
  rw [← hs2]
  unfold ValsOk
  rw [hf s]
  exact hv

theorem mem_listUpd {α : Type} (l : List α) (i : Nat) (f : α → α) (a : α)
    (h : a ∈ listUpd l i f) : a ∈ l ∨ ∃ b, b ∈ l ∧ a = f b := by
  induction l generalizing i with
  | nil => simp [listUpd] at h
  | cons x xs ih =>
    cases i with
    | zero =>
      simp only [listUpd, List.mem_cons] at h
      rcases h with h | h
      · exact Or.inr ⟨x, List.mem_cons_self x xs, h⟩
      · exact Or.inl (List.mem_cons_of_mem x h)
    | succ i =>
      simp only [listUpd, List.mem_cons] at h
      rcases h with h | h
      · exact Or.inl (h ▸ List.mem_cons_self x xs)
      · rcases ih i h with h2 | ⟨b, hb, he⟩
        · exact Or.inl (List.mem_cons_of_mem x h2)
        · exact Or.inr ⟨b, List.mem_cons_of_mem x hb, he⟩

theorem genok_updTable_values (i : Nat) (f : Table → Table)
    (hf : ∀ tb, (f tb).values = tb.values) : GenOk (fun _ => True) (updTable i f) := by
  intro s r a s2 r2 h hv
  have h2 : (some ((), { s with tables := listUpd s.tables i f }, r) :
      Option (Unit × GState × R)) = some (a, s2, r2) := h
  obtain ⟨-, hs2, -⟩ := some_triple_inj h2
  refine ⟨trivial, ?_⟩
  rw [← hs2]
  unfold ValsOk
  refine List.all_eq_true.mpr ?_
  intro t ht
  rcases mem_listUpd s.tables i f t ht with hm | ⟨b, hb, he⟩
  · exact valsOk_table hv hm
  · have hbok := valsOk_table hv hb
    rw [he]
    unfold TableOk
    rw [hf b]
    exact hbok

theorem genok_orEval {Q : List String → Prop} (hnil : Q [])
    {cs : List (Nat × Gen (List String))} (h : ∀ p ∈ cs, GenOk Q p.2) :
    GenOk Q (orEval cs) := by
  intro s r a s2 r2 hh hv
  rcases orEval_eq_some hh with ⟨-, hx⟩ | ⟨w, c, hmem, -, r1, hc⟩
  · simp only [Prod.mk.injEq] at hx
    obtain ⟨ha, hs2, -⟩ := hx
    exact ⟨by rw [ha]; exact hnil, by rw [hs2]; exact hv⟩
  · exact h (w, c) hmem s r1 a s2 r2 hc hv

theorem genok_optIf {Q : List String → Prop} (hnil : Q []) (cond : Bool)
    {c : Gen (List String)} (hc : GenOk Q c) : GenOk Q (optIf cond c) := by
  unfold optIf
  split
  · refine genok_orEval hnil ?_
    intro p hp
    simp only [List.mem_cons, List.not_mem_nil, or_false] at hp
    rcases hp with rfl | rfl
    · exact genok_pure _ hnil
    · exact hc
  · exact genok_pure _ hnil

theorem genok_repTail {Q : List String → Prop} (hnil : Q [])
    (happ : ∀ a b, Q a → Q b → Q (a ++ b)) {body sep : Gen (List String)}
    (hb : GenOk Q body) (hs : GenOk Q sep) : ∀ n, GenOk Q (repTail body sep n)
  | 0 => genok_pure _ hnil
  | n + 1 => by
    unfold repTail
    refine genok_bind hs fun sp hsp => ?_
    refine genok_bind hb fun t ht => ?_
    refine genok_bind (genok_repTail hnil happ hb hs n) fun rest hrest => ?_
    exact genok_pure _ (happ _ _ (happ _ _ hsp ht) hrest)

theorem genok_repK {Q : List String → Prop} (hnil : Q [])
    (happ : ∀ a b, Q a → Q b → Q (a ++ b)) {body sep : Gen (List String)}
    (hb : GenOk Q body) (hs : GenOk Q sep) : ∀ n, GenOk Q (repK body sep n)
  | 0 => genok_pure _ hnil
  | n + 1 => by
    unfold repK
    refine genok_bind hb fun t ht => ?_
    refine genok_bind (genok_repTail hnil happ hb hs n) fun rest hrest => ?_
    exact genok_pure _ (happ _ _ ht hrest)

theorem genok_repRange {Q : List String → Prop} (hnil : Q [])
    (happ : ∀ a b, Q a → Q b → Q (a ++ b)) {body sep : Gen (List String)}
    (hb : GenOk Q body) (hs : GenOk Q sep) (lo hi : Nat) :
    GenOk Q (repRange lo hi body sep) := by
  unfold repRange
  refine genok_bind (genok_of_stateless (stateless_randIntn _)) fun n _ => ?_
  exact genok_repK hnil happ hb hs (lo + n)

theorem genok_randomValue (c : Column) : GenOk (· ≠ "limit") c.randomValue := by
  unfold Column.randomValue
  refine genok_bind (genok_of_stateless (stateless_randIntn _)) fun v _ => ?_
  refine genok_ite _ ?_ ?_
  · exact genok_pure _ (by decide)
  · exact genok_pure _ (renderVal_ne_limit _ _)

theorem genok_getRandRowVal (t : Table) (c : Column) (ht : TableOk t = true) :
    GenOk (· ≠ "limit") (t.getRandRowVal c) := by
  unfold Table.getRandRowVal
  refine genok_bind (genok_of_stateless (stateless_randIntn _)) fun v _ => ?_
  cases hrow : t.values.get? v with
  | none => exact genok_failP
  | some row =>
    refine genok_pure _ ?_
    cases hg : row.get? (t.columns.indexOf c) with
    | none => decide
    | some v2 => exact tableOk_val ht (List.get?_mem hrow) (List.get?_mem hg)

theorem genok_randValPlain (t : Table) (c : Column) (ht : TableOk t = true) :
    GenOk (fun a => "limit" ∉ a) (randValPlain t c) := by
  unfold randValPlain
  refine genok_bind (genok_of_stateless (stateless_randIntn 3)) fun z _ => ?_
  refine genok_ite _ ?_ ?_
  · refine genok_bind (genok_randomValue c) fun v hv => ?_
    refine genok_pure _ ?_
    intro hmem
    rw [List.mem_singleton] at hmem
    exact hv hmem.symm
  · refine genok_bind (genok_getRandRowVal t c ht) fun v hv => ?_
    refine genok_pure _ ?_
    intro hmem
    rw [List.mem_singleton] at hmem
    exact hv hmem.symm

theorem genok_randValP (ti : Nat) (c : Column) :
    GenOk (fun a => "limit" ∉ a) (randValP ti c) := by
  unfold randValP
  refine genok_bind (genok_of_stateless stateless_getS) fun s0 _ => ?_
  refine genok_bind (genok_readTable ti) fun t ht => ?_
  cases s0.scopeCurrentPrepare with
  | some pid =>
    refine genok_bind (genok_of_stateless (stateless_randIntn 50)) fun z _ => ?_
    refine genok_ite _ ?_ ?_
    · refine genok_bind (genok_modify_keep_tables _ (fun s => rfl)) fun _ _ => ?_
      exact genok_pure _ (by decide)
    · exact genok_randValPlain t c ht
  | none => exact genok_randValPlain t c ht

theorem genok_cmpSymbol : GenOk (fun a => "limit" ∉ a) cmpSymbol := by
  unfold cmpSymbol
  refine genok_orEval (List.not_mem_nil _) ?_
  intro p hp
  simp only [List.mem_cons, List.not_mem_nil, or_false] at hp
  rcases hp with rfl | rfl | rfl | rfl | rfl | rfl | rfl <;> exact genok_pure _ (by decide)

theorem genok_predicate : GenOk (fun a => "limit" ∉ a) predicate := by
  unfold predicate
  refine genok_bind (genok_of_stateless stateless_getS) fun s0 _ => ?_
  refine genok_bind (genok_of_stateless stateless_getTableIdx) fun ti _ => ?_
  refine genok_bind (genok_readTable ti) fun t _ => ?_
  refine genok_bind (genok_of_stateless (stateless_getRandColumn t)) fun c0 _ => ?_
  refine genok_bind (P := fun _ => True) (genok_ite _ ?_ (genok_pure _ trivial))
    fun rc _ => ?_
  · cases t.colForPrefixIndex.head? with
    | some c =>
      refine genok_bind (genok_updTable_values ti _ (fun tb => rfl)) fun _ _ => ?_
      exact genok_pure _ trivial
    | none => exact genok_failP
  · refine genok_orEval (List.not_mem_nil _) ?_
    intro p hp
    simp only [List.mem_cons, List.not_mem_nil, or_false] at hp
    rcases hp with rfl | rfl
    · refine genok_bind genok_cmpSymbol fun cs hcs => ?_
      refine genok_bind (genok_randValP ti rc) fun v hv => ?_
      refine genok_pure _ ?_
      intro hmem
      simp only [List.mem_append, List.mem_singleton] at hmem
      rcases hmem with (hmem | hmem) | hmem
      · exact qualColName_ne_limit t rc hmem.symm
      · exact hcs hmem
      · exact hv hmem
    · refine genok_bind
        (genok_repRange (List.not_mem_nil _) notlim_append (genok_randValP ti rc)
          (genok_pure _ (by decide)) 1 5) fun vs hvs => ?_
      refine genok_pure _ ?_
      intro hmem
      simp only [List.mem_append, List.mem_cons, List.mem_singleton,
        List.not_mem_nil, or_false] at hmem
      rcases hmem with ((hmem | hmem | hmem) | hmem) | hmem
      · exact qualColName_ne_limit t rc hmem.symm
      · exact absurd hmem (by decide)
      · exact absurd hmem (by decide)
      · exact hvs hmem
      · exact absurd hmem (by decide)

theorem genok_andPredicates : GenOk (fun a => "limit" ∉ a) andPredicates := by
  unfold andPredicates
  refine genok_bind (genok_of_stateless stateless_getTableIdx) fun ti _ => ?_
  refine genok_bind (genok_readTable ti) fun t _ => ?_
  refine genok_bind (genok_of_stateless (stateless_getRandIndexPrefixColumn t))
    fun pcols _ => ?_
  refine genok_bind (genok_updTable_values ti _ (fun tb => rfl)) fun _ _ => ?_
  refine genok_bind (genok_of_stateless (stateless_randIntn 5)) fun z _ => ?_
  refine genok_bind (P := fun _ => True) (genok_ite _ ?_ (genok_pure _ trivial))
    fun cnt _ => ?_
  · refine genok_bind (genok_of_stateless (stateless_randIntn 2)) fun e _ => ?_
    exact genok_pure _ trivial
  · exact genok_repK (List.not_mem_nil _) notlim_append genok_predicate
      (genok_pure _ (by decide)) cnt

theorem genok_predicatesPointGet (t : Table) (idx : Index) :
    GenOk (fun a => "limit" ∉ a) (predicatesPointGet t idx) := by
  unfold predicatesPointGet
  refine genok_bind (genok_of_stateless (stateless_randIntn 4)) fun pc _ => ?_
  refine genok_bind (genok_of_stateless (stateless_pointGetVals t idx _)) fun pts _ => ?_
  refine genok_orEval (List.not_mem_nil _) ?_
  intro p hp
  simp only [List.mem_cons, List.not_mem_nil, or_false] at hp
  rcases hp with rfl | rfl | rfl
  · refine genok_pure _ ?_
    intro hmem
    rw [List.mem_singleton] at hmem
    exact printPredicateDNF_ne_limit _ _ hmem.symm
  · refine genok_pure _ ?_
    intro hmem
    rw [List.mem_singleton] at hmem
    exact printPredicateCompoundDNF_ne_limit _ _ hmem.symm
  · refine genok_pure _ ?_
    intro hmem
    rw [List.mem_singleton] at hmem
    exact printPredicateIn_ne_limit _ _ hmem.symm

theorem genok_predicatesRest (t : Table) (ui : Option Index) :
    GenOk (fun a => "limit" ∉ a) (predicatesRest t ui) := by
  unfold predicatesRest
  refine genok_orEval (List.not_mem_nil _) ?_
  intro p hp
  simp only [List.mem_cons, List.not_mem_nil, or_false] at hp
  rcases hp with rfl | rfl
  · refine genok_repRange (List.not_mem_nil _) notlim_append genok_predicate ?_ 1 5
    refine genok_orEval (List.not_mem_nil _) ?_
    intro q hq
    simp only [List.mem_cons, List.not_mem_nil, or_false] at hq
    rcases hq with rfl | rfl <;> exact genok_pure _ (by decide)
  · cases ui with
    | some idx => exact genok_predicatesPointGet t idx
    | none => exact genok_failP

theorem genok_predicates : GenOk (fun a => "limit" ∉ a) predicates := by
  unfold predicates
  refine genok_bind (genok_of_stateless stateless_getS) fun s0 _ => ?_
  refine genok_bind (genok_of_stateless stateless_getTableIdx) fun ti _ => ?_
  refine genok_bind (genok_readTable ti) fun t _ => ?_
  refine genok_bind (genok_of_stateless (stateless_getRandUniqueIndexForPointGet t))
    fun ui _ => ?_
  refine genok_ite _ ?_ (genok_predicatesRest t ui)
  refine genok_bind (genok_of_stateless (stateless_randIntn 5)) fun z _ => ?_
  refine genok_ite _ ?_ (genok_predicatesRest t ui)
  refine genok_repRange (List.not_mem_nil _) notlim_append genok_andPredicates
    (genok_pure _ (by decide)) 2 5

theorem genok_updateAssignment (ti : Nat) :
    GenOk (fun a => "limit" ∉ a) (updateAssignment ti) := by
  unfold updateAssignment
  refine genok_bind (genok_readTable ti) fun t _ => ?_
  refine genok_bind (genok_of_stateless (stateless_getRandColumn t)) fun c _ => ?_
  refine genok_bind (genok_randomValue c) fun v hv => ?_
  refine genok_orEval (List.not_mem_nil _) ?_
  intro p hp
  simp only [List.mem_cons, List.not_mem_nil, or_false] at hp
  rcases hp with rfl
  refine genok_pure _ ?_
  intro hmem
  simp only [List.mem_cons, List.not_mem_nil, or_false] at hmem
  rcases hmem with hmem | hmem | hmem
  · exact columnName_ne_limit c hmem.symm
  · exact absurd hmem (by decide)
  · exact hv hmem.symm

theorem genok_commonUpdate : GenOk (fun a => "limit" ∉ a) commonUpdate := by
  unfold commonUpdate
  refine genok_bind (genok_of_stateless stateless_getRandTableIdx) fun ti _ => ?_
  refine genok_bind (genok_readTable ti) fun t _ => ?_
  refine genok_bind (genok_modify_keep_tables _ (fun s => rfl)) fun _ _ => ?_
  refine genok_bind (genok_of_stateless (stateless_getRandColumns t)) fun obc _ => ?_
  refine genok_bind
    (genok_repRange (List.not_mem_nil _) notlim_append (genok_updateAssignment ti)
      (genok_pure _ (by decide)) 1 3) fun assigns hassigns => ?_
  refine genok_bind genok_predicates fun preds hpreds => ?_
  refine genok_bind (Q := fun a => "limit" ∉ a)
    (genok_optIf (Q := fun a => "limit" ∉ a) (List.not_mem_nil _) _ ?_)
    fun tailTs htail => ?_
  · refine genok_bind (genok_pure (P := fun a => "limit" ∉ a) ([] : List String) (List.not_mem_nil _))
      fun ml hml => ?_
    refine genok_pure _ ?_
    intro hmem
    simp only [List.mem_append, List.mem_cons, List.not_mem_nil, or_false] at hmem
    rcases hmem with (hmem | hmem) | hmem
    · exact absurd hmem (by decide)
    · exact printColumnNamesWithoutPar_ne_limit obc hmem.symm
    · exact hml hmem
  · refine genok_pure _ ?_
    intro hmem
    simp only [List.mem_append, List.mem_cons, List.not_mem_nil, or_false] at hmem
    rcases hmem with ((((hmem | hmem | hmem) | hmem) | hmem) | hmem) | hmem
    · exact absurd hmem (by decide)
    · exact tableName_ne_limit t hmem.symm
    · exact absurd hmem (by decide)
    · exact hassigns hmem
    · exact absurd hmem (by decide)
    · exact hpreds hmem
    · exact htail hmem

theorem genok_commonDelete : GenOk (fun a => "limit" ∉ a) commonDelete := by
  unfold commonDelete
  refine genok_bind (genok_of_stateless stateless_getS) fun s0 _ => ?_
  refine genok_bind (genok_of_stateless stateless_getRandTableIdx) fun ti _ => ?_
  refine genok_bind (genok_readTable ti) fun t _ => ?_
  refine genok_bind (genok_of_stateless (stateless_randIntn _)) fun z _ => ?_
  refine genok_bind (P := fun _ => True)
    (genok_ite _ (genok_of_stateless (stateless_getRandColumn t))
      (genok_of_stateless (stateless_getRandIndexFirstColumnWithWeight t _ _)))
    fun col _ => ?_
  refine genok_bind (genok_modify_keep_tables _ (fun s => rfl)) fun _ _ => ?_
  refine genok_bind (P := fun b => "limit" ∉ b) (genok_orEval (List.not_mem_nil _) ?_)
    fun body hbody => ?_
  · intro p hp
    simp only [List.mem_cons, List.not_mem_nil, or_false] at hp
    rcases hp with rfl | rfl | rfl
    · refine genok_bind genok_predicates fun pr hpr => ?_
      refine genok_bind (genok_pure (P := fun a => "limit" ∉ a) ([] : List String) (List.not_mem_nil _))
        fun ml hml => ?_
      exact genok_pure _ (notlim_append _ _ hpr hml)
    · refine genok_bind
        (genok_repRange (List.not_mem_nil _) notlim_append ?_
          (genok_pure _ (by decide)) 1 9) fun vs hvs => ?_
      · refine genok_bind (genok_randomValue col) fun v hv => ?_
        refine genok_pure _ ?_
        intro hmem
        rw [List.mem_singleton] at hmem
        exact hv hmem.symm
      · refine genok_bind (genok_pure (P := fun a => "limit" ∉ a) ([] : List String) (List.not_mem_nil _))
          fun ml hml => ?_
        refine genok_pure _ ?_
        intro hmem
        simp only [List.mem_append, List.mem_cons, List.mem_singleton,
          List.not_mem_nil, or_false] at hmem
        rcases hmem with (((hmem | hmem | hmem) | hmem) | hmem) | hmem
        · exact columnName_ne_limit col hmem.symm
        · exact absurd hmem (by decide)
        · exact absurd hmem (by decide)
        · exact hvs hmem
        · exact absurd hmem (by decide)
        · exact hml hmem
    · refine genok_bind (genok_pure (P := fun a => "limit" ∉ a) ([] : List String) (List.not_mem_nil _))
        fun ml hml => ?_
      refine genok_pure _ ?_
      intro hmem
      simp only [List.mem_append, List.mem_cons, List.not_mem_nil, or_false] at hmem
      rcases hmem with (hmem | hmem) | hmem
      · exact columnName_ne_limit col hmem.symm
      · exact absurd hmem (by decide)
      · exact hml hmem
  · refine genok_pure _ ?_
    intro hmem
    simp only [List.mem_append, List.mem_cons, List.not_mem_nil, or_false] at hmem
    rcases hmem with (hmem | hmem | hmem) | hmem
    · exact absurd hmem (by decide)
    · exact tableName_ne_limit t hmem.symm
    · exact absurd hmem (by decide)
    · exact hbody hmem

/-- C10: `maybeLimit` is the empty production for every state, and —
provided no sampled row value stored in the catalog is the bare keyword
token `limit` — no token of any update statement emitted by `commonUpdate`
and no token of any delete statement emitted by `commonDelete` is `limit`,
so these statements never carry a limit clause. -/
theorem c10_no_limit_clause :
    maybeLimit = (pure [] : Gen (List String)) ∧
    (∀ s r a s2 r2, commonUpdate s r = some (a, s2, r2) → ValsOk s = true →
      "limit" ∉ a) ∧
    (∀ s r a s2 r2, commonDelete s r = some (a, s2, r2) → ValsOk s = true →
      "limit" ∉ a) :=
  ⟨rfl,
   fun s r a s2 r2 h hv => (genok_commonUpdate s r a s2 r2 h hv).1,
   fun s r a s2 r2 h hv => (genok_commonDelete s r a s2 r2 h hv).1⟩

/-- C10 witness: in the fixture state, a concrete `commonUpdate` run and a
concrete `commonDelete` run; neither emitted token list contains `limit`. -/
theorem c10_no_limit_clause_witness :
    "limit" ∉ ["update", "t0", "set", "c0", "=", "null", "where", "t0.c0", "=", "null"] ∧
      "limit" ∉ ["delete from", "t0", "where", "t0.c0", "=", "null"] :=
  ⟨c10_no_limit_clause.2.1 stEx4 ⟨[]⟩
      ["update", "t0", "set", "c0", "=", "null", "where", "t0.c0", "=", "null"]
      { stEx4 with scopeCurrentTable := some 0 } ⟨[]⟩ rfl (by decide),
   c10_no_limit_clause.2.2 stEx4 ⟨[]⟩
      ["delete from", "t0", "where", "t0.c0", "=", "null"]
      { stEx4 with scopeCurrentTable := some 0 } ⟨[]⟩ rfl (by decide)⟩

/-!  createTable analyses (C3, C7): the created table's column audit and
the partition-column/unique-index invariant. -/

theorem randIntn_eq_some {n : Nat} {s : GState} {r : R} {v : Nat} {s2 : GState} {r2 : R}
    (h : randIntn n s r = some (v, s2, r2)) : v < n ∧ s2 = s := by
  unfold randIntn at h
  split at h
  · exact absurd h (by simp)
  · rename_i hn
    have h2 : (some (r.next.1 % n, s, r.next.2) : Option (Nat × GState × R)) =
        some (v, s2, r2) := h
    obtain ⟨h1, hs, -⟩ := some_triple_inj h2
    exact ⟨h1 ▸ Nat.mod_lt _ (Nat.pos_of_ne_zero hn), hs.symm⟩

theorem listUpd_get_self {α : Type} : ∀ (l : List α) (i : Nat) (f : α → α) (a : α),
    l.get? i = some a → (listUpd l i f).get? i = some (f a)
  | [], i, f, a, h => by simp at h
  | x :: xs, 0, f, a, h => by
    have h2 : some x = some a := h
    obtain rfl := Option.some.inj h2
    rfl
  | x :: xs, i + 1, f, a, h => listUpd_get_self xs i f a h

/-- The column audit of the table under construction: column count,
pairwise distinct ids, all ids below the global column-id counter. -/
def ColShape (ti n : Nat) (s : GState) : Prop :=
  ∃ t, s.tables.get? ti = some t ∧ t.columns.length = n ∧
    (t.columns.map Column.id).Nodup ∧ ∀ c ∈ t.columns, c.id < s.colIdCnt

theorem colDef_shape (ti n : Nat) (s : GState) (r : R) (a : List String)
    (s2 : GState) (r2 : R) (h : colDef ti s r = some (a, s2, r2))
    (hs : ColShape ti n s) : ColShape ti (n + 1) s2 := by
  obtain ⟨t, ht, hlen, hnd, hbound⟩ := hs
  unfold colDef at h
  rw [Gen.bind_eq_some] at h
  obtain ⟨id, s1, r1, hid, h⟩ := h
  have hid2 : (some (s.colIdCnt, { s with colIdCnt := s.colIdCnt + 1 }, r) :
      Option (Nat × GState × R)) = some (id, s1, r1) := hid
  obtain ⟨hideq, hs1, -⟩ := some_triple_inj hid2
  subst hs1
  rw [Gen.bind_eq_some] at h
  obtain ⟨v, sv, rv, hv, h⟩ := h
  have hsv := stateless_randIntn 7 _ _ _ _ _ hv
  subst hsv
  rw [Gen.bind_eq_some] at h
  obtain ⟨nb, sb, rb, hnb, h⟩ := h
  have hsb := stateless_randomBool _ _ _ _ _ hnb
  subst hsb
  rw [Gen.bind_eq_some] at h
  obtain ⟨u, su, ru, hu, h⟩ := h
  have hu2 : (some ((), { { s with colIdCnt := s.colIdCnt + 1 } with
      tables := listUpd s.tables ti (·.appendColumn ⟨id, colTpOfDraw v, nb⟩) }, rb) :
      Option (Unit × GState × R)) = some (u, su, ru) := hu
  obtain ⟨-, hsu, -⟩ := some_triple_inj hu2
  have hp : (some ([(⟨id, colTpOfDraw v, nb⟩ : Column).name,
      printColumnType ⟨id, colTpOfDraw v, nb⟩], su, ru) :
      Option (List String × GState × R)) = some (a, s2, r2) := h
  obtain ⟨-, hs2, -⟩ := some_triple_inj hp
  rw [← hs2, ← hsu]
  refine ⟨t.appendColumn ⟨id, colTpOfDraw v, nb⟩, listUpd_get_self _ _ _ _ ht, ?_, ?_, ?_⟩
  · simp [Table.appendColumn, hlen]
  · unfold Table.appendColumn
    simp only [List.map_append, List.map_cons, List.map_nil]
    rw [List.nodup_append]
    refine ⟨hnd, by simp, ?_⟩
    intro x hx hmem
    rw [List.mem_singleton] at hmem
    obtain ⟨c, hc, hcx⟩ := List.mem_map.mp hx
    have hcb := hbound c hc
    subst hideq
    omega
  · intro c hc
    unfold Table.appendColumn at hc
    simp only [] at hc
    rcases List.mem_append.mp hc with hc | hc
    · exact Nat.lt_succ_of_lt (hbound c hc)
    · rw [List.mem_singleton] at hc
      subst hc
      subst hideq
      exact Nat.lt_succ_self _

theorem repTail_colDef_shape (ti : Nat) : ∀ (k n : Nat) (s : GState) (r : R)
    (a : List String) (s2 : GState) (r2 : R),
    repTail (colDef ti) (pure [","]) k s r = some (a, s2, r2) →
    ColShape ti n s → ColShape ti (n + k) s2
  | 0, n, s, r, a, s2, r2, h, hs => by
    have h2 : (some (([] : List String), s, r) : Option (List String × GState × R)) =
        some (a, s2, r2) := h
    obtain ⟨-, hs2, -⟩ := some_triple_inj h2
    rw [← hs2]
    exact hs
  | k + 1, n, s, r, a, s2, r2, h, hs => by
    unfold repTail at h
    rw [Gen.bind_eq_some] at h
    obtain ⟨sp, s1, r1, hsp, h⟩ := h
    have h1 := stateless_pure _ _ _ _ _ _ hsp
    subst h1
    rw [Gen.bind_eq_some] at h
    obtain ⟨tkn, sb, rb, hb, h⟩ := h
    have hsb := colDef_shape ti n _ r1 tkn sb rb hb hs
    rw [Gen.bind_eq_some] at h
    obtain ⟨rest, sc, rc, hrest, h⟩ := h
    have hsc := repTail_colDef_shape ti k (n + 1) sb rb rest sc rc hrest hsb
    obtain ⟨-, hs2, -⟩ := some_triple_inj h
    rw [← hs2]
    have he : n + (k + 1) = (n + 1) + k := by omega
    rw [he]
    exact hsc

theorem repK_colDef_shape (ti k n : Nat) (s : GState) (r : R) (a : List String)
    (s2 : GState) (r2 : R) (h : repK (colDef ti) (pure [","]) k s r = some (a, s2, r2))
    (hs : ColShape ti n s) : ColShape ti (n + k) s2 := by
  cases k with
  | zero =>
    have h2 : (some (([] : List String), s, r) : Option (List String × GState × R)) =
        some (a, s2, r2) := h
    obtain ⟨-, hs2, -⟩ := some_triple_inj h2
    rw [← hs2]
    exact hs
  | succ k =>
    unfold repK at h
    rw [Gen.bind_eq_some] at h
    obtain ⟨tkn, sb, rb, hb, h⟩ := h
    have hsb := colDef_shape ti n s r tkn sb rb hb hs
    rw [Gen.bind_eq_some] at h
    obtain ⟨rest, sc, rc, hrest, h⟩ := h
    have hsc := repTail_colDef_shape ti k (n + 1) sb rb rest sc rc hrest hsb
    obtain ⟨-, hs2, -⟩ := some_triple_inj h
    rw [← hs2]
    have he : n + (k + 1) = (n + 1) + k := by omega
    rw [he]
    exact hsc

theorem colDefs_shape (ti : Nat) (s : GState) (r : R) (a : List String)
    (s2 : GState) (r2 : R) (h : colDefs ti s r = some (a, s2, r2))
    (hs : ColShape ti 0 s) :
    (s.initialized = false → ColShape ti s.ctrl.InitColCount s2) ∧
    (s.initialized = true → ∃ k, 1 ≤ k ∧ k ≤ s.ctrl.Weight.CreateTable_MaxColumnCnt ∧
      ColShape ti k s2) := by
  unfold colDefs at h
  rw [Gen.bind_eq_some] at h
  obtain ⟨s0, s1, r1, hgs, h⟩ := h
  have hgs2 : (some (s, s, r) : Option (GState × GState × R)) = some (s0, s1, r1) := hgs
  obtain ⟨rfl, rfl, rfl⟩ := some_triple_inj hgs2
  constructor
  · intro hinit
    rw [if_pos (by rw [hinit]; rfl)] at h
    have hres := repK_colDef_shape ti s.ctrl.InitColCount 0 s r a s2 r2 h hs
    simpa using hres
  · intro hinit
    rw [if_neg (by rw [hinit]; simp)] at h
    unfold repRange at h
    rw [Gen.bind_eq_some] at h
    obtain ⟨nv, sn, rn, hnv, h⟩ := h
    obtain ⟨hlt, hsn⟩ := randIntn_eq_some hnv
    rw [hsn] at h
    have hres := repK_colDef_shape ti (1 + nv) 0 s rn a s2 r2 h hs
    exact ⟨1 + nv, by omega, by omega, by simpa using hres⟩

/-- The later `createTable` phases keep the created table's columns. -/
def ColsKeep (ti : Nat) (sa sb : GState) : Prop :=
  ∀ t, sa.tables.get? ti = some t →
    ∃ t2, sb.tables.get? ti = some t2 ∧ t2.columns = t.columns

theorem colsKeep_refl (ti : Nat) : ∀ s, ColsKeep ti s s := fun _ t ht => ⟨t, ht, rfl⟩

theorem colsKeep_trans (ti : Nat) :
    ∀ a b c, ColsKeep ti a b → ColsKeep ti b c → ColsKeep ti a c := by
  intro a b c h1 h2 t ht
  obtain ⟨t1, ht1, he1⟩ := h1 t ht
  obtain ⟨t2, ht2, he2⟩ := h2 t1 ht1
  exact ⟨t2, ht2, by rw [he2, he1]⟩

theorem colsKeep_updTable (ti : Nat) (f : Table → Table)
    (hf : ∀ tb, (f tb).columns = tb.columns) : GPres (ColsKeep ti) (updTable ti f) := by
  intro s r a s2 r2 h
  have h2 : (some ((), { s with tables := listUpd s.tables ti f }, r) :
      Option (Unit × GState × R)) = some (a, s2, r2) := h
  obtain ⟨-, hs2, -⟩ := some_triple_inj h2
  rw [← hs2]
  intro t ht
  exact ⟨f t, listUpd_get_self _ _ _ _ ht, hf t⟩

theorem colsKeep_modify_tables_eq (ti : Nat) (f : GState → GState)
    (hf : ∀ s, (f s).tables = s.tables) : GPres (ColsKeep ti) (modifyS f) := by
  intro s r a s2 r2 h
  have h2 : (some ((), f s, r) : Option (Unit × GState × R)) = some (a, s2, r2) := h
  obtain ⟨-, hs2, -⟩ := some_triple_inj h2
  rw [← hs2]
  intro t ht
  exact ⟨t, by rw [hf s]; exact ht, rfl⟩

theorem colsKeep_allocIdxID (ti : Nat) : GPres (ColsKeep ti) allocIdxID := by
  intro s r a s2 r2 h
  have h2 : (some (s.idxIdCnt, { s with idxIdCnt := s.idxIdCnt + 1 }, r) :
      Option (Nat × GState × R)) = some (a, s2, r2) := h
  obtain ⟨-, hs2, -⟩ := some_triple_inj h2
  rw [← hs2]
  intro t ht
  exact ⟨t, ht, rfl⟩

theorem colsKeep_partitionDef (ti : Nat) : GPres (ColsKeep ti) (partitionDef ti) := by
  unfold partitionDef
  refine gpres_bind (colsKeep_trans ti)
    (gpres_of_stateless (colsKeep_refl ti) stateless_getS) fun s0 => ?_
  refine gpres_bind (colsKeep_trans ti)
    (gpres_of_stateless (colsKeep_refl ti) (stateless_readTable ti)) fun t => ?_
  refine gpres_bind (colsKeep_trans ti)
    (gpres_of_stateless (colsKeep_refl ti) (stateless_getRandColumnForPartition t))
    fun pcOpt => ?_
  cases pcOpt with
  | none => exact gpres_pure (colsKeep_refl ti) _
  | some pcol =>
    refine gpres_bind (colsKeep_trans ti)
      (colsKeep_modify_tables_eq ti _ (fun s => rfl)) fun _ => ?_
    refine gpres_bind (colsKeep_trans ti) (colsKeep_updTable ti _ (fun tb => rfl))
      fun _ => ?_
    refine gpres_bind (colsKeep_trans ti)
      (gpres_of_stateless (colsKeep_refl ti) (stateless_randIntn 6)) fun z => ?_
    cases hz : (match s0.ctrl.Weight.CreateTable_Partition_Type with
      | "hash" => 0
      | "list" => 2
      | "range" => 1
      | _ => z : Nat) with
    | zero =>
      exact gpres_bind (colsKeep_trans ti)
        (gpres_of_stateless (colsKeep_refl ti) (stateless_randomNum 1 6)) fun _ =>
        gpres_pure (colsKeep_refl ti) _
    | succ m =>
      cases m with
      | zero =>
        refine gpres_bind (colsKeep_trans ti)
          (gpres_of_stateless (colsKeep_refl ti) (stateless_randIntn 5)) fun pc => ?_
        refine gpres_bind (colsKeep_trans ti)
          (gpres_of_stateless (colsKeep_refl ti) (stateless_randomValuesAsc pcol _))
          fun _ => ?_
        exact gpres_bind (colsKeep_trans ti)
          (gpres_of_stateless (colsKeep_refl ti) (stateless_randIntn 2)) fun _ =>
          gpres_pure (colsKeep_refl ti) _
      | succ m2 =>
        cases m2 with
        | zero =>
          refine gpres_bind (colsKeep_trans ti)
            (gpres_of_stateless (colsKeep_refl ti) (stateless_randomValuesAsc pcol 20))
            fun _ => ?_
          exact gpres_bind (colsKeep_trans ti)
            (gpres_of_stateless (colsKeep_refl ti) (stateless_randIntn 3)) fun _ =>
            gpres_pure (colsKeep_refl ti) _
        | succ m3 => exact gpres_pure (colsKeep_refl ti) _

theorem colsKeep_idxDef (ti : Nat) : GPres (ColsKeep ti) (idxDef ti) := by
  unfold idxDef
  refine gpres_bind (colsKeep_trans ti)
    (gpres_of_stateless (colsKeep_refl ti) stateless_getS) fun s0 => ?_
  refine gpres_bind (colsKeep_trans ti)
    (gpres_of_stateless (colsKeep_refl ti) (stateless_readTable ti)) fun t => ?_
  refine gpres_bind (colsKeep_trans ti) (colsKeep_allocIdxID ti) fun iid => ?_
  refine gpres_bind (colsKeep_trans ti)
    (gpres_of_stateless (colsKeep_refl ti) (stateless_genNewIndex t iid)) fun idx0 => ?_
  refine gpres_bind (colsKeep_trans ti) ?_ fun idx => ?_
  · refine gpres_ite _ ?_ (gpres_pure (colsKeep_refl ti) _)
    cases s0.scopeCurrentPartitionCol with
    | some c => exact gpres_pure (colsKeep_refl ti) _
    | none => exact gpres_pure (colsKeep_refl ti) _
  · refine gpres_bind (colsKeep_trans ti) (colsKeep_updTable ti _ (fun tb => rfl))
      fun _ => ?_
    refine gpres_bind (colsKeep_trans ti)
      (gpres_optIf (colsKeep_refl ti) _ (gpres_pure (colsKeep_refl ti) _)) fun ck => ?_
    exact gpres_pure (colsKeep_refl ti) _

theorem colsKeep_idxDefs (ti : Nat) : GPres (ColsKeep ti) (idxDefs ti) := by
  unfold idxDefs
  refine gpres_bind (colsKeep_trans ti)
    (gpres_of_stateless (colsKeep_refl ti) stateless_getS) fun s0 => ?_
  exact gpres_repRange (colsKeep_refl ti) (colsKeep_trans ti) 1 _
    (colsKeep_idxDef ti)
    (gpres_of_stateless (colsKeep_refl ti) (stateless_pure _))

/-- The column-definition phase keeps the created table's partition-column
and index lists. -/
def PIKeep (ti : Nat) (sa sb : GState) : Prop :=
  ∀ t, sa.tables.get? ti = some t →
    ∃ t2, sb.tables.get? ti = some t2 ∧
      t2.partitionColumns = t.partitionColumns ∧ t2.indices = t.indices

theorem piKeep_refl (ti : Nat) : ∀ s, PIKeep ti s s := fun _ t ht => ⟨t, ht, rfl, rfl⟩

theorem piKeep_trans (ti : Nat) :
    ∀ a b c, PIKeep ti a b → PIKeep ti b c → PIKeep ti a c := by
  intro a b c h1 h2 t ht
  obtain ⟨t1, ht1, hp1, hi1⟩ := h1 t ht
  obtain ⟨t2, ht2, hp2, hi2⟩ := h2 t1 ht1
  exact ⟨t2, ht2, by rw [hp2, hp1], by rw [hi2, hi1]⟩

theorem piKeep_colDef (ti : Nat) : GPres (PIKeep ti) (colDef ti) := by
  unfold colDef
  intro s r a s2 r2 h
  rw [Gen.bind_eq_some] at h
  obtain ⟨id, s1, r1, hid, h⟩ := h
  have hid2 : (some (s.colIdCnt, { s with colIdCnt := s.colIdCnt + 1 }, r) :
      Option (Nat × GState × R)) = some (id, s1, r1) := hid
  obtain ⟨-, hs1, -⟩ := some_triple_inj hid2
  subst hs1
  rw [Gen.bind_eq_some] at h
  obtain ⟨v, sv, rv, hv, h⟩ := h
  have hsv := stateless_randIntn 7 _ _ _ _ _ hv
  subst hsv
  rw [Gen.bind_eq_some] at h
  obtain ⟨nb, sb, rb, hnb, h⟩ := h
  have hsb := stateless_randomBool _ _ _ _ _ hnb
  subst hsb
  rw [Gen.bind_eq_some] at h
  obtain ⟨u, su, ru, hu, h⟩ := h
  have hu2 : (some ((), { { s with colIdCnt := s.colIdCnt + 1 } with
      tables := listUpd s.tables ti (·.appendColumn ⟨id, colTpOfDraw v, nb⟩) }, rb) :
      Option (Unit × GState × R)) = some (u, su, ru) := hu
  obtain ⟨-, hsu, -⟩ := some_triple_inj hu2
  obtain ⟨-, hs2, -⟩ := some_triple_inj h
  rw [← hs2, ← hsu]
  intro t ht
  exact ⟨t.appendColumn ⟨id, colTpOfDraw v, nb⟩, listUpd_get_self _ _ _ _ ht, rfl, rfl⟩

theorem piKeep_colDefs (ti : Nat) : GPres (PIKeep ti) (colDefs ti) := by
  unfold colDefs
  refine gpres_bind (piKeep_trans ti)
    (gpres_of_stateless (piKeep_refl ti) stateless_getS) fun s0 => ?_
  refine gpres_ite _ ?_ ?_
  · exact gpres_repK (piKeep_refl ti) (piKeep_trans ti) (piKeep_colDef ti)
      (gpres_of_stateless (piKeep_refl ti) (stateless_pure _)) _
  · exact gpres_repRange (piKeep_refl ti) (piKeep_trans ti) 1 _ (piKeep_colDef ti)
      (gpres_of_stateless (piKeep_refl ti) (stateless_pure _))

theorem mem_appendColumnIfNotExists_self (i : Index) (c : Column) :
    c ∈ (i.appendColumnIfNotExists c).columns := by
  unfold Index.appendColumnIfNotExists
  split
  · assumption
  · simp

/-- C3 invariant of the table under construction: the scope records each
partition column, and every unique or primary index contains every
partition column. -/
def PartInv (ti : Nat) (s : GState) : Prop :=
  ∃ t, s.tables.get? ti = some t ∧
    (∀ p ∈ t.partitionColumns, s.scopeCurrentPartitionCol = some p) ∧
    (∀ p ∈ t.partitionColumns, ∀ idx ∈ t.indices,
      idx.isUniqueIdx = true → p ∈ idx.columns)

/-- The randomness-only tail of `partitionDef` after the catalog update. -/
theorem stateless_partitionDef_tail (w : Weights) (pcol : Column) :
    StateLess ((randIntn 6 : Gen Nat) >>= fun z =>
      match (match w.CreateTable_Partition_Type with
        | "hash" => 0
        | "list" => 2
        | "range" => 1
        | _ => z : Nat) with
      | 0 => do
        let pn ← randomNum 1 6
        pure ["partition by", "hash(", pcol.name, ")", "partitions", pn]
      | 1 => do
        let pcount ← randIntn 5
        let vals ← pcol.randomValuesAsc (pcount + 1)
        let z2 ← randIntn 2
        let vals2 := if z2 = 0 then vals ++ ["maxvalue"] else vals
        pure ["partition by range (", pcol.name, ") (", printRangePartitionDefs vals2, ")"]
      | 2 => do
        let listVals ← pcol.randomValuesAsc 20
        let z3 ← randIntn 3
        let listGroups := randomGroups listVals (z3 + 1)
        pure ["partition by", "list(", pcol.name, ") (", printListPartitionDefs listGroups, ")"]
      | _ => pure []) := by
  refine stateless_bind (stateless_randIntn 6) fun z => ?_
  cases hz : (match w.CreateTable_Partition_Type with
    | "hash" => 0
    | "list" => 2
    | "range" => 1
    | _ => z : Nat) with
  | zero => exact stateless_bind (stateless_randomNum 1 6) fun _ => stateless_pure _
  | succ m =>
    cases m with
    | zero =>
      refine stateless_bind (stateless_randIntn 5) fun pc => ?_
      refine stateless_bind (stateless_randomValuesAsc pcol _) fun _ => ?_
      exact stateless_bind (stateless_randIntn 2) fun _ => stateless_pure _
    | succ m2 =>
      cases m2 with
      | zero =>
        refine stateless_bind (stateless_randomValuesAsc pcol 20) fun _ => ?_
        exact stateless_bind (stateless_randIntn 3) fun _ => stateless_pure _
      | succ m3 => exact stateless_pure _

/-- A successful `partitionDef` on a table without partition columns and
without indices establishes the C3 invariant: either no partition clause is
emitted, or the partition column is both recorded in the scope and appended
to the table before any index exists. -/
theorem partitionDef_establishes (ti : Nat) (s : GState) (r : R) (a : List String)
    (s2 : GState) (r2 : R) (h : partitionDef ti s r = some (a, s2, r2))
    (t : Table) (ht : s.tables.get? ti = some t)
    (hpc : t.partitionColumns = []) (hidx : t.indices = []) : PartInv ti s2 := by
  unfold partitionDef at h
  rw [Gen.bind_eq_some] at h
  obtain ⟨s0, sa, ra, hgs, h⟩ := h
  have hgs2 : (some (s, s, r) : Option (GState × GState × R)) = some (s0, sa, ra) := hgs
  obtain ⟨rfl, rfl, rfl⟩ := some_triple_inj hgs2
  rw [Gen.bind_eq_some] at h
  obtain ⟨t0, sb, rb, hrt, h⟩ := h
  obtain ⟨hget0, rfl, rfl⟩ := readTable_eq_some hrt
  rw [ht] at hget0
  obtain rfl := Option.some.inj hget0
  rw [Gen.bind_eq_some] at h
  obtain ⟨pcOpt, sc, rc, hpo, h⟩ := h
  have hsc := stateless_getRandColumnForPartition t _ _ _ _ _ hpo
  subst hsc
  cases pcOpt with
  | none =>
    obtain ⟨-, hs2, -⟩ := some_triple_inj h
    rw [← hs2]
    refine ⟨t, ht, ?_, ?_⟩
    · intro p hp
      rw [hpc] at hp
      exact absurd hp (List.not_mem_nil p)
    · intro p hp
      rw [hpc] at hp
      exact absurd hp (List.not_mem_nil p)
  | some pcol =>
    rw [Gen.bind_eq_some] at h
    obtain ⟨u1, sd, rd, hst, h⟩ := h
    have hst2 : (some ((), { sc with scopeCurrentPartitionCol := some pcol }, rc) :
        Option (Unit × GState × R)) = some (u1, sd, rd) := hst
    obtain ⟨-, hsd, -⟩ := some_triple_inj hst2
    rw [Gen.bind_eq_some] at h
    obtain ⟨u2, se, re, hupd, h⟩ := h
    have hupd2 : (some ((), { sd with
        tables := listUpd sd.tables ti (·.appendPartitionColumn pcol) }, rd) :
        Option (Unit × GState × R)) = some (u2, se, re) := hupd
    obtain ⟨-, hse, -⟩ := some_triple_inj hupd2
    have hs2 := stateless_partitionDef_tail sc.ctrl.Weight pcol _ _ _ _ _ h
    rw [hs2, ← hse, ← hsd]
    refine ⟨t.appendPartitionColumn pcol, ?_, ?_, ?_⟩
    · exact listUpd_get_self _ _ _ _ ht
    · intro p hp
      unfold Table.appendPartitionColumn at hp
      simp only [] at hp
      rw [hpc] at hp
      rw [List.nil_append, List.mem_singleton] at hp
      rw [hp]
    · intro p hp idx hidx2 hu
      unfold Table.appendPartitionColumn at hidx2
      simp only [] at hidx2
      rw [hidx] at hidx2
      exact absurd hidx2 (List.not_mem_nil idx)

/-- One `idxDef` evaluation keeps the C3 invariant: the freshly generated
index, when unique, receives the scope's partition column via
`appendColumnIfNotExists` before it is appended to the table. -/
theorem partInv_idxDef (ti : Nat) (s : GState) (r : R) (a : List String)
    (s2 : GState) (r2 : R) (h : idxDef ti s r = some (a, s2, r2))
    (hs : PartInv ti s) : PartInv ti s2 := by
  obtain ⟨t, ht, hscope, hinv⟩ := hs
  unfold idxDef at h
  rw [Gen.bind_eq_some] at h
  obtain ⟨s0, sa, ra, hgs, h⟩ := h
  have hgs2 : (some (s, s, r) : Option (GState × GState × R)) = some (s0, sa, ra) := hgs
  obtain ⟨rfl, rfl, rfl⟩ := some_triple_inj hgs2
  rw [Gen.bind_eq_some] at h
  obtain ⟨t0, sb, rb, hrt, h⟩ := h
  obtain ⟨hget0, rfl, rfl⟩ := readTable_eq_some hrt
  rw [ht] at hget0
  obtain rfl := Option.some.inj hget0
  rw [Gen.bind_eq_some] at h
  obtain ⟨iid, sc, rc, hal, h⟩ := h
  have hal2 : (some (sb.idxIdCnt, { sb with idxIdCnt := sb.idxIdCnt + 1 }, rb) :
      Option (Nat × GState × R)) = some (iid, sc, rc) := hal
  obtain ⟨-, hsc, -⟩ := some_triple_inj hal2
  rw [Gen.bind_eq_some] at h
  obtain ⟨idx0, sd, rd, hgn, h⟩ := h
  have hsd := stateless_genNewIndex t iid _ _ _ _ _ hgn
  subst hsd
  rw [Gen.bind_eq_some] at h
  obtain ⟨idx, sei, rei, hsel, h⟩ := h
  have hidxm : sei = sd ∧
      (idx.isUniqueIdx = true → ∀ p ∈ t.partitionColumns, p ∈ idx.columns) := by
    by_cases hub : idx0.isUniqueIdx = true
    · rw [if_pos hub] at hsel
      cases hsp : sb.scopeCurrentPartitionCol with
      | some c =>
        rw [hsp] at hsel
        have hsel2 : (some (idx0.appendColumnIfNotExists c, sd, rd) :
            Option (Index × GState × R)) = some (idx, sei, rei) := hsel
        obtain ⟨hie, hse, -⟩ := some_triple_inj hsel2
        refine ⟨hse.symm, fun _ p hp => ?_⟩
        have hcp : some p = some c := by rw [← hsp, hscope p hp]
        obtain rfl := Option.some.inj hcp
        rw [← hie]
        exact mem_appendColumnIfNotExists_self idx0 p
      | none =>
        rw [hsp] at hsel
        have hsel2 : (some (idx0, sd, rd) : Option (Index × GState × R)) =
            some (idx, sei, rei) := hsel
        obtain ⟨-, hse, -⟩ := some_triple_inj hsel2
        refine ⟨hse.symm, fun _ p hp => ?_⟩
        have hcp := hscope p hp
        rw [hsp] at hcp
        exact absurd hcp (by simp)
    · rw [if_neg hub] at hsel
      have hsel2 : (some (idx0, sd, rd) : Option (Index × GState × R)) =
          some (idx, sei, rei) := hsel
      obtain ⟨hie, hse, -⟩ := some_triple_inj hsel2
      refine ⟨hse.symm, fun hu2 p hp => ?_⟩
      rw [← hie] at hu2
      exact absurd hu2 hub
  obtain ⟨hseid, hidxok⟩ := hidxm
  subst hseid
  rw [Gen.bind_eq_some] at h
  obtain ⟨u, sf, rf, hupd, h⟩ := h
  have hupd2 : (some ((), { sei with tables := listUpd sei.tables ti (·.appendIndex idx) },
      rei) : Option (Unit × GState × R)) = some (u, sf, rf) := hupd
  obtain ⟨-, hsf, -⟩ := some_triple_inj hupd2
  rw [Gen.bind_eq_some] at h
  obtain ⟨ck, sg, rg, hck, h⟩ := h
  have hsg := stateless_optIf _ (stateless_pure _) _ _ _ _ _ hck
  subst hsg
  obtain ⟨-, hs2, -⟩ := some_triple_inj h
  rw [← hs2, ← hsf]
  have htd : sei.tables = sb.tables := by rw [← hsc]
  refine ⟨t.appendIndex idx, ?_, ?_, ?_⟩
  · rw [htd]
    exact listUpd_get_self _ _ _ _ ht
  · intro p hp
    unfold Table.appendIndex at hp
    simp only [] at hp
    have hsco : sei.scopeCurrentPartitionCol = sb.scopeCurrentPartitionCol := by
      rw [← hsc]
    rw [hsco]
    exact hscope p hp
  · intro p hp idx2 hidx2 hu2
    unfold Table.appendIndex at hp hidx2
    simp only [] at hp hidx2
    rcases List.mem_append.mp hidx2 with hm | hm
    · exact hinv p hp idx2 hm hu2
    · rw [List.mem_singleton] at hm
      subst hm
      exact hidxok hu2 p hp

def PartPres (ti : Nat) (sa sb : GState) : Prop := PartInv ti sa → PartInv ti sb

theorem partPres_refl (ti : Nat) : ∀ s, PartPres ti s s := fun _ h => h

theorem partPres_trans (ti : Nat) :
    ∀ a b c, PartPres ti a b → PartPres ti b c → PartPres ti a c :=
  fun _ _ _ h1 h2 h => h2 (h1 h)

theorem partPres_idxDef (ti : Nat) : GPres (PartPres ti) (idxDef ti) :=
  fun s r a s2 r2 h hs => partInv_idxDef ti s r a s2 r2 h hs

theorem partPres_idxDefs (ti : Nat) : GPres (PartPres ti) (idxDefs ti) := by
  unfold idxDefs
  refine gpres_bind (partPres_trans ti)
    (gpres_of_stateless (partPres_refl ti) stateless_getS) fun s0 => ?_
  exact gpres_repRange (partPres_refl ti) (partPres_trans ti) 1 _
    (partPres_idxDef ti)
    (gpres_of_stateless (partPres_refl ti) (stateless_pure _))

/-- The bookkeeping fields the TiFlash-replica branch of `createTable`
leaves untouched. -/
def MetaKeep (sa sb : GState) : Prop :=
  sb.tables = sa.tables ∧ sb.initialized = sa.initialized ∧
    sb.ctrl = sa.ctrl ∧ sb.colIdCnt = sa.colIdCnt

theorem metaKeep_refl : ∀ s, MetaKeep s s := fun _ => ⟨rfl, rfl, rfl, rfl⟩

theorem metaKeep_trans : ∀ a b c, MetaKeep a b → MetaKeep b c → MetaKeep a c := by
  intro a b c h1 h2
  exact ⟨by rw [h2.1, h1.1], by rw [h2.2.1, h1.2.1], by rw [h2.2.2.1, h1.2.2.1],
    by rw [h2.2.2.2, h1.2.2.2]⟩

theorem metaKeep_injectTodoSQL (sql : String) : GPres MetaKeep (injectTodoSQL sql) := by
  intro s r a s2 r2 h
  have h2 : (some ((), { s with todoSQL := s.todoSQL ++ [sql] }, r) :
      Option (Unit × GState × R)) = some (a, s2, r2) := h
  obtain ⟨-, hs2, -⟩ := some_triple_inj h2
  rw [← hs2]
  exact ⟨rfl, rfl, rfl, rfl⟩

/-- Phase decomposition of a successful `createTable`: the fresh empty
table is appended at position `tables.length`, then `colDefs`,
`partitionDef` and `idxDefs` run in that order, and the index-gate tail
draws randomness only. -/
theorem createTable_phases (s : GState) (r : R) (a : List String) (s2 : GState) (r2 : R)
    (h : createTable s r = some (a, s2, r2)) :
    ∃ (sA : GState) (rA : R) (aC : List String) (sB : GState) (rB : R)
      (aP : List String) (sC : GState) (rC : R) (aI : List String) (sD : GState) (rD : R),
      sA.tables.get? s.tables.length = some (genNewTable s.tableIdCnt) ∧
      sA.initialized = s.initialized ∧ sA.ctrl = s.ctrl ∧ sA.colIdCnt = s.colIdCnt ∧
      colDefs s.tables.length sA rA = some (aC, sB, rB) ∧
      partitionDef s.tables.length sB rB = some (aP, sC, rC) ∧
      idxDefs s.tables.length sC rC = some (aI, sD, rD) ∧
      s2 = sD := by
  unfold createTable at h
  rw [Gen.bind_eq_some] at h
  obtain ⟨s0, s1, r1, hgs, h⟩ := h
  have hgs2 : (some (s, s, r) : Option (GState × GState × R)) = some (s0, s1, r1) := hgs
  obtain ⟨rfl, rfl, rfl⟩ := some_triple_inj hgs2
  rw [Gen.bind_eq_some] at h
  obtain ⟨id, sa, ra, hal, h⟩ := h
  have hal2 : (some (s.tableIdCnt, { s with tableIdCnt := s.tableIdCnt + 1 }, r) :
      Option (Nat × GState × R)) = some (id, sa, ra) := hal
  obtain ⟨hid, hsa, -⟩ := some_triple_inj hal2
  rw [Gen.bind_eq_some] at h
  obtain ⟨u0, sb, rb, hap, h⟩ := h
  have hap2 : (some ((), { sa with tables := sa.tables ++ [genNewTable id] }, ra) :
      Option (Unit × GState × R)) = some (u0, sb, rb) := hap
  obtain ⟨-, hsb, -⟩ := some_triple_inj hap2
  rw [Gen.bind_eq_some] at h
  obtain ⟨u1, sc, rc, hfl, h⟩ := h
  have hmk : MetaKeep sb sc := by
    by_cases hc : s.ctrl.EnableTestTiFlash = true
    · rw [if_pos hc] at hfl
      refine (gpres_bind metaKeep_trans (metaKeep_injectTodoSQL _) fun _ =>
        gpres_bind metaKeep_trans (metaKeep_injectTodoSQL _) fun _ =>
          gpres_pure metaKeep_refl _) _ _ _ _ _ hfl
    · rw [if_neg hc] at hfl
      obtain ⟨-, hsc, -⟩ := some_triple_inj hfl
      rw [← hsc]
      exact metaKeep_refl sb
  rw [Gen.bind_eq_some] at h
  obtain ⟨aC, sB, rB, hcd, h⟩ := h
  rw [Gen.bind_eq_some] at h
  obtain ⟨aP, sC, rC, hpd, h⟩ := h
  rw [Gen.bind_eq_some] at h
  obtain ⟨aI, sD, rD, hix, h⟩ := h
  rw [Gen.bind_eq_some] at h
  obtain ⟨g, sE, rE, hg, h⟩ := h
  obtain ⟨-, hsE⟩ := randIntn_eq_some hg
  rw [Gen.bind_eq_some] at h
  obtain ⟨idxPart, sF, rF, hif, h⟩ := h
  have hsF : sF = sE := by
    by_cases hg0 : g ≠ 0
    · rw [if_pos hg0] at hif
      rw [Gen.bind_eq_some] at hif
      obtain ⟨v2, sv, rv, hv2, hif⟩ := hif
      have hsv := stateless_randIntn 2 _ _ _ _ _ hv2
      obtain ⟨-, hsf, -⟩ := some_triple_inj hif
      rw [← hsf, hsv]
    · rw [if_neg hg0] at hif
      obtain ⟨-, hsf, -⟩ := some_triple_inj hif
      exact hsf.symm
  obtain ⟨-, hs2, -⟩ := some_triple_inj h
  have hgetA : sc.tables.get? s.tables.length = some (genNewTable s.tableIdCnt) := by
    rw [hmk.1, ← hsb]
    have hta : sa.tables = s.tables := by rw [← hsa]
    rw [hta, hid]
    exact List.get?_concat_length s.tables _
  refine ⟨sc, rc, aC, sB, rB, aP, sC, rC, aI, sD, rD, hgetA, ?_, ?_, ?_, hcd, hpd, hix, ?_⟩
  · rw [hmk.2.1, ← hsb]
    rw [show sa.initialized = s.initialized from by rw [← hsa]]
  · rw [hmk.2.2.1, ← hsb]
    rw [show sa.ctrl = s.ctrl from by rw [← hsa]]
  · rw [hmk.2.2.2, ← hsb]
    rw [show sa.colIdCnt = s.colIdCnt from by rw [← hsa]]
  · rw [← hs2, hsF, hsE]

/-- A successful `idxDef` needs a non-empty column list: `GenNewIndex`
indexes the table's columns with `rand.Intn`, which panics on zero. -/
theorem idxDef_success_cols_pos (ti : Nat) (s : GState) (r : R) (a : List String)
    (s2 : GState) (r2 : R) (h : idxDef ti s r = some (a, s2, r2)) :
    ∃ t, s.tables.get? ti = some t ∧ 0 < t.columns.length := by
  unfold idxDef at h
  rw [Gen.bind_eq_some] at h
  obtain ⟨s0, s1, r1, hgs, h⟩ := h
  have hgs2 : (some (s, s, r) : Option (GState × GState × R)) = some (s0, s1, r1) := hgs
  obtain ⟨rfl, rfl, rfl⟩ := some_triple_inj hgs2
  rw [Gen.bind_eq_some] at h
  obtain ⟨t, sb, rb, hrt, h⟩ := h
  obtain ⟨hget, rfl, rfl⟩ := readTable_eq_some hrt
  rw [Gen.bind_eq_some] at h
  obtain ⟨iid, sc, rc, hal, h⟩ := h
  rw [Gen.bind_eq_some] at h
  obtain ⟨idx0, sd, rd, hgn, h⟩ := h
  refine ⟨t, hget, ?_⟩
  unfold Table.genNewIndex at hgn
  rw [Gen.bind_eq_some] at hgn
  obtain ⟨v4, sv, rv, hv4, hgn⟩ := hgn
  rw [Gen.bind_eq_some] at hgn
  obtain ⟨n, sn, rn, hn, hgn⟩ := hgn
  obtain ⟨hnlt, -⟩ := randIntn_eq_some hn
  omega

/-- A successful `idxDefs` needs a non-empty column list on the table. -/
theorem idxDefs_success_cols_pos (ti : Nat) (s : GState) (r : R) (a : List String)
    (s2 : GState) (r2 : R) (h : idxDefs ti s r = some (a, s2, r2)) :
    ∃ t, s.tables.get? ti = some t ∧ 0 < t.columns.length := by
  unfold idxDefs at h
  rw [Gen.bind_eq_some] at h
  obtain ⟨s0, s1, r1, hgs, h⟩ := h
  have hgs2 : (some (s, s, r) : Option (GState × GState × R)) = some (s0, s1, r1) := hgs
  obtain ⟨rfl, rfl, rfl⟩ := some_triple_inj hgs2
  unfold repRange at h
  rw [Gen.bind_eq_some] at h
  obtain ⟨n, sn, rn, hn, h⟩ := h
  obtain ⟨-, hsn⟩ := randIntn_eq_some hn
  rw [hsn] at h
  have he : 1 + n = n + 1 := by omega
  rw [he] at h
  unfold repK at h
  rw [Gen.bind_eq_some] at h
  obtain ⟨tk, sb, rb, hb, h⟩ := h
  exact idxDef_success_cols_pos ti s rn tk sb rb hb

/-- C3: every unique or primary index of a table emitted by `createTable`
contains every partition column of that table: `partitionDef` records the
partition column in the scope before `idxDefs` runs, and each unique index
definition appends the scope's partition column if it is not already
present. -/
theorem c3_unique_index_partition_col (s : GState) (r : R) (a : List String)
    (s2 : GState) (r2 : R) (h : createTable s r = some (a, s2, r2)) :
    ∃ t, s2.tables.get? s.tables.length = some t ∧
      ∀ p ∈ t.partitionColumns, ∀ idx ∈ t.indices,
        idx.isUniqueIdx = true → p ∈ idx.columns := by
  obtain ⟨sA, rA, aC, sB, rB, aP, sC, rC, aI, sD, rD,
    hgetA, hinitA, hctrlA, hcolA, hcd, hpd, hix, hs2⟩ := createTable_phases s r a s2 r2 h
  have hpi := piKeep_colDefs s.tables.length sA rA aC sB rB hcd _ hgetA
  obtain ⟨tB, hgetB, hpB, hiB⟩ := hpi
  have hinvC := partitionDef_establishes s.tables.length sB rB aP sC rC hpd tB hgetB
    (by rw [hpB]; rfl) (by rw [hiB]; rfl)
  have hinvD := partPres_idxDefs s.tables.length sC rC aI sD rD hix hinvC
  subst hs2
  obtain ⟨t, hget, -, hinv⟩ := hinvD
  exact ⟨t, hget, hinv⟩

/-- C3 witness: the concrete fixture `createTable` run emits `t0`
partitioned by `c0` whose primary index contains `c0`. -/
theorem c3_unique_index_partition_col_witness :
    ∃ t, stEx1.tables.get? stEx0.tables.length = some t ∧
      ∀ p ∈ t.partitionColumns, ∀ idx ∈ t.indices,
        idx.isUniqueIdx = true → p ∈ idx.columns :=
  c3_unique_index_partition_col stEx0 ⟨[]⟩
    ["create table", "t0", "(", "c0", "int", ")", "partition by", "hash(", "c0", ")",
     "partitions", "1"] stEx1 ⟨[]⟩ rfl

/-- C7: the table emitted by a successful `createTable` has pairwise
distinct (freshly allocated) column ids; it has exactly `InitColCount`
columns while the catalog is not yet initialized — hence between 1 and
`InitColCount`, the lower bound forced because `idxDefs` panics on a
column-less table — and between 1 and `CreateTable_MaxColumnCnt` columns
after initialization. -/
theorem c7_createTable_column_counts (s : GState) (r : R) (a : List String)
    (s2 : GState) (r2 : R) (h : createTable s r = some (a, s2, r2)) :
    ∃ t, s2.tables.get? s.tables.length = some t ∧
      (t.columns.map Column.id).Nodup ∧
      1 ≤ t.columns.length ∧
      (s.initialized = false → t.columns.length = s.ctrl.InitColCount) ∧
      (s.initialized = true →
        t.columns.length ≤ s.ctrl.Weight.CreateTable_MaxColumnCnt) := by
  obtain ⟨sA, rA, aC, sB, rB, aP, sC, rC, aI, sD, rD,
    hgetA, hinitA, hctrlA, hcolA, hcd, hpd, hix, hs2⟩ := createTable_phases s r a s2 r2 h
  have hshape0 : ColShape s.tables.length 0 sA :=
    ⟨genNewTable s.tableIdCnt, hgetA, rfl, by simp [genNewTable],
      by intro c hc; simp [genNewTable] at hc⟩
  have hcs := colDefs_shape s.tables.length sA rA aC sB rB hcd hshape0
  have hck1 : ColsKeep s.tables.length sB sC :=
    colsKeep_partitionDef s.tables.length sB rB aP sC rC hpd
  have hck2 : ColsKeep s.tables.length sC sD :=
    colsKeep_idxDefs s.tables.length sC rC aI sD rD hix
  obtain ⟨tC, hgetC, hposC⟩ := idxDefs_success_cols_pos s.tables.length sC rC aI sD rD hix
  subst hs2
  cases hsinit : s.initialized with
  | false =>
    have hb := hcs.1 (by rw [hinitA, hsinit])
    obtain ⟨tB, hgetB, hlenB, hndB, -⟩ := hb
    obtain ⟨tC2, hgetC2, hcolsC⟩ := hck1 tB hgetB
    obtain rfl := Option.some.inj (hgetC ▸ hgetC2)
    obtain ⟨tD, hgetD, hcolsD⟩ := hck2 tC hgetC
    refine ⟨tD, hgetD, by rw [hcolsD, hcolsC]; exact hndB, ?_, fun _ => ?_, fun habs => ?_⟩
    · rw [hcolsD]
      omega
    · rw [hcolsD, hcolsC, hlenB, hctrlA]
    · exact absurd habs (by simp)
  | true =>
    have hb := hcs.2 (by rw [hinitA, hsinit])
    obtain ⟨k, hk1, hk2, tB, hgetB, hlenB, hndB, -⟩ := hb
    obtain ⟨tC2, hgetC2, hcolsC⟩ := hck1 tB hgetB
    obtain rfl := Option.some.inj (hgetC ▸ hgetC2)
    obtain ⟨tD, hgetD, hcolsD⟩ := hck2 tC hgetC
    rw [hctrlA] at hk2
    refine ⟨tD, hgetD, by rw [hcolsD, hcolsC]; exact hndB, ?_, fun habs => ?_, fun _ => ?_⟩
    · rw [hcolsD]
      omega
    · exact absurd habs (by simp)
    · rw [hcolsD, hcolsC, hlenB]
      exact hk2

/-- C7 witness: the concrete fixture `createTable` run (uninitialized
catalog, `InitColCount = 1`) emits `t0` with exactly one column. -/
theorem c7_createTable_column_counts_witness :
    ∃ t, stEx1.tables.get? stEx0.tables.length = some t ∧
      (t.columns.map Column.id).Nodup ∧
      1 ≤ t.columns.length ∧
      (stEx0.initialized = false → t.columns.length = stEx0.ctrl.InitColCount) ∧
      (stEx0.initialized = true →
        t.columns.length ≤ stEx0.ctrl.Weight.CreateTable_MaxColumnCnt) :=
  c7_createTable_column_counts stEx0 ⟨[]⟩
    ["create table", "t0", "(", "c0", "int", ")", "partition by", "hash(", "c0", ")",
     "partitions", "1"] stEx1 ⟨[]⟩ rfl
